import Mathlib

/-!
# Movie review service: rating aggregation and review moderation

A shallow embedding of `src/db/models/Movie.js`, `src/db/models/Review.js` and
the handlers of `src/server/routes/reviews.js`.

Modelling conventions.

* JavaScript numbers are exact: bucket counts and `count` are integers (`Int`),
  ratings and the stored average are rationals (`ℚ`).  A rating is a rational
  because the request body may carry any JSON number.
* `null` / `undefined` arguments are `Option` values; JavaScript truthiness of
  a number is "present and non-zero", of a string "present and non-empty".
* A property assignment whose key is `undefined` (an array lookup outside the
  indices 0..4) does not touch any of the five buckets.
* Object ids (users, movies, reviews) are natural numbers.
* A JavaScript string is a `String`; its `length` counts UTF-16 code units
  (`jsLength`) and `trim` strips the ECMAScript white space (`jsTrim`).  An
  unpaired surrogate, which a `String` cannot hold, behaves in both like any
  other character of the basic plane.
-/

namespace MovieReview

/-! ## JavaScript strings -/

/-- The code points that `String.prototype.trim` strips, the white space and
the line terminators of ECMAScript: U+0009 to U+000D, U+0020, U+00A0, U+1680,
U+2000 to U+200A, U+2028, U+2029, U+202F, U+205F, U+3000 and U+FEFF. -/
def isJsSpace (c : Char) : Bool :=
  (decide (9 ≤ c.toNat) && decide (c.toNat ≤ 13)) || decide (c.toNat = 32) ||
    decide (c.toNat = 160) || decide (c.toNat = 5760) ||
    (decide (8192 ≤ c.toNat) && decide (c.toNat ≤ 8202)) || decide (c.toNat = 8232) ||
    decide (c.toNat = 8233) || decide (c.toNat = 8239) || decide (c.toNat = 8287) ||
    decide (c.toNat = 12288) || decide (c.toNat = 65279)

/-- The method `String.prototype.trim`: the string without its leading and
trailing white space. -/
def jsTrim (t : String) : String :=
  String.mk ((t.toList.dropWhile isJsSpace).reverse.dropWhile isJsSpace).reverse

/-- The property `length` of a string: its number of UTF-16 code units, two for
every code point above U+FFFF. -/
def jsLength (t : String) : Nat :=
  (t.toList.map (fun c => if c.toNat < 65536 then 1 else 2)).sum

/-! ## `Movie.js` -/

/-- The five bucket names `['one', 'two', 'three', 'four', 'five']`. -/
inductive Key where
  | one
  | two
  | three
  | four
  | five
deriving DecidableEq, Repr

/-- The array lookup `['one', 'two', 'three', 'four', 'five'][i]`: a key at the
indices 0..4, `undefined` (here `none`) anywhere else. -/
def keyAt (i : ℚ) : Option Key :=
  if i = 0 then some Key.one
  else if i = 1 then some Key.two
  else if i = 2 then some Key.three
  else if i = 3 then some Key.four
  else if i = 4 then some Key.five
  else none

/-- The field `ratings.distribution` of the movie schema (Movie.js 69-75). -/
structure Distribution where
  five : Int := 0
  four : Int := 0
  three : Int := 0
  two : Int := 0
  one : Int := 0
deriving DecidableEq, Repr

/-- The field `ratings` of the movie schema (Movie.js 58-76). -/
structure Ratings where
  average : ℚ := 0
  count : Int := 0
  distribution : Distribution := {}
deriving DecidableEq

/-- The movie status enum `['active', 'inactive']`. -/
inductive MovieStatus where
  | active
  | inactive
deriving DecidableEq, Repr

/-- A movie document: identity, the descriptive fields the handlers of reviews
never read (represented by `title`), the status and the owned ratings. -/
structure Movie where
  id : Nat
  title : String := ""
  status : MovieStatus := MovieStatus.active
  ratings : Ratings := {}
deriving DecidableEq

/-- The read `distribution[key]` of one of the five buckets. -/
def Distribution.get (d : Distribution) : Key → Int
  | Key.one => d.one
  | Key.two => d.two
  | Key.three => d.three
  | Key.four => d.four
  | Key.five => d.five

/-- The write `distribution[key] = v` of one of the five buckets. -/
def Distribution.set (d : Distribution) (k : Key) (v : Int) : Distribution :=
  match k with
  | Key.one => { d with one := v }
  | Key.two => { d with two := v }
  | Key.three => { d with three := v }
  | Key.four => { d with four := v }
  | Key.five => { d with five := v }

/-- The statement `distribution[oldKey] = Math.max(0, distribution[oldKey] - 1)`
(Movie.js 110); with `oldKey` undefined no bucket changes. -/
def Distribution.decrement (d : Distribution) : Option Key → Distribution
  | some k => d.set k (max 0 (d.get k - 1))
  | none => d

/-- The statement `distribution[newKey] += 1` (Movie.js 116); with `newKey`
undefined no bucket changes. -/
def Distribution.increment (d : Distribution) : Option Key → Distribution
  | some k => d.set k (d.get k + 1)
  | none => d

/-- The weighted sum `total` of Movie.js 120-124. -/
def Distribution.total (d : Distribution) : Int :=
  d.one * 1 + d.two * 2 + d.three * 3 + d.four * 4 + d.five * 5

/-- The function `Math.round`: the nearest integer, a tie going up. -/
def mathRound (x : ℚ) : Int := ⌊x + 1 / 2⌋

/-- Truthiness of a number argument that may be `null`. -/
def truthy : Option ℚ → Bool
  | some q => decide (q ≠ 0)
  | none => false

/-- The method `movieSchema.methods.updateRating(newRating, oldRating)`
(Movie.js 104-128). -/
def Movie.updateRating (self : Movie) (newRating : ℚ) (oldRating : Option ℚ) : Movie :=
  -- Remove old rating if updating
  let r1 : Ratings :=
    match oldRating with
    | some o =>
      if truthy (some o) then
        { self.ratings with
          distribution := self.ratings.distribution.decrement (keyAt (o - 1))
          count := max 0 (self.ratings.count - 1) }
      else self.ratings
    | none => self.ratings
  -- Add new rating
  let d2 : Distribution := r1.distribution.increment (keyAt (newRating - 1))
  let count2 : Int := r1.count + 1
  -- Calculate new average
  let total : Int := d2.total
  let average : ℚ :=
    if count2 > 0 then (mathRound ((total : ℚ) / (count2 : ℚ) * 10) : ℚ) / 10 else 0
  { self with ratings := { average := average, count := count2, distribution := d2 } }

/-- The validators `min: 0` and `max: 5` of `ratings.average` (Movie.js 59-64),
which run in every `movie.save()`. No other validated path of the movie schema
is assigned by `updateRating`, and a stored average has passed them when it was
written, so in the handlers they can fail on a newly computed average only. -/
def Movie.valid (self : Movie) : Bool :=
  decide (0 ≤ self.ratings.average) && decide (self.ratings.average ≤ 5)

/-- A rating is one of the five star values. -/
def isStar (r : ℚ) : Prop := r = 1 ∨ r = 2 ∨ r = 3 ∨ r = 4 ∨ r = 5

instance (r : ℚ) : Decidable (isStar r) := by
  unfold isStar
  infer_instance

/-- The bucket that counts the reviews rated `r`; 0 for a value that is not a
star value (no bucket counts it). -/
def Distribution.bucket (d : Distribution) (r : ℚ) : Int :=
  match keyAt (r - 1) with
  | some k => d.get k
  | none => 0

/-- The data-model invariant `count == sum(buckets)`. -/
def Ratings.countIsSum (r : Ratings) : Prop :=
  r.count = r.distribution.one + r.distribution.two + r.distribution.three
    + r.distribution.four + r.distribution.five

instance (r : Ratings) : Decidable r.countIsSum := by
  unfold Ratings.countIsSum
  infer_instance

/-- Rounding half-up to one decimal place, as a relation: `a` has one decimal
and `x` lies in the half-open interval of width 1/10 centred at `a`, the lower
end included. -/
def IsRoundHalfUp1 (x a : ℚ) : Prop :=
  (∃ n : Int, a = (n : ℚ) / 10) ∧ a - 1 / 20 ≤ x ∧ x < a + 1 / 20

/-! ## `Review.js` -/

/-- The review status enum `['active', 'hidden', 'pending']`. -/
inductive ReviewStatus where
  | active
  | hidden
  | pending
deriving DecidableEq, Repr

/-- The field `helpful` of the review schema (Review.js 30-39). -/
structure Helpful where
  count : Int := 0
  users : List Nat := []
deriving DecidableEq, Repr

/-- The field `reported` of the review schema (Review.js 40-50). -/
structure Reported where
  count : Int := 0
  users : List Nat := []
  reasons : List String := []
deriving DecidableEq, Repr

/-- A review document (Review.js 3-62). -/
structure Review where
  id : Nat
  user : Nat
  movie : Nat
  rating : ℚ
  review : String := ""
  title : String := ""
  helpful : Helpful := {}
  reported : Reported := {}
  status : ReviewStatus := ReviewStatus.active
  spoilerWarning : Bool := false
deriving DecidableEq

/-- The method `reviewSchema.methods.toggleHelpful(userId)` (Review.js 84-98):
the updated document and the returned flag. `splice(userIndex, 1)` at the index
given by `indexOf` removes the first occurrence. -/
def Review.toggleHelpful (self : Review) (userId : Nat) : Review × Bool :=
  if userId ∈ self.helpful.users then
    -- Remove from helpful
    ({ self with
        helpful :=
          { users := self.helpful.users.erase userId
            count := max 0 (self.helpful.count - 1) } }, false)
  else
    -- Add to helpful
    ({ self with
        helpful :=
          { users := self.helpful.users ++ [userId]
            count := self.helpful.count + 1 } }, true)

/-- The statement `if (reason) this.reported.reasons.push(reason)`
(Review.js 105-107): only a present, non-empty reason is appended. -/
def pushReason (reasons : List String) : Option String → List String
  | some t => if t ≠ "" then reasons ++ [t] else reasons
  | none => reasons

/-- The method `reviewSchema.methods.reportReview(userId, reason)`
(Review.js 101-114). -/
def Review.reportReview (self : Review) (userId : Nat) (reason : Option String) : Review :=
  if userId ∉ self.reported.users then
    let reported : Reported :=
      { users := self.reported.users ++ [userId]
        count := self.reported.count + 1
        reasons := pushReason self.reported.reasons reason }
    -- Auto-hide if too many reports
    if reported.count ≥ 5 then
      { self with reported := reported, status := ReviewStatus.hidden }
    else
      { self with reported := reported }
  else self

/-- The schema validators that run when a review is saved (Review.js 14-29):
`rating` between 1 and 5, the `length` of `review` at most 1000 and that of
`title` at most 100. -/
def Review.valid (self : Review) : Bool :=
  decide (1 ≤ self.rating) && decide (self.rating ≤ 5) &&
    decide (jsLength self.review ≤ 1000) && decide (jsLength self.title ≤ 100)

/-! ## The store and the handlers of `routes/reviews.js` -/

/-- A JSON response: the HTTP status and the message, and for the helpful
handler the fields `helpfulCount` and `isHelpful`. -/
structure Response where
  status : Nat
  message : String
  helpfulCount : Option Int := none
  isHelpful : Option Bool := none
deriving DecidableEq, Repr

/-- The two collections. `nextId` is the identity the next created review
document receives. -/
structure Store where
  movies : List Movie := []
  reviews : List Review := []
  nextId : Nat := 0

/-- The query `Movie.findById(id)`. -/
def Store.findMovie (s : Store) (id : Nat) : Option Movie :=
  s.movies.find? (fun m => decide (m.id = id))

/-- The write of `movie.save()` for a loaded movie whose validators have
passed (`Movie.valid`): the stored document with that identity is replaced. The
driver writes the modified paths only; requests are served one after the other,
and where the pre-save middleware has written the movie in between it has
written the values the handler computes from the same loaded state, so the
stored document ends equal to the handler's. -/
def Store.saveMovie (s : Store) (m : Movie) : Store :=
  { s with movies := s.movies.map (fun x => if x.id = m.id then m else x) }

/-- The query `Review.findById(id)`. -/
def Store.findReview (s : Store) (id : Nat) : Option Review :=
  s.reviews.find? (fun r => decide (r.id = id))

/-- The storage step of `review.save()` for a loaded review: the stored
document with that identity is replaced. -/
def Store.saveReview (s : Store) (r : Review) : Store :=
  { s with reviews := s.reviews.map (fun x => if x.id = r.id then r else x) }

/-- The pre-save middleware of the review schema (Review.js 117-139), run on the
store as it is before the review itself is written. `isNew` and
`ratingModified` are the document flags `this.isNew` and
`this.isModified('rating')`. Its `movie.save()` is rejected when the updated
average fails the validators; the `catch` logs the error and nothing is
written. -/
def preSave (s : Store) (doc : Review) (isNew ratingModified : Bool) : Store :=
  if isNew || ratingModified then
    match s.findMovie doc.movie with
    | some movie =>
      -- If this is an update, get the old rating
      let oldRating : Option ℚ :=
        if !isNew then (s.findReview doc.id).map (fun o => o.rating) else none
      let updated := movie.updateRating doc.rating oldRating
      -- a save rejected by the validators is caught and logged
      if updated.valid then s.saveMovie updated else s
    | none => s
  else s

/-- The assignments of the update branch (reviews.js 130-134) on the stored
review of the user. The schema setter `trim` of the two texts finds them
trimmed. -/
def updatedReview (existingReview : Review) (rating : ℚ) (review title : Option String)
    (spoilerWarning : Option Bool) : Review :=
  { existingReview with
    rating := rating
    review := (review.map jsTrim).getD ""
    title := (title.map jsTrim).getD ""
    spoilerWarning := spoilerWarning.getD false
    status := ReviewStatus.active }

/-- The document `new Review(...)` of the create branch (reviews.js 152-159),
with identity `id`; the other fields take the schema defaults. -/
def createdReview (id userId movieId : Nat) (rating : ℚ) (review title : Option String)
    (spoilerWarning : Option Bool) : Review :=
  { id := id
    user := userId
    movie := movieId
    rating := rating
    review := (review.map jsTrim).getD ""
    title := (title.map jsTrim).getD ""
    spoilerWarning := spoilerWarning.getD false }

/-- The handler `router.post('/')` (reviews.js 92-183): create or update the
review of `userId` for a movie. A save rejected by the schema validators is
caught and answered with status 500. For the review, validation runs before
the pre-save middleware, so nothing has been written then; the handler's
`movie.save()` is rejected after the review has been written. -/
def submitReview (s : Store) (userId : Nat) (movieId : Option Nat) (rating : Option ℚ)
    (review title : Option String) (spoilerWarning : Option Bool) : Store × Response :=
  match movieId, rating with
  | some movieId, some rating =>
    if rating = 0 then
      (s, { status := 400, message := "Please provide movie ID and rating" })
    else if rating < 1 ∨ rating > 5 then
      (s, { status := 400, message := "Rating must be between 1 and 5" })
    else
      -- Check if movie exists
      match s.findMovie movieId with
      | none => (s, { status := 404, message := "Movie not found" })
      | some movie =>
        -- Check if user already reviewed this movie
        match s.reviews.find? (fun r => decide (r.user = userId ∧ r.movie = movieId)) with
        | some existingReview =>
          -- Update existing review
          let oldRating := existingReview.rating
          let updated := updatedReview existingReview rating review title spoilerWarning
          if updated.valid then
            let s1 := preSave s updated false (decide (rating ≠ oldRating))
            let s2 := s1.saveReview updated
            -- Update movie rating
            let updatedMovie := movie.updateRating rating (some oldRating)
            if updatedMovie.valid then
              (s2.saveMovie updatedMovie,
                { status := 200, message := "Review updated successfully" })
            else
              (s2, { status := 500, message := "Could not save review" })
          else
            (s, { status := 500, message := "Could not save review" })
        | none =>
          -- Create new review
          let newReview := createdReview s.nextId userId movieId rating review title spoilerWarning
          if newReview.valid then
            let s1 := preSave s newReview true true
            let s2 : Store :=
              { s1 with reviews := s1.reviews ++ [newReview], nextId := s1.nextId + 1 }
            -- Update movie rating
            let updatedMovie := movie.updateRating rating none
            if updatedMovie.valid then
              (s2.saveMovie updatedMovie,
                { status := 201, message := "Review created successfully" })
            else
              (s2, { status := 500, message := "Could not save review" })
          else
            (s, { status := 500, message := "Could not save review" })
  | _, _ => (s, { status := 400, message := "Please provide movie ID and rating" })

/-- The handler `router.delete('/:id')` (reviews.js 217-252): the author deletes
a review. `findByIdAndDelete` runs no document middleware. A `movie.save()`
rejected by the validators throws before the review is deleted; the `catch`
answers 500. -/
def deleteReview (s : Store) (userId reviewId : Nat) : Store × Response :=
  match s.reviews.find? (fun r => decide (r.id = reviewId ∧ r.user = userId)) with
  | none =>
    (s, { status := 404
          message := "Review not found or you are not authorized to delete it" })
  | some review =>
    match s.findMovie review.movie with
    | some movie =>
      -- Update movie rating by removing this rating
      let updatedMovie := movie.updateRating 0 (some review.rating)
      if updatedMovie.valid then
        ({ s.saveMovie updatedMovie with
            reviews := s.reviews.filter (fun r => decide (r.id ≠ reviewId)) },
          { status := 200, message := "Review deleted successfully" })
      else
        (s, { status := 500, message := "Could not delete review" })
    | none =>
      ({ s with reviews := s.reviews.filter (fun r => decide (r.id ≠ reviewId)) },
        { status := 200, message := "Review deleted successfully" })

/-- The checks and the method call of `router.post('/:id/helpful')` on the
loaded review (reviews.js 266-282): the error response, or the updated document
with the success response. -/
def helpfulChecked (review : Review) (userId : Nat) : Except Response (Review × Response) :=
  -- Prevent users from marking their own reviews as helpful
  if review.user = userId then
    Except.error { status := 400, message := "You cannot mark your own review as helpful" }
  else
    let wasHelpful := (review.toggleHelpful userId).2
    let review1 := (review.toggleHelpful userId).1
    Except.ok (review1,
      { status := 200
        message := if wasHelpful then "Review marked as helpful" else "Review unmarked as helpful"
        helpfulCount := some review1.helpful.count
        isHelpful := some wasHelpful })

/-- The handler `router.post('/:id/helpful')` (reviews.js 255-291). The save
changes no rating, so the pre-save middleware does nothing. -/
def toggleHelpfulRoute (s : Store) (userId reviewId : Nat) : Store × Response :=
  match s.findReview reviewId with
  | none => (s, { status := 404, message := "Review not found" })
  | some review =>
    match helpfulChecked review userId with
    | Except.error resp => (s, resp)
    | Except.ok (review1, resp) => ((preSave s review1 false false).saveReview review1, resp)

/-- The checks and the method call of `router.post('/:id/report')` on the loaded
review (reviews.js 306-322): the error response, or the updated document. -/
def reportChecked (review : Review) (userId : Nat) (reason : Option String) :
    Except Response Review :=
  -- Prevent users from reporting their own reviews
  if review.user = userId then
    Except.error { status := 400, message := "You cannot report your own review" }
  -- Check if user already reported this review
  else if userId ∈ review.reported.users then
    Except.error { status := 400, message := "You have already reported this review" }
  else
    Except.ok (review.reportReview userId reason)

/-- The handler `router.post('/:id/report')` (reviews.js 294-337). -/
def reportReviewRoute (s : Store) (userId reviewId : Nat) (reason : Option String) :
    Store × Response :=
  match s.findReview reviewId with
  | none => (s, { status := 404, message := "Review not found" })
  | some review =>
    match reportChecked review userId reason with
    | Except.error resp => (s, resp)
    | Except.ok review1 =>
      ((preSave s review1 false false).saveReview review1,
        { status := 200, message := "Review reported successfully" })

/-- The review document as stored after a report request: updated on success,
untouched when the request is rejected. -/
def afterReport (review : Review) (userId : Nat) (reason : Option String) : Review :=
  match reportChecked review userId reason with
  | Except.ok review1 => review1
  | Except.error _ => review

/-- The review document as stored after a helpful request. -/
def afterHelpful (review : Review) (userId : Nat) : Review :=
  match helpfulChecked review userId with
  | Except.ok (review1, _) => review1
  | Except.error _ => review

/-- The review document after a sequence of report requests, each a reporter
with an optional reason. -/
def reportAll (review : Review) (reports : List (Nat × Option String)) : Review :=
  reports.foldl (fun r p => afterReport r p.1 p.2) review

/-- A request to one of the handlers. -/
inductive Op where
  | submit (userId : Nat) (movieId : Option Nat) (rating : Option ℚ)
      (review title : Option String) (spoilerWarning : Option Bool)
  | delete (userId reviewId : Nat)
  | helpful (userId reviewId : Nat)
  | report (userId reviewId : Nat) (reason : Option String)

/-- One request served on the store. -/
def step (s : Store) : Op → Store × Response
  | Op.submit u m r t1 t2 w => submitReview s u m r t1 t2 w
  | Op.delete u i => deleteReview s u i
  | Op.helpful u i => toggleHelpfulRoute s u i
  | Op.report u i reason => reportReviewRoute s u i reason

/-- The store after a sequence of requests served one after the other. -/
def run (s : Store) (ops : List Op) : Store :=
  ops.foldl (fun st op => (step st op).1) s

/-! ## Derived notions used in the statements -/

/-- The indicator of `k = k'`, as an integer. -/
def Key.ind (k k' : Key) : Int := if k = k' then 1 else 0

/-- The movie with one five-star rating recorded: `five = 1`, `count = 1`,
`average = 5`. -/
def oneFiveStar : Movie :=
  { id := 1, ratings := { average := 5, count := 1, distribution := { five := 1 } } }

/-- A store with the movies `ms` and no review yet. -/
def emptyStore (ms : List Movie) (n0 : Nat) : Store :=
  { movies := ms, reviews := [], nextId := n0 }

/-- A store holding one movie, with the default ratings, and no review. -/
def oneMovie : Store := { movies := [{ id := 1 }] }

/-- The response to a repeated report. -/
def alreadyReported : Response :=
  { status := 400, message := "You have already reported this review" }

/-- User 7 reviews movie 1 with four stars; users 1 to 5 report that review. -/
def hideOps : List Op :=
  [Op.submit 7 (some 1) (some 4) none none none, Op.report 1 0 none, Op.report 2 0 none,
    Op.report 3 0 none, Op.report 4 0 none, Op.report 5 0 none]

/-- The number of stored reviews of the movie `id`. -/
def movieCount (rs : List Review) (id : Nat) : Nat :=
  rs.countP (fun r => decide (r.movie = id))

/-- The number of stored reviews of the movie `id` whose rating selects the
bucket `k`. -/
def bucketCount (rs : List Review) (id : Nat) (k : Key) : Nat :=
  rs.countP (fun r => decide (r.movie = id ∧ keyAt (r.rating - 1) = some k))

/-- The ratings of a movie agree with a list of reviews: `count` and the five
buckets count the reviews of the movie, and the average is the one
`updateRating` computes from them. -/
def Movie.agrees (m : Movie) (rs : List Review) : Prop :=
  m.ratings.count = (movieCount rs m.id : Int) ∧
  (∀ k : Key, m.ratings.distribution.get k = (bucketCount rs m.id k : Int)) ∧
  m.ratings.average =
    if m.ratings.count > 0 then
      (mathRound ((m.ratings.distribution.total : ℚ) / (m.ratings.count : ℚ) * 10) : ℚ) / 10
    else 0

/-- The invariant of the store: every stored rating is a star value, review
identities are distinct and below `nextId`, and every movie agrees with the
stored reviews. -/
def Store.consistent (s : Store) : Prop :=
  (∀ r ∈ s.reviews, isStar r.rating) ∧
  (s.reviews.map (fun r => r.id)).Nodup ∧
  (∀ r ∈ s.reviews, r.id < s.nextId) ∧
  ∀ m ∈ s.movies, m.agrees s.reviews

/-- The array index of a bucket name. -/
def Key.index : Key → ℚ
  | Key.one => 0
  | Key.two => 1
  | Key.three => 2
  | Key.four => 3
  | Key.five => 4

/-- The request is a deletion. -/
def Op.isDelete : Op → Bool
  | Op.delete _ _ => true
  | _ => false

/-- The rating of a submission, when present, is a whole number. -/
def Op.wholeRating : Op → Prop
  | Op.submit _ _ (some q) _ _ _ => q.den = 1
  | _ => True

instance (op : Op) : Decidable op.wholeRating := by
  cases op with
  | submit u m r t1 t2 w =>
    cases r with
    | none => exact isTrue trivial
    | some q => exact inferInstanceAs (Decidable (q.den = 1))
  | delete u i => exact isTrue trivial
  | helpful u i => exact isTrue trivial
  | report u i reason => exact isTrue trivial

/-- Users 1 to 5 rate movie 1 with 5, 5, 4, 3 and 5 stars. -/
def fiveRatings : List Op :=
  [Op.submit 1 (some 1) (some 5) none none none, Op.submit 2 (some 1) (some 5) none none none,
    Op.submit 3 (some 1) (some 4) none none none, Op.submit 4 (some 1) (some 3) none none none,
    Op.submit 5 (some 1) (some 5) none none none]

/-- The response to a helpful request by the author of the review. -/
def ownHelpful : Response :=
  { status := 400, message := "You cannot mark your own review as helpful" }

/-- The response to a report request by the author of the review. -/
def ownReport : Response :=
  { status := 400, message := "You cannot report your own review" }

/-- A review of user 7 that user 3 has marked as helpful. -/
def votedReview : Review :=
  { id := 0, user := 7, movie := 1, rating := 4, helpful := { count := 1, users := [3] } }

/-- A review of user 7 whose helpful count has fallen behind its voters: one
voter, count 0. -/
def miscountedReview : Review :=
  { id := 0, user := 7, movie := 1, rating := 4, helpful := { count := 0, users := [3] } }

/-- The helpful-set invariant: no voter is listed twice and `helpful.count`
is the number of voters. -/
def Review.helpfulOk (rv : Review) : Prop :=
  rv.helpful.users.Nodup ∧ rv.helpful.count = (rv.helpful.users.length : Int)

instance (rv : Review) : Decidable rv.helpfulOk := by
  unfold Review.helpfulOk
  infer_instance

/-- A review of user 7 that lists its own author among the reporters. -/
def selfListedReview : Review :=
  { id := 0, user := 7, movie := 1, rating := 4, reported := { count := 1, users := [7] } }

/-- A store holding movie 1 and the review `votedReview` of user 7. -/
def oneReview : Store :=
  { movies := [{ id := 1 }], reviews := [votedReview], nextId := 1 }

/-- Well-formedness of the review collection: identities are distinct and
below `nextId`, no two reviews share user and movie, and no review lists its
author among its reporters. -/
def Store.wellFormed (s : Store) : Prop :=
  (s.reviews.map (fun r => r.id)).Nodup ∧
  (∀ r ∈ s.reviews, r.id < s.nextId) ∧
  (s.reviews.map (fun r => (r.user, r.movie))).Nodup ∧
  (∀ r ∈ s.reviews, r.user ∉ r.reported.users)

/-- The response of the delete handler when no review with the given identity
belongs to the actor. -/
def notFoundOrUnauthorized : Response :=
  { status := 404, message := "Review not found or you are not authorized to delete it" }

/-- The storage faults of a submission: which of the two `movie.save()` calls,
the one inside the pre-save middleware and the one in the handler, is rejected
by the storage layer. A save whose document fails the validators is rejected
in any case. -/
structure SaveFaults where
  hookMovieSave : Bool := false
  routeMovieSave : Bool := false
deriving DecidableEq, Repr

/-- The pre-save middleware (Review.js 117-139) when its `movie.save()` may be
rejected: the `catch` logs the error, nothing is written, and `next()` runs. -/
def preSaveWith (faults : SaveFaults) (s : Store) (doc : Review)
    (isNew ratingModified : Bool) : Store :=
  if isNew || ratingModified then
    match s.findMovie doc.movie with
    | some movie =>
      let oldRating : Option ℚ :=
        if !isNew then (s.findReview doc.id).map (fun o => o.rating) else none
      let updated := movie.updateRating doc.rating oldRating
      if faults.hookMovieSave || !updated.valid then s
      else s.saveMovie updated
    | none => s
  else s

/-- The handler `router.post('/')` (reviews.js 92-183) when the saves of the
movie may be rejected. A rejected `movie.save()` in the handler throws after
`review.save()` has completed; the `catch` of the handler answers 500. -/
def submitReviewWith (faults : SaveFaults) (s : Store) (userId : Nat) (movieId : Option Nat)
    (rating : Option ℚ) (review title : Option String) (spoilerWarning : Option Bool) :
    Store × Response :=
  match movieId, rating with
  | some movieId, some rating =>
    if rating = 0 then
      (s, { status := 400, message := "Please provide movie ID and rating" })
    else if rating < 1 ∨ rating > 5 then
      (s, { status := 400, message := "Rating must be between 1 and 5" })
    else
      match s.findMovie movieId with
      | none => (s, { status := 404, message := "Movie not found" })
      | some movie =>
        match s.reviews.find? (fun r => decide (r.user = userId ∧ r.movie = movieId)) with
        | some existingReview =>
          let oldRating := existingReview.rating
          let updated := updatedReview existingReview rating review title spoilerWarning
          if updated.valid then
            let s1 := preSaveWith faults s updated false (decide (rating ≠ oldRating))
            let s2 := s1.saveReview updated
            let updatedMovie := movie.updateRating rating (some oldRating)
            if faults.routeMovieSave || !updatedMovie.valid then
              (s2, { status := 500, message := "Could not save review" })
            else
              (s2.saveMovie updatedMovie,
                { status := 200, message := "Review updated successfully" })
          else
            (s, { status := 500, message := "Could not save review" })
        | none =>
          let newReview := createdReview s.nextId userId movieId rating review title spoilerWarning
          if newReview.valid then
            let s1 := preSaveWith faults s newReview true true
            let s2 : Store :=
              { s1 with reviews := s1.reviews ++ [newReview], nextId := s1.nextId + 1 }
            let updatedMovie := movie.updateRating rating none
            if faults.routeMovieSave || !updatedMovie.valid then
              (s2, { status := 500, message := "Could not save review" })
            else
              (s2.saveMovie updatedMovie,
                { status := 201, message := "Review created successfully" })
          else
            (s, { status := 500, message := "Could not save review" })
  | _, _ => (s, { status := 400, message := "Please provide movie ID and rating" })

/-- The body of an administrator's movie update. `title` and `status` are the
whitelisted keys kept in the model; `othersValid` says whether the values of
the remaining whitelisted keys (genre, director, year, ...) pass the schema
validators; `ratings` is a key outside the whitelist. -/
structure MovieBody where
  title : Option String := none
  status : Option String := none
  othersValid : Bool := true
  ratings : Option Ratings := none

/-- The enum validator of the movie status. -/
def parseMovieStatus (t : String) : Option MovieStatus :=
  if t = "active" then some MovieStatus.active
  else if t = "inactive" then some MovieStatus.inactive
  else none

/-- The middleware `adminMiddleware` (admin.js 11-17) on the role of the
verified token: the rejection, if any. -/
def adminOnly (role : String) : Option Response :=
  if role ≠ "admin" then
    some { status := 403, message := "Access denied. Admin privileges required." }
  else none

/-- The handler `router.put('/:id')` of movies.js (172-207): the whitelisted
keys present in the body are assigned to the loaded movie, which is saved; a
save rejected by the schema validators (empty title, status outside the enum,
another invalid value) is answered with status 500. -/
def updateMovie (s : Store) (role : String) (id : Nat) (body : MovieBody) : Store × Response :=
  match adminOnly role with
  | some resp => (s, resp)
  | none =>
    match s.findMovie id with
    | none => (s, { status := 404, message := "Movie not found" })
    | some movie =>
      let title : String := (body.title.map jsTrim).getD movie.title
      let status : Option MovieStatus :=
        match body.status with
        | some t => parseMovieStatus t
        | none => some movie.status
      match status with
      | some st =>
        if title ≠ "" ∧ body.othersValid = true then
          (s.saveMovie { movie with title := title, status := st },
            { status := 200, message := "Movie updated successfully" })
        else (s, { status := 500, message := "Could not update movie" })
      | none => (s, { status := 500, message := "Could not update movie" })

/-- The handler `router.delete('/:id')` of movies.js (217-244): the soft
delete. -/
def softDeleteMovie (s : Store) (role : String) (id : Nat) : Store × Response :=
  match adminOnly role with
  | some resp => (s, resp)
  | none =>
    match s.findMovie id with
    | none => (s, { status := 404, message := "Movie not found" })
    | some movie =>
      -- Soft delete by setting status to inactive
      (s.saveMovie { movie with status := MovieStatus.inactive },
        { status := 200, message := "Movie deleted successfully" })

/-- A store whose only movie carries three ratings. -/
def ratedMovie : Store :=
  { movies := [{ id := 1, title := "Heat"
                 ratings := { average := 4.3, count := 3, distribution := { five := 1, four := 2 } } }] }

/-- A body that tries to overwrite the ratings along with title and status. -/
def ratingsBody : MovieBody :=
  { title := some " Heat 2 ", status := some "inactive"
    ratings := some { average := 5, count := 100, distribution := { five := 100 } } }

instance (s : Store) : Decidable s.wellFormed := by
  unfold Store.wellFormed
  infer_instance

/-! ## Interleaved submissions -/

/-- Whether `updateRating(newRating, oldRating)` on the loaded document `self`
marks the bucket `k` modified. An assignment marks its path when the assigned
value differs from the value the path holds at that moment, and a marked path
stays marked: the remove step marks the old bucket unless it already holds 0
(`Math.max(0, 0 - 1)` assigns the 0 it holds), the add step always marks the
new bucket. -/
def Movie.bucketModified (self : Movie) (newRating : ℚ) (oldRating : Option ℚ) (k : Key) :
    Bool :=
  (match oldRating with
    | some o =>
      truthy (some o) && decide (keyAt (o - 1) = some k) &&
        decide (max 0 (self.ratings.distribution.get k - 1) ≠ self.ratings.distribution.get k)
    | none => false) ||
  decide (keyAt (newRating - 1) = some k)

/-- The movie document stored after `movie.updateRating(newRating, oldRating)`
and `movie.save()` on the in-memory document loaded as `loaded`, where `db` is
the document stored at the time of the save: the driver writes the modified
paths and every other path keeps its stored value. `ratings.count` is always
modified (`count += 1`), a bucket as `bucketModified` says, `ratings.average`
when the new average differs from the loaded one; `updateRating` assigns no
path outside `ratings`. -/
def mergeModified (db loaded : Movie) (newRating : ℚ) (oldRating : Option ℚ) : Movie :=
  let updated := loaded.updateRating newRating oldRating
  let bucket : Key → Int := fun k =>
    if loaded.bucketModified newRating oldRating k then updated.ratings.distribution.get k
    else db.ratings.distribution.get k
  { db with
    ratings :=
      { average :=
          if updated.ratings.average ≠ loaded.ratings.average then updated.ratings.average
          else db.ratings.average
        count := updated.ratings.count
        distribution :=
          { five := bucket Key.five
            four := bucket Key.four
            three := bucket Key.three
            two := bucket Key.two
            one := bucket Key.one } } }

/-- The write of `movie.save()` after `movie.updateRating(newRating,
oldRating)` when other requests may have written the movie since it was
loaded: the modified paths are written onto the stored document with that
identity. -/
def Store.writeMovie (s : Store) (loaded : Movie) (newRating : ℚ) (oldRating : Option ℚ) :
    Store :=
  { s with
    movies := s.movies.map (fun x =>
      if x.id = loaded.id then mergeModified x loaded newRating oldRating else x) }

/-- The review document stored after the save of the update branch, where
`loaded` is the review as it was loaded, `updated` the in-memory document after
the assignments of reviews.js 130-134 and `db` the stored document: each of the
five assigned paths is written when its value differs from the loaded one. -/
def mergeReview (db loaded updated : Review) : Review :=
  { db with
    rating := if updated.rating ≠ loaded.rating then updated.rating else db.rating
    review := if updated.review ≠ loaded.review then updated.review else db.review
    title := if updated.title ≠ loaded.title then updated.title else db.title
    spoilerWarning :=
      if updated.spoilerWarning ≠ loaded.spoilerWarning then updated.spoilerWarning
      else db.spoilerWarning
    status := if updated.status ≠ loaded.status then updated.status else db.status }

/-- The write of `existingReview.save()` when other requests may have written
the review since it was loaded. -/
def Store.writeReview (s : Store) (loaded updated : Review) : Store :=
  { s with
    reviews := s.reviews.map (fun x =>
      if x.id = updated.id then mergeReview x loaded updated else x) }

/-- The arguments of one call of the handler `router.post('/')`. -/
structure Submission where
  userId : Nat
  movieId : Option Nat
  rating : Option ℚ
  review : Option String := none
  title : Option String := none
  spoilerWarning : Option Bool := none

/-- Where a call of the handler `router.post('/')` stands: each constructor is
the point before one `await` of the handler or of the pre-save middleware.
`movie` is the movie the handler loaded, `doc` the review document being saved
and `stored` the review found for the user as it was loaded, absent for a new
review. -/
inductive Phase where
  | start
  | loaded (movieId : Nat) (rating : ℚ) (movie : Movie)
  | saving (movie : Movie) (doc : Review) (stored : Option Review)
  | hookLoaded (movie : Movie) (doc : Review) (stored : Option Review) (hookMovie : Movie)
  | hookOld (movie : Movie) (doc : Review) (stored : Option Review) (hookMovie : Movie)
      (hookOldRating : Option ℚ)
  | hookDone (movie : Movie) (doc : Review) (stored : Option Review)
  | written (movie : Movie) (doc : Review) (stored : Option Review)
  | done (resp : Response)

/-- The statements `movie.updateRating(this.rating, oldRating)` and
`await movie.save()` of the pre-save middleware on the movie it loaded: a save
rejected by the validators is caught and logged. -/
def hookSave (s : Store) (hookMovie : Movie) (rating : ℚ) (oldRating : Option ℚ) : Store :=
  if (hookMovie.updateRating rating oldRating).valid then
    s.writeMovie hookMovie rating oldRating
  else s

/-- One step of a call of the handler `router.post('/')` (reviews.js 92-183)
with the pre-save middleware (Review.js 117-139): the code up to and including
its next `await`, run on the store as it is now. The calls in flight are
submissions only, so a stored review or movie is never removed meanwhile.

* `start`: the input checks and `Movie.findById(movieId)`;
* `loaded`: `Review.findOne`, the update of the found review or the new
  document (whose identity is taken here), and the schema validation that
  opens `save()`;
* `saving`: the middleware's test and its `Movie.findById(this.movie)`;
* `hookLoaded`: for a new review the middleware's `updateRating` and
  `movie.save()`, otherwise its lookup of the stored review;
* `hookOld`: the middleware's `updateRating` and `movie.save()`;
* `hookDone`: the write of the review; the insert of a new review is rejected
  by the unique index on user and movie when such a review is stored by now;
* `written`: the handler's `updateRating` on the movie it loaded at `start`,
  and its `movie.save()`. -/
def Submission.step (q : Submission) (s : Store) : Phase → Store × Phase
  | Phase.start =>
    match q.movieId, q.rating with
    | some movieId, some rating =>
      if rating = 0 then
        (s, Phase.done { status := 400, message := "Please provide movie ID and rating" })
      else if rating < 1 ∨ rating > 5 then
        (s, Phase.done { status := 400, message := "Rating must be between 1 and 5" })
      else
        match s.findMovie movieId with
        | none => (s, Phase.done { status := 404, message := "Movie not found" })
        | some movie => (s, Phase.loaded movieId rating movie)
    | _, _ => (s, Phase.done { status := 400, message := "Please provide movie ID and rating" })
  | Phase.loaded movieId rating movie =>
    match s.reviews.find? (fun r => decide (r.user = q.userId ∧ r.movie = movieId)) with
    | some existingReview =>
      let updated := updatedReview existingReview rating q.review q.title q.spoilerWarning
      if updated.valid then (s, Phase.saving movie updated (some existingReview))
      else (s, Phase.done { status := 500, message := "Could not save review" })
    | none =>
      let newReview :=
        createdReview s.nextId q.userId movieId rating q.review q.title q.spoilerWarning
      if newReview.valid then
        ({ s with nextId := s.nextId + 1 }, Phase.saving movie newReview none)
      else (s, Phase.done { status := 500, message := "Could not save review" })
  | Phase.saving movie doc stored =>
    let isNew : Bool := stored.isNone
    let ratingModified : Bool :=
      match stored with
      | some e => decide (doc.rating ≠ e.rating)
      | none => true
    if isNew || ratingModified then
      match s.findMovie doc.movie with
      | some hookMovie => (s, Phase.hookLoaded movie doc stored hookMovie)
      | none => (s, Phase.hookDone movie doc stored)
    else (s, Phase.hookDone movie doc stored)
  | Phase.hookLoaded movie doc stored hookMovie =>
    match stored with
    | none => (hookSave s hookMovie doc.rating none, Phase.hookDone movie doc stored)
    | some _ =>
      (s, Phase.hookOld movie doc stored hookMovie
        ((s.findReview doc.id).map (fun o => o.rating)))
  | Phase.hookOld movie doc stored hookMovie hookOldRating =>
    (hookSave s hookMovie doc.rating hookOldRating, Phase.hookDone movie doc stored)
  | Phase.hookDone movie doc stored =>
    match stored with
    | none =>
      if s.reviews.any (fun r => decide (r.user = doc.user ∧ r.movie = doc.movie)) then
        (s, Phase.done { status := 500, message := "Could not save review" })
      else ({ s with reviews := s.reviews ++ [doc] }, Phase.written movie doc stored)
    | some e => (s.writeReview e doc, Phase.written movie doc stored)
  | Phase.written movie doc stored =>
    if (movie.updateRating doc.rating (stored.map (fun e => e.rating))).valid then
      (s.writeMovie movie doc.rating (stored.map (fun e => e.rating)),
        Phase.done
          (match stored with
            | none => { status := 201, message := "Review created successfully" }
            | some _ => { status := 200, message := "Review updated successfully" }))
    else (s, Phase.done { status := 500, message := "Could not save review" })
  | Phase.done resp => (s, Phase.done resp)

/-- The call taken `fuel` steps further without any other call in between. -/
def Submission.run (q : Submission) : Nat → Store → Phase → Store × Phase
  | 0, s, p => (s, p)
  | fuel + 1, s, p => q.run fuel (q.step s p).1 (q.step s p).2

/-- The length of the longest path of a call: seven steps reach `done`. -/
def callSteps : Nat := 7

/-- The store with the calls in flight. -/
structure Conc where
  store : Store
  calls : List (Submission × Phase)

/-- The scheduler lets call number `i` take its next step. -/
def Conc.advance (c : Conc) (i : Nat) : Conc :=
  match c.calls.get? i with
  | none => c
  | some (q, p) =>
    { store := (q.step c.store p).1
      calls := c.calls.set i (q, (q.step c.store p).2) }

/-- The state after an interleaving, given as the list of the numbers of the
calls that take a step, in order. -/
def Conc.schedule (c : Conc) (order : List Nat) : Conc :=
  order.foldl Conc.advance c

/-- The interleaving without overlap for `n` calls numbered from `i`: each call
takes all its steps before the next one starts. -/
def serialOrder : Nat → Nat → List Nat
  | _, 0 => []
  | i, n + 1 => List.replicate callSteps i ++ serialOrder (i + 1) n

/-- The calls of the given submissions, none started yet. -/
def Conc.init (s : Store) (qs : List Submission) : Conc :=
  { store := s, calls := qs.map (fun q => (q, Phase.start)) }

/-- The status of the answer of a call, 0 while it has not answered. -/
def Phase.answer : Phase → Nat
  | Phase.done resp => resp.status
  | _ => 0

/-- Users 1 and 2 rate movie 1 with 5 and 4 stars. -/
def twoCalls : List Submission :=
  [{ userId := 1, movieId := some 1, rating := some 5 },
    { userId := 2, movieId := some 1, rating := some 4 }]

/-- Users 1 and 2 both rate movie 1 with 5 stars. -/
def twoFiveStarCalls : List Submission :=
  [{ userId := 1, movieId := some 1, rating := some 5 },
    { userId := 2, movieId := some 1, rating := some 5 }]

/-- Both calls load the movie, then the first call runs to its end, then the
second. -/
def overlappingOrder : List Nat := [0, 1, 0, 0, 0, 0, 0, 0, 1, 1, 1, 1, 1, 1]

/-- Users 1, 2, 3 and 4 rate movie 1 with 5, 5, 5 and 4 stars. -/
def fourCalls : List Submission :=
  [{ userId := 1, movieId := some 1, rating := some 5 },
    { userId := 2, movieId := some 1, rating := some 5 },
    { userId := 3, movieId := some 1, rating := some 5 },
    { userId := 4, movieId := some 1, rating := some 4 }]

/-- The first call runs to its end, the fourth call loads the movie, the second
and the third call run to their ends, then the fourth call takes its remaining
steps. -/
def lateOrder : List Nat :=
  [0, 0, 0, 0, 0, 0, 0, 3, 1, 1, 1, 1, 1, 1, 1, 2, 2, 2, 2, 2, 2, 2, 3, 3, 3, 3, 3, 3]

/-- The store left by the four calls under `lateOrder`: four reviews, and
movie 1 with `five = 3`, `four = 1` and `count = 2`. -/
def overcounted : Store :=
  ((Conc.init oneMovie fourCalls).schedule lateOrder).store

/-! ## Facts about `updateRating` -/

theorem Distribution.get_set (d : Distribution) (k k' : Key) (v : Int) :
    (d.set k v).get k' = if k = k' then v else d.get k' := by
  cases k <;> cases k' <;> rfl

theorem Distribution.get_increment (d : Distribution) (k k' : Key) :
    (d.increment (some k)).get k' = d.get k' + Key.ind k k' := by
  rw [Distribution.increment, Distribution.get_set, Key.ind]
  split_ifs with h
  · subst h
    rfl
  · simp

theorem Distribution.get_decrement (d : Distribution) (k k' : Key) (h : 1 ≤ d.get k) :
    (d.decrement (some k)).get k' = d.get k' - Key.ind k k' := by
  rw [Distribution.decrement, Distribution.get_set, max_eq_right (by omega), Key.ind]
  split_ifs with h1
  · subst h1
    rfl
  · simp

/-- The buckets after a replace delta, key by key. -/
theorem Distribution.get_replace (d : Distribution) (ko kn k : Key) (h : 1 ≤ d.get ko) :
    ((d.decrement (some ko)).increment (some kn)).get k
      = d.get k - Key.ind ko k + Key.ind kn k := by
  rw [Distribution.get_increment, Distribution.get_decrement _ _ _ h]

/-- Exactly one of the five keys is a given key. -/
theorem Key.ind_sum (k : Key) :
    Key.ind k Key.one + Key.ind k Key.two + Key.ind k Key.three + Key.ind k Key.four
      + Key.ind k Key.five = 1 := by
  cases k <;> rfl

/-- Lowering and then raising a bucket that holds at least 1 restores the
distribution. -/
theorem Distribution.increment_decrement (d : Distribution) (k : Key) (h : 1 ≤ d.get k) :
    (d.decrement (some k)).increment (some k) = d := by
  obtain ⟨f5, f4, f3, f2, f1⟩ := d
  cases k <;>
    simp only [Distribution.increment, Distribution.decrement, Distribution.set,
      Distribution.get] at h ⊢ <;>
    rw [max_eq_right (by omega)] <;> simp

/-- A star rating selects a bucket key, and the tests `r = 1`, ..., `r = 5`
read off which one. -/
theorem isStar_key (r : ℚ) (hr : isStar r) :
    ∃ k : Key, keyAt (r - 1) = some k ∧ (r = 1 ↔ k = Key.one) ∧ (r = 2 ↔ k = Key.two) ∧
      (r = 3 ↔ k = Key.three) ∧ (r = 4 ↔ k = Key.four) ∧ (r = 5 ↔ k = Key.five) := by
  rcases hr with h | h | h | h | h <;> subst h
  · exact ⟨Key.one, by norm_num [keyAt], by decide⟩
  · exact ⟨Key.two, by norm_num [keyAt], by decide⟩
  · exact ⟨Key.three, by norm_num [keyAt], by decide⟩
  · exact ⟨Key.four, by norm_num [keyAt], by decide⟩
  · exact ⟨Key.five, by norm_num [keyAt], by decide⟩

theorem truthy_star (r : ℚ) (hr : isStar r) : truthy (some r) = true := by
  rcases hr with h | h | h | h | h <;> subst h <;> norm_num [truthy]

/-- Buckets and count after `updateRating(newRating)` with no old rating. -/
theorem updateRating_none (m : Movie) (new : ℚ) :
    (m.updateRating new none).ratings.distribution
      = m.ratings.distribution.increment (keyAt (new - 1)) ∧
    (m.updateRating new none).ratings.count = m.ratings.count + 1 := ⟨rfl, rfl⟩

/-- Buckets and count after `updateRating(newRating, oldRating)` with a truthy
old rating. -/
theorem updateRating_some (m : Movie) (new old : ℚ) (ht : truthy (some old) = true) :
    (m.updateRating new (some old)).ratings.distribution
      = (m.ratings.distribution.decrement (keyAt (old - 1))).increment (keyAt (new - 1)) ∧
    (m.updateRating new (some old)).ratings.count = max 0 (m.ratings.count - 1) + 1 := by
  simp [Movie.updateRating, ht]

/-- C1 (add delta): for a star rating `r`, `updateRating(r)` without an old
rating raises `count` by exactly 1, raises bucket `r` by exactly 1 and leaves
the other four buckets unchanged. No assumption on the sign of the buckets is
needed. -/
theorem updateRating_add_delta (m : Movie) (r : ℚ) (hr : isStar r) :
    (m.updateRating r none).ratings.count = m.ratings.count + 1 ∧
    (m.updateRating r none).ratings.distribution.one
      = m.ratings.distribution.one + (if r = 1 then 1 else 0) ∧
    (m.updateRating r none).ratings.distribution.two
      = m.ratings.distribution.two + (if r = 2 then 1 else 0) ∧
    (m.updateRating r none).ratings.distribution.three
      = m.ratings.distribution.three + (if r = 3 then 1 else 0) ∧
    (m.updateRating r none).ratings.distribution.four
      = m.ratings.distribution.four + (if r = 4 then 1 else 0) ∧
    (m.updateRating r none).ratings.distribution.five
      = m.ratings.distribution.five + (if r = 5 then 1 else 0) := by
  obtain ⟨k, hk, e1, e2, e3, e4, e5⟩ := isStar_key r hr
  obtain ⟨hd, hcnt⟩ := updateRating_none m r
  rw [hd, hcnt, hk]
  simp only [e1, e2, e3, e4, e5]
  exact ⟨trivial, Distribution.get_increment _ k Key.one, Distribution.get_increment _ k Key.two,
    Distribution.get_increment _ k Key.three, Distribution.get_increment _ k Key.four,
    Distribution.get_increment _ k Key.five⟩

theorem updateRating_add_delta_witness :
    isStar 3 ∧ (oneFiveStar.updateRating 3 none).ratings.count = oneFiveStar.ratings.count + 1 :=
  ⟨Or.inr (Or.inr (Or.inl rfl)),
    (updateRating_add_delta oneFiveStar 3 (Or.inr (Or.inr (Or.inl rfl)))).1⟩

/-- C2 (remove delta), evaluated on the code: removing the only rating of a
movie, `updateRating(0, 5)` on `five = 1`, `count = 1`, empties the bucket but
leaves `count` at 1 (the claim says 0): the statement `count += 1` of the add
step runs although there is no new rating. For every movie and star rating the
remove call stores `max(0, count - 1) + 1` as the count. -/
theorem updateRating_remove_keeps_count :
    (oneFiveStar.updateRating 0 (some 5)).ratings.distribution = {} ∧
    (oneFiveStar.updateRating 0 (some 5)).ratings.count = 1 ∧
    (oneFiveStar.updateRating 0 (some 5)).ratings.average = 0 ∧
    (∀ (m : Movie) (r : ℚ), isStar r →
      (m.updateRating 0 (some r)).ratings.count = max 0 (m.ratings.count - 1) + 1) := by
  refine ⟨?_, ?_, ?_, fun m r hr => (updateRating_some m 0 r (truthy_star r hr)).2⟩ <;>
    norm_num [oneFiveStar, Movie.updateRating, keyAt, truthy, Distribution.increment,
      Distribution.decrement, Distribution.set, Distribution.get, Distribution.total, mathRound]

theorem mathRound_isRoundHalfUp1 (x : ℚ) :
    IsRoundHalfUp1 x ((mathRound (x * 10) : ℚ) / 10) := by
  have h1 : ((⌊x * 10 + 1 / 2⌋ : Int) : ℚ) ≤ x * 10 + 1 / 2 := Int.floor_le _
  have h2 : x * 10 + 1 / 2 < ((⌊x * 10 + 1 / 2⌋ : Int) : ℚ) + 1 := Int.lt_floor_add_one _
  refine ⟨⟨mathRound (x * 10), rfl⟩, ?_, ?_⟩
  · unfold mathRound
    linarith
  · unfold mathRound
    linarith

/-- The average stored by `updateRating` is computed from the buckets and the
count it stores. -/
theorem updateRating_average_eq (m : Movie) (new : ℚ) (old : Option ℚ) :
    (m.updateRating new old).ratings.average =
      if (m.updateRating new old).ratings.count > 0 then
        (mathRound (((m.updateRating new old).ratings.distribution.total : ℚ)
          / ((m.updateRating new old).ratings.count : ℚ) * 10) : ℚ) / 10
      else 0 := rfl

/-- Rounding a value between 1 and 5 to one decimal stays between 1 and 5. -/
theorem mathRound_tenth_bounds (x : ℚ) (h1 : 1 ≤ x) (h5 : x ≤ 5) :
    1 ≤ (mathRound (x * 10) : ℚ) / 10 ∧ (mathRound (x * 10) : ℚ) / 10 ≤ 5 := by
  have hlo : (10 : Int) ≤ mathRound (x * 10) := by
    unfold mathRound
    rw [Int.le_floor]
    push_cast
    linarith
  have hhi : mathRound (x * 10) < (51 : Int) := by
    unfold mathRound
    rw [Int.floor_lt]
    push_cast
    linarith
  have hlo' : (10 : ℚ) ≤ (mathRound (x * 10) : ℚ) := by exact_mod_cast hlo
  have hhi' : (mathRound (x * 10) : ℚ) ≤ 50 := by
    have : mathRound (x * 10) ≤ (50 : Int) := by omega
    exact_mod_cast this
  constructor
  · rw [le_div_iff₀ (by norm_num)]
    linarith
  · rw [div_le_iff₀ (by norm_num)]
    linarith

/-- A document with non-negative buckets whose count is their sum, and whose
average is the one `updateRating` computes from them, passes the validators of
the movie schema. -/
theorem valid_of_countIsSum (m : Movie)
    (hnn : ∀ k : Key, 0 ≤ m.ratings.distribution.get k)
    (hsum : m.ratings.countIsSum)
    (havg : m.ratings.average =
      if m.ratings.count > 0 then
        (mathRound ((m.ratings.distribution.total : ℚ) / (m.ratings.count : ℚ) * 10) : ℚ) / 10
      else 0) :
    m.valid = true := by
  have n1 := hnn Key.one
  have n2 := hnn Key.two
  have n3 := hnn Key.three
  have n4 := hnn Key.four
  have n5 := hnn Key.five
  simp only [Distribution.get] at n1 n2 n3 n4 n5
  unfold Ratings.countIsSum at hsum
  unfold Movie.valid
  rw [havg]
  by_cases hc : m.ratings.count > 0
  · rw [if_pos hc]
    have hlo : m.ratings.count ≤ m.ratings.distribution.total := by
      unfold Distribution.total
      omega
    have hhi : m.ratings.distribution.total ≤ 5 * m.ratings.count := by
      unfold Distribution.total
      omega
    have hcq : (0 : ℚ) < (m.ratings.count : ℚ) := by exact_mod_cast hc
    have hloq : (m.ratings.count : ℚ) ≤ (m.ratings.distribution.total : ℚ) := by
      exact_mod_cast hlo
    have hhiq : (m.ratings.distribution.total : ℚ) ≤ 5 * (m.ratings.count : ℚ) := by
      exact_mod_cast hhi
    have hb := mathRound_tenth_bounds
      ((m.ratings.distribution.total : ℚ) / (m.ratings.count : ℚ))
      (by rw [le_div_iff₀ hcq]; linarith) (by rw [div_le_iff₀ hcq]; linarith)
    have h0 : (0 : ℚ) ≤ (mathRound ((m.ratings.distribution.total : ℚ)
        / (m.ratings.count : ℚ) * 10) : ℚ) / 10 := le_trans (by norm_num) hb.1
    simp only [Bool.and_eq_true, decide_eq_true_eq]
    exact ⟨h0, hb.2⟩
  · rw [if_neg hc]
    simp

/-- C4, as stated, fails: on `five = 1`, `count = 1` the replace call
`updateRating(3, 4)` finds bucket four empty, floors it at 0, yet lowers and
raises `count`, so the buckets sum to 2 while `count` is 1. -/
theorem countIsSum_broken_by_replace :
    oneFiveStar.ratings.countIsSum ∧
    ¬ (oneFiveStar.updateRating 3 (some 4)).ratings.countIsSum := by
  norm_num [oneFiveStar, Ratings.countIsSum, Movie.updateRating, keyAt, truthy,
    Distribution.increment, Distribution.decrement, Distribution.set, Distribution.get]

/-- C4 (amended): `count == sum of the five buckets` is preserved by the add
call `updateRating(r)` for every star rating, and by the replace call
`updateRating(new, old)` for all star ratings whenever bucket `old` and `count`
are at least 1. -/
theorem updateRating_preserves_countIsSum (m : Movie) (h : m.ratings.countIsSum) :
    (∀ r : ℚ, isStar r → (m.updateRating r none).ratings.countIsSum) ∧
    (∀ old new : ℚ, isStar old → isStar new → 1 ≤ m.ratings.distribution.bucket old →
      1 ≤ m.ratings.count → (m.updateRating new (some old)).ratings.countIsSum) := by
  constructor
  · intro r hr
    obtain ⟨k, hk, -⟩ := isStar_key r hr
    obtain ⟨hd, hcnt⟩ := updateRating_none m r
    unfold Ratings.countIsSum at h ⊢
    rw [hd, hcnt, hk]
    have e1 := Distribution.get_increment m.ratings.distribution k Key.one
    have e2 := Distribution.get_increment m.ratings.distribution k Key.two
    have e3 := Distribution.get_increment m.ratings.distribution k Key.three
    have e4 := Distribution.get_increment m.ratings.distribution k Key.four
    have e5 := Distribution.get_increment m.ratings.distribution k Key.five
    have hs := Key.ind_sum k
    simp only [Distribution.get] at e1 e2 e3 e4 e5
    omega
  · intro old new ho hn hb hc
    obtain ⟨ko, hko, -⟩ := isStar_key old ho
    obtain ⟨kn, hkn, -⟩ := isStar_key new hn
    obtain ⟨hd, hcnt⟩ := updateRating_some m new old (truthy_star old ho)
    unfold Ratings.countIsSum at h ⊢
    rw [hd, hcnt, hko, hkn]
    rw [Distribution.bucket, hko] at hb
    have e1 := Distribution.get_replace m.ratings.distribution ko kn Key.one hb
    have e2 := Distribution.get_replace m.ratings.distribution ko kn Key.two hb
    have e3 := Distribution.get_replace m.ratings.distribution ko kn Key.three hb
    have e4 := Distribution.get_replace m.ratings.distribution ko kn Key.four hb
    have e5 := Distribution.get_replace m.ratings.distribution ko kn Key.five hb
    have hso := Key.ind_sum ko
    have hsn := Key.ind_sum kn
    simp only [Distribution.get] at e1 e2 e3 e4 e5
    omega

theorem updateRating_preserves_countIsSum_witness :
    oneFiveStar.ratings.countIsSum ∧
    (oneFiveStar.updateRating 4 (some 5)).ratings.countIsSum :=
  ⟨by norm_num [oneFiveStar, Ratings.countIsSum],
    (updateRating_preserves_countIsSum oneFiveStar
      (by norm_num [oneFiveStar, Ratings.countIsSum])).2 5 4
      (by norm_num [isStar]) (by norm_num [isStar])
      (by norm_num [oneFiveStar, Distribution.bucket, keyAt, Distribution.get])
      (by norm_num [oneFiveStar])⟩

/-- C5 (average postcondition): after every `updateRating` call the stored
average is the weighted sum of the resulting buckets divided by the resulting
count, rounded half-up to one decimal, when that count is positive, and 0
otherwise; adding ratings 3 and 5 to the empty distribution gives count 2 and
average 4. -/
theorem updateRating_average_postcondition (m : Movie) (new : ℚ) (old : Option ℚ) :
    (0 < (m.updateRating new old).ratings.count →
      IsRoundHalfUp1
        (((m.updateRating new old).ratings.distribution.total : ℚ)
          / ((m.updateRating new old).ratings.count : ℚ))
        (m.updateRating new old).ratings.average) ∧
    ((m.updateRating new old).ratings.count ≤ 0 →
      (m.updateRating new old).ratings.average = 0) ∧
    ((({ id := 1 } : Movie).updateRating 3 none).updateRating 5 none).ratings.count = 2 ∧
    ((({ id := 1 } : Movie).updateRating 3 none).updateRating 5 none).ratings.average = 4 := by
  refine ⟨?_, ?_, ?_, ?_⟩
  · intro hpos
    rw [updateRating_average_eq, if_pos hpos]
    exact mathRound_isRoundHalfUp1 _
  · intro hle
    rw [updateRating_average_eq, if_neg (not_lt.mpr hle)]
  · norm_num [Movie.updateRating, keyAt, Distribution.increment, Distribution.set,
      Distribution.get]
  · norm_num [Movie.updateRating, keyAt, Distribution.increment, Distribution.set,
      Distribution.get, Distribution.total, mathRound]

/-- C6 (replace delta): for star ratings `old`, `new` with bucket `old` and
`count` at least 1, `updateRating(new, old)` leaves `count` unchanged and turns
each bucket into the original one minus 1 if it is bucket `old`, plus 1 if it is
bucket `new`; with `old = new` the whole distribution is unchanged. -/
theorem updateRating_replace_delta (m : Movie) (old new : ℚ) (hold : isStar old)
    (hnew : isStar new) (hb : 1 ≤ m.ratings.distribution.bucket old)
    (hc : 1 ≤ m.ratings.count) :
    (m.updateRating new (some old)).ratings.count = m.ratings.count ∧
    (m.updateRating new (some old)).ratings.distribution.one
      = m.ratings.distribution.one - (if old = 1 then 1 else 0) + (if new = 1 then 1 else 0) ∧
    (m.updateRating new (some old)).ratings.distribution.two
      = m.ratings.distribution.two - (if old = 2 then 1 else 0) + (if new = 2 then 1 else 0) ∧
    (m.updateRating new (some old)).ratings.distribution.three
      = m.ratings.distribution.three - (if old = 3 then 1 else 0) + (if new = 3 then 1 else 0) ∧
    (m.updateRating new (some old)).ratings.distribution.four
      = m.ratings.distribution.four - (if old = 4 then 1 else 0) + (if new = 4 then 1 else 0) ∧
    (m.updateRating new (some old)).ratings.distribution.five
      = m.ratings.distribution.five - (if old = 5 then 1 else 0) + (if new = 5 then 1 else 0) ∧
    (old = new →
      (m.updateRating new (some old)).ratings.distribution = m.ratings.distribution) := by
  obtain ⟨ko, hko, o1, o2, o3, o4, o5⟩ := isStar_key old hold
  obtain ⟨kn, hkn, n1, n2, n3, n4, n5⟩ := isStar_key new hnew
  obtain ⟨hd, hcnt⟩ := updateRating_some m new old (truthy_star old hold)
  have hkk : old = new → ko = kn := by
    intro e
    subst e
    exact Option.some.inj (hko.symm.trans hkn)
  rw [hd, hcnt, hko, hkn]
  rw [Distribution.bucket, hko] at hb
  simp only [o1, o2, o3, o4, o5, n1, n2, n3, n4, n5]
  refine ⟨by omega, Distribution.get_replace _ ko kn Key.one hb,
    Distribution.get_replace _ ko kn Key.two hb, Distribution.get_replace _ ko kn Key.three hb,
    Distribution.get_replace _ ko kn Key.four hb, Distribution.get_replace _ ko kn Key.five hb,
    ?_⟩
  intro e
  have hk := hkk e
  subst hk
  exact Distribution.increment_decrement _ _ hb

theorem updateRating_replace_delta_witness :
    isStar 5 ∧ isStar 4 ∧ 1 ≤ oneFiveStar.ratings.distribution.bucket 5 ∧
    1 ≤ oneFiveStar.ratings.count ∧
    (oneFiveStar.updateRating 4 (some 5)).ratings.count = oneFiveStar.ratings.count :=
  ⟨by norm_num [isStar], by norm_num [isStar],
    by norm_num [oneFiveStar, Distribution.bucket, keyAt, Distribution.get],
    by norm_num [oneFiveStar],
    (updateRating_replace_delta oneFiveStar 5 4 (by norm_num [isStar]) (by norm_num [isStar])
      (by norm_num [oneFiveStar, Distribution.bucket, keyAt, Distribution.get])
      (by norm_num [oneFiveStar])).1⟩

/-! ## Facts about JavaScript strings -/

/-- White space that `String.prototype.trim` strips, the no-break space
included, and the `length` of a character outside the basic plane. -/
theorem jsTrim_jsLength_examples :
    jsTrim " \u00a0hi\t\u00a0" = "hi" ∧ jsTrim "a b " = "a b" ∧ jsLength "hi" = 2 ∧
    jsLength (String.singleton (Char.ofNat 128512)) = 2 ∧
    (String.singleton (Char.ofNat 128512)).length = 1 := by
  decide!

/-- After the leading and then the trailing elements that satisfy `p` have been
dropped, no leading element satisfies `p`. -/
theorem dropWhile_rdropWhile {α : Type} (p : α → Bool) (l : List α) :
    (List.rdropWhile p (List.dropWhile p l)).dropWhile p
      = List.rdropWhile p (List.dropWhile p l) := by
  rw [List.dropWhile_eq_self_iff]
  intro hpos
  obtain ⟨t, ht⟩ := List.rdropWhile_prefix p (List.dropWhile p l)
  have hne : List.rdropWhile p (List.dropWhile p l) ≠ [] := List.ne_nil_of_length_pos hpos
  obtain ⟨a, r, har⟩ := List.exists_cons_of_ne_nil hne
  have hM : List.dropWhile p l = a :: (r ++ t) := by
    rw [← ht, har]
    rfl
  have hpa : ¬ p a = true := by
    have := List.head_dropWhile_not p l (by rw [hM]; simp)
    simpa [hM] using this
  simpa [har] using hpa

/-- Trimming a trimmed string changes nothing: the schema setter `trim` of the
review texts (Review.js 20-29) finds the texts the handler has trimmed. -/
theorem jsTrim_idem (t : String) : jsTrim (jsTrim t) = jsTrim t := by
  have h : ∀ l : List Char,
      ((l.dropWhile isJsSpace).reverse.dropWhile isJsSpace).reverse
        = List.rdropWhile isJsSpace (l.dropWhile isJsSpace) := fun _ => rfl
  unfold jsTrim
  show String.mk ((((String.mk
      ((t.toList.dropWhile isJsSpace).reverse.dropWhile isJsSpace).reverse).toList.dropWhile
        isJsSpace).reverse.dropWhile isJsSpace).reverse) = _
  have htl : (String.mk ((t.toList.dropWhile isJsSpace).reverse.dropWhile isJsSpace).reverse).toList
      = ((t.toList.dropWhile isJsSpace).reverse.dropWhile isJsSpace).reverse := rfl
  rw [htl, h, h, dropWhile_rdropWhile, List.rdropWhile_idempotent]

/-! ## Facts about reports -/

/-- The fields of a review after `reportReview` by a user who has not reported
it yet. -/
theorem reportReview_fields (rv : Review) (u : Nat) (reason : Option String)
    (h : u ∉ rv.reported.users) :
    (rv.reportReview u reason).reported.users = rv.reported.users ++ [u] ∧
    (rv.reportReview u reason).reported.count = rv.reported.count + 1 ∧
    (rv.reportReview u reason).reported.reasons = pushReason rv.reported.reasons reason ∧
    (rv.reportReview u reason).status
      = (if 5 ≤ rv.reported.count + 1 then ReviewStatus.hidden else rv.status) ∧
    (rv.reportReview u reason).user = rv.user ∧
    (rv.reportReview u reason).rating = rv.rating ∧
    (rv.reportReview u reason).helpful = rv.helpful := by
  unfold Review.reportReview
  rw [if_pos h]
  by_cases hc : 5 ≤ rv.reported.count + 1
  · simp [hc]
  · simp [hc]

/-- A report request that passes both checks stores `reportReview`. -/
theorem afterReport_ok (rv : Review) (u : Nat) (reason : Option String)
    (hu : rv.user ≠ u) (h : u ∉ rv.reported.users) :
    afterReport rv u reason = rv.reportReview u reason := by
  simp [afterReport, reportChecked, hu, h]

/-- The state of a review after a list of reports by distinct users who are
neither the author nor earlier reporters. -/
theorem reportAll_fields (reports : List (Nat × Option String)) :
    ∀ rv : Review, (∀ p ∈ reports, p.1 ≠ rv.user) → (reports.map Prod.fst).Nodup →
      (∀ p ∈ reports, p.1 ∉ rv.reported.users) →
      (reportAll rv reports).user = rv.user ∧
      (reportAll rv reports).reported.users = rv.reported.users ++ reports.map Prod.fst ∧
      (reportAll rv reports).reported.count = rv.reported.count + reports.length ∧
      (reportAll rv reports).status
        = (if reports ≠ [] ∧ 5 ≤ rv.reported.count + reports.length then ReviewStatus.hidden
            else rv.status) := by
  induction reports with
  | nil =>
    intro rv _ _ _
    simp [reportAll]
  | cons p t ih =>
    intro rv hauthor hnodup hnew
    have hp : p.1 ≠ rv.user := hauthor p (List.mem_cons_self _ _)
    have hpn : p.1 ∉ rv.reported.users := hnew p (List.mem_cons_self _ _)
    obtain ⟨f1, f2, -, f4, f5, -, -⟩ := reportReview_fields rv p.1 p.2 hpn
    have hstep : reportAll rv (p :: t) = reportAll (rv.reportReview p.1 p.2) t := by
      simp [reportAll, afterReport_ok rv p.1 p.2 (Ne.symm hp) hpn]
    rw [List.map_cons, List.nodup_cons] at hnodup
    have h1 : ∀ q ∈ t, q.1 ≠ (rv.reportReview p.1 p.2).user := by
      intro q hq
      rw [f5]
      exact hauthor q (List.mem_cons_of_mem _ hq)
    have h3 : ∀ q ∈ t, q.1 ∉ (rv.reportReview p.1 p.2).reported.users := by
      intro q hq
      rw [f1, List.mem_append, List.mem_singleton]
      rintro (hm | hm)
      · exact hnew q (List.mem_cons_of_mem _ hq) hm
      · exact hnodup.1 (hm ▸ List.mem_map_of_mem Prod.fst hq)
    obtain ⟨g1, g2, g3, g4⟩ := ih (rv.reportReview p.1 p.2) h1 hnodup.2 h3
    rw [hstep, g1, g2, g3, g4, f1, f2, f4, f5]
    have hlen : ((p :: t).length : Int) = (t.length : Int) + 1 := by
      simp only [List.length_cons]
      push_cast
      rfl
    refine ⟨rfl, by simp, by rw [hlen]; ring, ?_⟩
    rw [hlen]
    have hne : (p :: t) ≠ [] := List.cons_ne_nil p t
    have e1 : ((p :: t) ≠ [] ∧ 5 ≤ rv.reported.count + ((t.length : Int) + 1))
        ↔ 5 ≤ rv.reported.count + ((t.length : Int) + 1) := and_iff_right hne
    have e2 : (t ≠ [] ∧ 5 ≤ rv.reported.count + 1 + (t.length : Int))
        ↔ (1 ≤ (t.length : Int) ∧ 5 ≤ rv.reported.count + 1 + (t.length : Int)) := by
      rw [← List.length_pos]
      constructor
      · rintro ⟨ha, hb⟩
        exact ⟨by omega, hb⟩
      · rintro ⟨ha, hb⟩
        exact ⟨by omega, hb⟩
    simp only [e1, e2]
    split_ifs <;> first | rfl | omega

/-- C10 (report effect): for a reporter not yet in `reported.users`,
`reportReview` appends the reporter, raises `reported.count` by exactly 1,
appends the reason exactly when a non-empty reason is supplied, and leaves the
rating and the helpful votes unchanged; so `reported.count` equal to the number
of reporters is preserved. -/
theorem reportReview_effect (rv : Review) (u : Nat) (reason : Option String)
    (h : u ∉ rv.reported.users) :
    (rv.reportReview u reason).reported.users = rv.reported.users ++ [u] ∧
    (rv.reportReview u reason).reported.count = rv.reported.count + 1 ∧
    (∀ t : String, reason = some t → t ≠ "" →
      (rv.reportReview u reason).reported.reasons = rv.reported.reasons ++ [t]) ∧
    ((reason = none ∨ reason = some "") →
      (rv.reportReview u reason).reported.reasons = rv.reported.reasons) ∧
    (rv.reportReview u reason).rating = rv.rating ∧
    (rv.reportReview u reason).helpful = rv.helpful ∧
    (rv.reported.count = rv.reported.users.length →
      (rv.reportReview u reason).reported.count
        = (rv.reportReview u reason).reported.users.length) := by
  obtain ⟨f1, f2, f3, -, -, f6, f7⟩ := reportReview_fields rv u reason h
  refine ⟨f1, f2, ?_, ?_, f6, f7, ?_⟩
  · intro t ht hne
    rw [f3, ht]
    simp [pushReason, hne]
  · rintro (hr | hr)
    · rw [f3, hr]
      rfl
    · rw [f3, hr]
      simp [pushReason]
  · intro hc
    rw [f1, f2, hc]
    simp

theorem reportReview_effect_witness :
    (3 : Nat) ∉ ({ id := 0, user := 7, movie := 1, rating := 4 } : Review).reported.users ∧
    (({ id := 0, user := 7, movie := 1, rating := 4 } : Review).reportReview 3
      (some "spam")).reported.users = [] ++ [3] :=
  ⟨by simp,
    (reportReview_effect { id := 0, user := 7, movie := 1, rating := 4 } 3 (some "spam")
      (by simp)).1⟩

/-- C8 (report threshold): starting from an active review without reports,
after reports by distinct users other than the author every reporter is
recorded and counted, the status is still active for up to 4 reports and is
hidden at 5; a further report request by one of the reporters is answered with
status 400 "You have already reported this review" (the failure the
specification calls `Conflict`) and leaves the whole store, hence the status,
the count and the reporters, as they were. -/
theorem report_threshold (rv : Review) (reports : List (Nat × Option String))
    (husers : rv.reported.users = []) (hcount : rv.reported.count = 0)
    (hactive : rv.status = ReviewStatus.active)
    (hdistinct : (reports.map Prod.fst).Nodup) (hauthor : ∀ p ∈ reports, p.1 ≠ rv.user) :
    (reportAll rv reports).reported.users = reports.map Prod.fst ∧
    (reportAll rv reports).reported.count = reports.length ∧
    (reports.length ≤ 4 → (reportAll rv reports).status = ReviewStatus.active) ∧
    (reports.length = 5 → (reportAll rv reports).status = ReviewStatus.hidden) ∧
    (∀ p ∈ reports, ∀ reason : Option String,
      reportChecked (reportAll rv reports) p.1 reason = Except.error alreadyReported ∧
      afterReport (reportAll rv reports) p.1 reason = reportAll rv reports ∧
      ∀ (s : Store) (reviewId : Nat), s.findReview reviewId = some (reportAll rv reports) →
        reportReviewRoute s p.1 reviewId reason = (s, alreadyReported)) := by
  have hnew : ∀ p ∈ reports, p.1 ∉ rv.reported.users := by
    intro p _
    rw [husers]
    exact List.not_mem_nil _
  obtain ⟨g1, g2, g3, g4⟩ := reportAll_fields reports rv hauthor hdistinct hnew
  rw [husers, List.nil_append] at g2
  rw [hcount, zero_add] at g3 g4
  have hconf : ∀ p ∈ reports, ∀ reason : Option String,
      reportChecked (reportAll rv reports) p.1 reason = Except.error alreadyReported := by
    intro p hp reason
    have hne : ¬ (reportAll rv reports).user = p.1 := by
      rw [g1]
      exact Ne.symm (hauthor p hp)
    have hmem : p.1 ∈ (reportAll rv reports).reported.users := by
      rw [g2]
      exact List.mem_map_of_mem Prod.fst hp
    simp [reportChecked, hne, hmem, alreadyReported]
  refine ⟨g2, g3, ?_, ?_, ?_⟩
  · intro hle
    rw [g4, hactive, if_neg]
    rintro ⟨-, h5⟩
    omega
  · intro h5
    rw [g4, if_pos]
    refine ⟨?_, by omega⟩
    intro hnil
    rw [hnil] at h5
    simp at h5
  · intro p hp reason
    refine ⟨hconf p hp reason, ?_, ?_⟩
    · simp [afterReport, hconf p hp reason]
    · intro s reviewId hfind
      simp [reportReviewRoute, hfind, hconf p hp reason]

theorem report_threshold_witness :
    ({ id := 0, user := 7, movie := 1, rating := 4 } : Review).reported.users = [] ∧
    (reportAll { id := 0, user := 7, movie := 1, rating := 4 }
      [(1, none), (2, some "spam"), (3, none), (4, none), (5, none)]).status
      = ReviewStatus.hidden :=
  ⟨rfl,
    (report_threshold { id := 0, user := 7, movie := 1, rating := 4 }
      [(1, none), (2, some "spam"), (3, none), (4, none), (5, none)] rfl rfl rfl
      (by decide) (by decide)).2.2.2.1 rfl⟩

/-! ## Facts about the handlers -/

theorem updateRating_id (m : Movie) (new : ℚ) (old : Option ℚ) :
    (m.updateRating new old).id = m.id := rfl

theorem findMovie_id (s : Store) (id : Nat) (m : Movie) (h : s.findMovie id = some m) :
    m.id = id := by
  have := List.find?_some h
  simpa using this

/-- The pre-save middleware leaves the store alone or saves one movie, the one
the review belongs to. -/
theorem preSave_cases (s : Store) (doc : Review) (a b : Bool) :
    preSave s doc a b = s ∨
      ∃ h : Movie, h.id = doc.movie ∧ preSave s doc a b = s.saveMovie h := by
  unfold preSave
  by_cases hab : (a || b) = true
  · rw [if_pos hab]
    cases hfm : s.findMovie doc.movie with
    | none => exact Or.inl rfl
    | some movie =>
      have hid : (movie.updateRating doc.rating
          (if (!a) = true then Option.map (fun o => o.rating) (s.findReview doc.id)
            else none)).id = doc.movie :=
        (updateRating_id _ _ _).trans (findMovie_id s doc.movie movie hfm)
      by_cases hval : (movie.updateRating doc.rating
          (if (!a) = true then Option.map (fun o => o.rating) (s.findReview doc.id)
            else none)).valid = true
      · exact Or.inr ⟨_, hid, by simp only [hval, if_true]⟩
      · exact Or.inl (by simp only [hval]; rfl)
  · rw [if_neg hab]
    exact Or.inl rfl

theorem preSave_reviews (s : Store) (doc : Review) (a b : Bool) :
    (preSave s doc a b).reviews = s.reviews := by
  rcases preSave_cases s doc a b with h | ⟨m, -, h⟩ <;> rw [h]
  rfl

theorem preSave_nextId (s : Store) (doc : Review) (a b : Bool) :
    (preSave s doc a b).nextId = s.nextId := by
  rcases preSave_cases s doc a b with h | ⟨m, -, h⟩ <;> rw [h]
  rfl

theorem preSave_false (s : Store) (doc : Review) : preSave s doc false false = s := by
  simp [preSave]

theorem findMovie_mem (s : Store) (id : Nat) (m : Movie) (h : s.findMovie id = some m) :
    m ∈ s.movies := List.mem_of_find?_eq_some h

/-- Saving a movie after the pre-save middleware of a review of that movie
gives the same movies as saving it on the store before the middleware. -/
theorem preSave_saveMovie_movies (s : Store) (doc : Review) (a b : Bool) (m : Movie)
    (hid : m.id = doc.movie) :
    (preSave s doc a b).movies.map (fun x => if x.id = m.id then m else x)
      = s.movies.map (fun x => if x.id = m.id then m else x) := by
  rcases preSave_cases s doc a b with h | ⟨h0, hh, h⟩
  · rw [h]
  · rw [h]
    simp only [Store.saveMovie, List.map_map]
    apply List.map_congr_left
    intro x _
    simp only [Function.comp]
    by_cases hx : x.id = h0.id
    · rw [if_pos hx, if_pos (hh.trans hid.symm), if_pos (hx.trans (hh.trans hid.symm))]
    · rw [if_neg hx]

/-- The update branch of `submitReview`: the stored review of the user for the
movie is `e`, the updated document passes the schema validators, and the
handler's save of the movie is accepted. -/
theorem submitReview_update (s : Store) (userId movieId : Nat) (rating : ℚ)
    (review title : Option String) (sp : Option Bool) (movie : Movie) (e : Review)
    (hm : s.findMovie movieId = some movie)
    (he : s.reviews.find? (fun r => decide (r.user = userId ∧ r.movie = movieId)) = some e)
    (h1 : 1 ≤ rating) (h5 : rating ≤ 5)
    (hv : (updatedReview e rating review title sp).valid = true)
    (hval : (movie.updateRating rating (some e.rating)).valid = true) :
    submitReview s userId (some movieId) (some rating) review title sp =
      (((preSave s (updatedReview e rating review title sp) false
            (decide (rating ≠ e.rating))).saveReview
            (updatedReview e rating review title sp)).saveMovie
          (movie.updateRating rating (some e.rating)),
        { status := 200, message := "Review updated successfully" }) := by
  have h0 : rating ≠ 0 := by
    intro h
    rw [h] at h1
    norm_num at h1
  have hr : ¬ (rating < 1 ∨ rating > 5) := by
    rintro (h | h)
    · exact absurd h1 (not_le.mpr h)
    · exact absurd h5 (not_le.mpr h)
  simp only [submitReview, if_neg h0, if_neg hr, hm, he, hv, hval, if_true]

/-- The update branch of `submitReview` when the handler's save of the movie is
rejected by the validators: the review has been written, the answer is 500. -/
theorem submitReview_update_rejected (s : Store) (userId movieId : Nat) (rating : ℚ)
    (review title : Option String) (sp : Option Bool) (movie : Movie) (e : Review)
    (hm : s.findMovie movieId = some movie)
    (he : s.reviews.find? (fun r => decide (r.user = userId ∧ r.movie = movieId)) = some e)
    (h1 : 1 ≤ rating) (h5 : rating ≤ 5)
    (hv : (updatedReview e rating review title sp).valid = true)
    (hval : ¬ (movie.updateRating rating (some e.rating)).valid = true) :
    submitReview s userId (some movieId) (some rating) review title sp =
      ((preSave s (updatedReview e rating review title sp) false
            (decide (rating ≠ e.rating))).saveReview
            (updatedReview e rating review title sp),
        { status := 500, message := "Could not save review" }) := by
  have h0 : rating ≠ 0 := by
    intro h
    rw [h] at h1
    norm_num at h1
  have hr : ¬ (rating < 1 ∨ rating > 5) := by
    rintro (h | h)
    · exact absurd h1 (not_le.mpr h)
    · exact absurd h5 (not_le.mpr h)
  simp only [submitReview, if_neg h0, if_neg hr, hm, he, hv, hval, if_true]
  rfl

/-- The create branch of `submitReview`: the user has no stored review of the
movie, the new document passes the schema validators, and the handler's save
of the movie is accepted. -/
theorem submitReview_create (s : Store) (userId movieId : Nat) (rating : ℚ)
    (review title : Option String) (sp : Option Bool) (movie : Movie)
    (hm : s.findMovie movieId = some movie)
    (he : s.reviews.find? (fun r => decide (r.user = userId ∧ r.movie = movieId)) = none)
    (h1 : 1 ≤ rating) (h5 : rating ≤ 5)
    (hv : (createdReview s.nextId userId movieId rating review title sp).valid = true)
    (hval : (movie.updateRating rating none).valid = true) :
    submitReview s userId (some movieId) (some rating) review title sp =
      (({ preSave s (createdReview s.nextId userId movieId rating review title sp) true true with
            reviews :=
              (preSave s (createdReview s.nextId userId movieId rating review title sp)
                true true).reviews
                ++ [createdReview s.nextId userId movieId rating review title sp]
            nextId :=
              (preSave s (createdReview s.nextId userId movieId rating review title sp)
                true true).nextId + 1 } : Store).saveMovie (movie.updateRating rating none),
        { status := 201, message := "Review created successfully" }) := by
  have h0 : rating ≠ 0 := by
    intro h
    rw [h] at h1
    norm_num at h1
  have hr : ¬ (rating < 1 ∨ rating > 5) := by
    rintro (h | h)
    · exact absurd h1 (not_le.mpr h)
    · exact absurd h5 (not_le.mpr h)
  simp only [submitReview, if_neg h0, if_neg hr, hm, he, hv, hval, if_true]

/-- The create branch of `submitReview` when the save of the movie is rejected
by the validators, in the middleware and in the handler alike: the review has
been created, the movies are untouched, the answer is 500. -/
theorem submitReview_create_rejected (s : Store) (userId movieId : Nat) (rating : ℚ)
    (review title : Option String) (sp : Option Bool) (movie : Movie)
    (hm : s.findMovie movieId = some movie)
    (he : s.reviews.find? (fun r => decide (r.user = userId ∧ r.movie = movieId)) = none)
    (h1 : 1 ≤ rating) (h5 : rating ≤ 5)
    (hv : (createdReview s.nextId userId movieId rating review title sp).valid = true)
    (hval : ¬ (movie.updateRating rating none).valid = true) :
    submitReview s userId (some movieId) (some rating) review title sp =
      ({ s with
          reviews := s.reviews ++ [createdReview s.nextId userId movieId rating review title sp]
          nextId := s.nextId + 1 },
        { status := 500, message := "Could not save review" }) := by
  have h0 : rating ≠ 0 := by
    intro h
    rw [h] at h1
    norm_num at h1
  have hr : ¬ (rating < 1 ∨ rating > 5) := by
    rintro (h | h)
    · exact absurd h1 (not_le.mpr h)
    · exact absurd h5 (not_le.mpr h)
  have hm1 : s.findMovie
      (createdReview s.nextId userId movieId rating review title sp).movie = some movie := hm
  have hval1 : ¬ (movie.updateRating
      (createdReview s.nextId userId movieId rating review title sp).rating none).valid
        = true := hval
  have hpre : preSave s (createdReview s.nextId userId movieId rating review title sp) true true
      = s := by
    simp only [preSave, hm1, Bool.or_self, if_true, Bool.not_true, Bool.false_eq_true,
      if_false, hval1]
  simp only [submitReview, if_neg h0, if_neg hr, hm, he, hv, hval, if_true, hpre]
  rfl

/-- The outcomes of `submitReview` on the store: nothing written, an update of
the stored review `e`, a newly created review, or one of the two with the
handler's save of the movie rejected by the validators. -/
theorem submitReview_cases (s : Store) (userId : Nat) (movieId? : Option Nat)
    (rating? : Option ℚ) (review title : Option String) (sp : Option Bool) :
    (submitReview s userId movieId? rating? review title sp).1 = s ∨
    (∃ (movieId : Nat) (rating : ℚ) (movie : Movie) (e : Review),
      rating? = some rating ∧ 1 ≤ rating ∧ rating ≤ 5 ∧
      s.findMovie movieId = some movie ∧ e ∈ s.reviews ∧ e.movie = movieId ∧
      (submitReview s userId movieId? rating? review title sp).1 =
        { movies := s.movies.map (fun x =>
            if x.id = (movie.updateRating rating (some e.rating)).id
              then movie.updateRating rating (some e.rating) else x)
          reviews := s.reviews.map (fun x =>
            if x.id = (updatedReview e rating review title sp).id
              then updatedReview e rating review title sp else x)
          nextId := s.nextId }) ∨
    (∃ (movieId : Nat) (rating : ℚ) (movie : Movie),
      rating? = some rating ∧ 1 ≤ rating ∧ rating ≤ 5 ∧
      s.findMovie movieId = some movie ∧
      (submitReview s userId movieId? rating? review title sp).1 =
        { movies := s.movies.map (fun x =>
            if x.id = (movie.updateRating rating none).id
              then movie.updateRating rating none else x)
          reviews := s.reviews ++ [createdReview s.nextId userId movieId rating review title sp]
          nextId := s.nextId + 1 }) ∨
    (∃ (movieId : Nat) (rating : ℚ) (movie : Movie) (e : Review),
      rating? = some rating ∧ 1 ≤ rating ∧ rating ≤ 5 ∧
      s.findMovie movieId = some movie ∧ e ∈ s.reviews ∧ e.movie = movieId ∧
      ¬ (movie.updateRating rating (some e.rating)).valid = true) ∨
    (∃ (movieId : Nat) (rating : ℚ) (movie : Movie),
      rating? = some rating ∧ 1 ≤ rating ∧ rating ≤ 5 ∧
      s.findMovie movieId = some movie ∧
      ¬ (movie.updateRating rating none).valid = true) := by
  cases movieId? with
  | none => exact Or.inl (by cases rating? <;> rfl)
  | some movieId =>
    cases rating? with
    | none => exact Or.inl rfl
    | some rating =>
      by_cases h0 : rating = 0
      · exact Or.inl (by simp only [submitReview, if_pos h0])
      by_cases hr : rating < 1 ∨ rating > 5
      · exact Or.inl (by simp only [submitReview, if_neg h0, if_pos hr])
      have h1 : 1 ≤ rating := not_lt.mp (fun h => hr (Or.inl h))
      have h5 : rating ≤ 5 := not_lt.mp (fun h => hr (Or.inr h))
      cases hm : s.findMovie movieId with
      | none => exact Or.inl (by simp only [submitReview, if_neg h0, if_neg hr, hm])
      | some movie =>
        have hmid : movie.id = movieId := findMovie_id s movieId movie hm
        cases he : s.reviews.find? (fun r => decide (r.user = userId ∧ r.movie = movieId)) with
        | some e =>
          have hem : e.movie = movieId := by
            have := List.find?_some he
            simp only [decide_eq_true_eq] at this
            exact this.2
          by_cases hv : (updatedReview e rating review title sp).valid = true
          · by_cases hval : (movie.updateRating rating (some e.rating)).valid = true
            · refine Or.inr (Or.inl ⟨movieId, rating, movie, e, rfl, h1, h5, hm,
                List.mem_of_find?_eq_some he, hem, ?_⟩)
              rw [submitReview_update s userId movieId rating review title sp movie e hm he h1 h5
                hv hval]
              simp only [Store.saveMovie, Store.saveReview, preSave_reviews, preSave_nextId]
              rw [preSave_saveMovie_movies]
              exact hmid.trans hem.symm
            · exact Or.inr (Or.inr (Or.inr (Or.inl ⟨movieId, rating, movie, e, rfl, h1, h5, hm,
                List.mem_of_find?_eq_some he, hem, hval⟩)))
          · exact Or.inl (by
              simp only [submitReview, if_neg h0, if_neg hr, hm, he, hv]
              rfl)
        | none =>
          by_cases hv : (createdReview s.nextId userId movieId rating review title sp).valid = true
          · by_cases hval : (movie.updateRating rating none).valid = true
            · refine Or.inr (Or.inr (Or.inl ⟨movieId, rating, movie, rfl, h1, h5, hm, ?_⟩))
              rw [submitReview_create s userId movieId rating review title sp movie hm he h1 h5
                hv hval]
              simp only [Store.saveMovie, preSave_reviews, preSave_nextId]
              rw [preSave_saveMovie_movies]
              exact hmid
            · exact Or.inr (Or.inr (Or.inr (Or.inr ⟨movieId, rating, movie, rfl, h1, h5, hm,
                hval⟩)))
          · exact Or.inl (by
              simp only [submitReview, if_neg h0, if_neg hr, hm, he, hv]
              rfl)

/-- C3 (round trip), evaluated on the code: on a store with one movie at its
default ratings, user 7 submits a five-star review and then deletes it. The
review is gone and the five buckets are back at 0, but `count` stays at 1 (it
was 0 before the submission). -/
theorem submit_then_delete_keeps_count :
    oneMovie.movies.map (fun m => m.ratings) = [{}] ∧
    (run oneMovie [Op.submit 7 (some 1) (some 5) none none none]).movies.map
        (fun m => m.ratings)
      = [{ average := 5, count := 1, distribution := { five := 1 } }] ∧
    (run oneMovie [Op.submit 7 (some 1) (some 5) none none none]).reviews.map
        (fun r => (r.id, r.user, r.movie, r.rating)) = [(0, 7, 1, 5)] ∧
    (run oneMovie [Op.submit 7 (some 1) (some 5) none none none, Op.delete 7 0]).reviews = [] ∧
    (run oneMovie [Op.submit 7 (some 1) (some 5) none none none, Op.delete 7 0]).movies.map
        (fun m => m.ratings)
      = [{ average := 0, count := 1, distribution := {} }] := by
  decide!

/-- C9, as stated, fails: after five reports the review of user 7 is hidden;
when user 7 then submits a review of the same movie again, the update branch
of the handler sets the status back to active. -/
theorem resubmission_reactivates_hidden :
    (run oneMovie hideOps).reviews.map (fun r => (r.user, r.reported.count, r.status))
      = [(7, 5, ReviewStatus.hidden)] ∧
    (run oneMovie (hideOps ++ [Op.submit 7 (some 1) (some 4) none none none])).reviews.map
        (fun r => (r.user, r.reported.count, r.status))
      = [(7, 5, ReviewStatus.active)] := by
  decide!

/-- C9 (amended): a hidden review stays hidden under every report and every
helpful request, whoever sends it (the method calls and the handlers alike);
a resubmission by the author through `submitReview` whose rating and trimmed
texts pass the validators of the review stores the review with status active.
It is answered 200 when the save of the movie's ratings is accepted, and 500
when that save is rejected, after the review has been written. -/
theorem hidden_kept_by_report_and_helpful (rv : Review)
    (h : rv.status = ReviewStatus.hidden) :
    (∀ (u : Nat) (reason : Option String),
      (rv.reportReview u reason).status = ReviewStatus.hidden ∧
      (afterReport rv u reason).status = ReviewStatus.hidden) ∧
    (∀ u : Nat,
      (rv.toggleHelpful u).1.status = ReviewStatus.hidden ∧
      (afterHelpful rv u).status = ReviewStatus.hidden) ∧
    (∀ (s : Store) (movieId : Nat) (movie : Movie) (rating : ℚ) (review title : Option String)
      (sp : Option Bool),
      s.findMovie movieId = some movie →
      s.reviews.find? (fun r => decide (r.user = rv.user ∧ r.movie = movieId)) = some rv →
      1 ≤ rating → rating ≤ 5 →
      jsLength ((review.map jsTrim).getD "") ≤ 1000 →
      jsLength ((title.map jsTrim).getD "") ≤ 100 →
      ((submitReview s rv.user (some movieId) (some rating) review title sp).2.status = 200 ∨
        (submitReview s rv.user (some movieId) (some rating) review title sp).2.status = 500) ∧
      ((movie.updateRating rating (some rv.rating)).valid = true →
        (submitReview s rv.user (some movieId) (some rating) review title sp).2.status = 200) ∧
      (∃ r ∈ (submitReview s rv.user (some movieId) (some rating) review title sp).1.reviews,
        r.id = rv.id ∧ r.status = ReviewStatus.active) ∧
      (∀ r ∈ (submitReview s rv.user (some movieId) (some rating) review title sp).1.reviews,
        r.id = rv.id → r.status = ReviewStatus.active)) := by
  have hrep : ∀ (u : Nat) (reason : Option String),
      (rv.reportReview u reason).status = ReviewStatus.hidden := by
    intro u reason
    by_cases hu : u ∈ rv.reported.users
    · have hsame : rv.reportReview u reason = rv := by
        unfold Review.reportReview
        rw [if_neg (not_not.mpr hu)]
      rw [hsame]
      exact h
    · rw [(reportReview_fields rv u reason hu).2.2.2.1, h]
      split_ifs <;> rfl
  have hhelp : ∀ u : Nat, (rv.toggleHelpful u).1.status = ReviewStatus.hidden := by
    intro u
    unfold Review.toggleHelpful
    split_ifs <;> exact h
  refine ⟨?_, ?_, ?_⟩
  · intro u reason
    refine ⟨hrep u reason, ?_⟩
    unfold afterReport reportChecked
    split_ifs <;> first | exact h | exact hrep u reason
  · intro u
    refine ⟨hhelp u, ?_⟩
    unfold afterHelpful helpfulChecked
    split_ifs <;> first | exact h | exact hhelp u
  · intro s movieId movie rating review title sp hm he h1 h5 hl1 hl2
    have hv : (updatedReview rv rating review title sp).valid = true := by
      simp [Review.valid, updatedReview, h1, h5, hl1, hl2]
    have hmem : rv ∈ s.reviews := List.mem_of_find?_eq_some he
    have hrev : (submitReview s rv.user (some movieId) (some rating) review title sp).1.reviews
        = s.reviews.map (fun x =>
            if x.id = (updatedReview rv rating review title sp).id
              then updatedReview rv rating review title sp else x) := by
      by_cases hval : (movie.updateRating rating (some rv.rating)).valid = true
      · rw [submitReview_update s rv.user movieId rating review title sp movie rv hm he h1 h5 hv
          hval]
        simp only [Store.saveMovie, Store.saveReview, preSave_reviews]
      · rw [submitReview_update_rejected s rv.user movieId rating review title sp movie rv hm he
          h1 h5 hv hval]
        simp only [Store.saveReview, preSave_reviews]
    refine ⟨?_, ?_, ?_, ?_⟩
    · by_cases hval : (movie.updateRating rating (some rv.rating)).valid = true
      · rw [submitReview_update s rv.user movieId rating review title sp movie rv hm he h1 h5 hv
          hval]
        exact Or.inl rfl
      · rw [submitReview_update_rejected s rv.user movieId rating review title sp movie rv hm he
          h1 h5 hv hval]
        exact Or.inr rfl
    · intro hval
      rw [submitReview_update s rv.user movieId rating review title sp movie rv hm he h1 h5 hv
        hval]
    · refine ⟨updatedReview rv rating review title sp, ?_, rfl, rfl⟩
      rw [hrev, List.mem_map]
      exact ⟨rv, hmem, if_pos rfl⟩
    · intro r hr hid
      rw [hrev, List.mem_map] at hr
      obtain ⟨x, -, hx⟩ := hr
      split_ifs at hx with hxid
      · rw [← hx]
        rfl
      · rw [← hx] at hid
        exact absurd hid hxid

theorem hidden_kept_by_report_and_helpful_witness :
    ({ id := 0, user := 7, movie := 1, rating := 4, status := ReviewStatus.hidden }
      : Review).status = ReviewStatus.hidden ∧
    (afterReport { id := 0, user := 7, movie := 1, rating := 4, status := ReviewStatus.hidden }
      3 none).status = ReviewStatus.hidden :=
  ⟨rfl,
    ((hidden_kept_by_report_and_helpful
      { id := 0, user := 7, movie := 1, rating := 4, status := ReviewStatus.hidden } rfl).1
      3 none).2⟩

/-! ## The aggregate of a movie against the stored reviews -/

/-- Replacing the one review with the identity of `e` changes a count by the
difference between the new and the old document. -/
theorem countP_replace (p : Review → Bool) (e e' : Review) (hid : e'.id = e.id) :
    ∀ l : List Review, (l.map (fun r => r.id)).Nodup → e ∈ l →
      ((l.map (fun x => if x.id = e'.id then e' else x)).countP p : Int)
        = (l.countP p : Int) - (if p e = true then 1 else 0) + (if p e' = true then 1 else 0) := by
  intro l
  induction l with
  | nil =>
    intro _ he
    exact absurd he (List.not_mem_nil _)
  | cons x xs ih =>
    intro hn he
    rw [List.map_cons, List.nodup_cons] at hn
    rw [List.map_cons, List.countP_cons, List.countP_cons]
    rcases List.mem_cons.mp he with hex | hexs
    · subst hex
      have hrest : xs.map (fun x => if x.id = e'.id then e' else x) = xs := by
        conv_rhs => rw [← List.map_id xs]
        apply List.map_congr_left
        intro y hy
        have hne : y.id ≠ e'.id := by
          intro h
          apply hn.1
          rw [← hid, ← h]
          exact List.mem_map_of_mem (fun r => r.id) hy
        rw [if_neg hne]
        rfl
      rw [hrest, if_pos hid.symm]
      push_cast
      ring
    · have hne : x.id ≠ e'.id := by
        intro h
        apply hn.1
        rw [h, hid]
        exact List.mem_map_of_mem (fun r => r.id) hexs
      rw [if_neg hne]
      push_cast
      rw [ih hn.2 hexs]
      ring

/-- A count that only reads fields a map leaves alone is unchanged by it. -/
theorem countP_map_same (p : Review → Bool) (g : Review → Review) (l : List Review)
    (h : ∀ x ∈ l, p (g x) = p x) : (l.map g).countP p = l.countP p := by
  rw [List.countP_map]
  apply List.countP_congr
  intro x hx
  simp only [Function.comp]
  rw [h x hx]

theorem keyAt_index (a : ℚ) (k : Key) (h : keyAt a = some k) : a = k.index := by
  unfold keyAt at h
  split_ifs at h with h0 h1 h2 h3 h4 <;> cases h <;> assumption

/-- Two numbers that select the same bucket are equal. -/
theorem keyAt_inj (a b : ℚ) (k : Key) (ha : keyAt a = some k) (hb : keyAt b = some k) :
    a = b := by
  rw [keyAt_index a k ha, keyAt_index b k hb]

/-- A whole number between 1 and 5 is a star value. -/
theorem isStar_of_whole (q : ℚ) (hden : q.den = 1) (h1 : 1 ≤ q) (h5 : q ≤ 5) : isStar q := by
  have hq : ((q.num : Int) : ℚ) = q := Rat.coe_int_num_of_den_eq_one hden
  rw [← hq] at h1 h5 ⊢
  have g1 : (1 : Int) ≤ q.num := by exact_mod_cast h1
  have g5 : q.num ≤ (5 : Int) := by exact_mod_cast h5
  unfold isStar
  generalize q.num = n at g1 g5
  interval_cases n <;> norm_num

/-- A map over the reviews that keeps identity, movie and rating of every
stored review keeps the store consistent. -/
theorem consistent_map (s : Store) (g : Review → Review) (hs : s.consistent)
    (hg : ∀ x ∈ s.reviews, (g x).id = x.id ∧ (g x).movie = x.movie ∧ (g x).rating = x.rating) :
    ({ s with reviews := s.reviews.map g } : Store).consistent := by
  obtain ⟨hstar, hnodup, hlt, hagree⟩ := hs
  refine ⟨?_, ?_, ?_, ?_⟩
  · intro r hr
    obtain ⟨x, hx, rfl⟩ := List.mem_map.mp hr
    rw [(hg x hx).2.2]
    exact hstar x hx
  · have hids : (s.reviews.map g).map (fun r => r.id) = s.reviews.map (fun r => r.id) := by
      rw [List.map_map]
      apply List.map_congr_left
      intro x hx
      exact (hg x hx).1
    show ((s.reviews.map g).map (fun r => r.id)).Nodup
    rw [hids]
    exact hnodup
  · intro r hr
    obtain ⟨x, hx, rfl⟩ := List.mem_map.mp hr
    rw [(hg x hx).1]
    exact hlt x hx
  · intro m hm
    obtain ⟨hc, hb, ha⟩ := hagree m hm
    refine ⟨?_, ?_, ha⟩
    · rw [hc]
      congr 1
      symm
      apply countP_map_same
      intro x hx
      rw [(hg x hx).2.1]
    · intro k
      rw [hb k]
      congr 1
      symm
      apply countP_map_same
      intro x hx
      rw [(hg x hx).2.1, (hg x hx).2.2]

/-- Saving a loaded review whose identity, movie and rating are those of the
stored review `e` keeps the store consistent. -/
theorem consistent_saveReview (s : Store) (e r1 : Review) (hs : s.consistent)
    (he : e ∈ s.reviews) (hid : r1.id = e.id) (hmovie : r1.movie = e.movie)
    (hrating : r1.rating = e.rating) : (s.saveReview r1).consistent := by
  apply consistent_map s _ hs
  intro x hx
  by_cases hxid : x.id = r1.id
  · have hxe : x = e := List.inj_on_of_nodup_map hs.2.1 hx he (hxid.trans hid)
    rw [if_pos hxid, hxe]
    exact ⟨hid, hmovie, hrating⟩
  · rw [if_neg hxid]
    exact ⟨rfl, rfl, rfl⟩

theorem findReview_mem (s : Store) (id : Nat) (e : Review) (h : s.findReview id = some e) :
    e ∈ s.reviews := List.mem_of_find?_eq_some h

theorem reportReview_keeps (rv : Review) (u : Nat) (reason : Option String) :
    (rv.reportReview u reason).id = rv.id ∧ (rv.reportReview u reason).movie = rv.movie ∧
      (rv.reportReview u reason).rating = rv.rating := by
  by_cases hu : u ∈ rv.reported.users <;> by_cases hc : rv.reported.count + 1 ≥ 5 <;>
    simp [Review.reportReview, hu, hc]

theorem toggleHelpful_keeps (rv : Review) (u : Nat) :
    (rv.toggleHelpful u).1.id = rv.id ∧ (rv.toggleHelpful u).1.movie = rv.movie ∧
      (rv.toggleHelpful u).1.rating = rv.rating := by
  by_cases hu : u ∈ rv.helpful.users <;> simp [Review.toggleHelpful, hu]

/-- A report request keeps the store consistent. -/
theorem consistent_report (s : Store) (u i : Nat) (reason : Option String)
    (hs : s.consistent) : (reportReviewRoute s u i reason).1.consistent := by
  unfold reportReviewRoute
  cases hf : s.findReview i with
  | none => exact hs
  | some e =>
    simp only []
    cases hc : reportChecked e u reason with
    | error resp => exact hs
    | ok r1 =>
      have hr1 : r1 = e.reportReview u reason := by
        unfold reportChecked at hc
        split_ifs at hc
        exact (Except.ok.inj hc).symm
      obtain ⟨k1, k2, k3⟩ := reportReview_keeps e u reason
      simp only [preSave_false]
      exact consistent_saveReview s e r1 hs (findReview_mem s i e hf) (hr1 ▸ k1) (hr1 ▸ k2)
        (hr1 ▸ k3)

/-- A helpful request keeps the store consistent. -/
theorem consistent_helpful (s : Store) (u i : Nat) (hs : s.consistent) :
    (toggleHelpfulRoute s u i).1.consistent := by
  unfold toggleHelpfulRoute
  cases hf : s.findReview i with
  | none => exact hs
  | some e =>
    simp only []
    cases hc : helpfulChecked e u with
    | error resp => exact hs
    | ok r1 =>
      obtain ⟨r, resp⟩ := r1
      have hr1 : r = (e.toggleHelpful u).1 := by
        unfold helpfulChecked at hc
        split_ifs at hc
        exact (congrArg Prod.fst (Except.ok.inj hc)).symm
      obtain ⟨k1, k2, k3⟩ := toggleHelpful_keeps e u
      simp only [preSave_false]
      exact consistent_saveReview s e r hs (findReview_mem s i e hf) (hr1 ▸ k1) (hr1 ▸ k2)
        (hr1 ▸ k3)

/-- A movie other than the one of the replaced review still agrees. -/
theorem agrees_replace_other (x : Movie) (e e' : Review) (rs : List Review)
    (hagree : x.agrees rs) (hn : (rs.map (fun r => r.id)).Nodup) (he : e ∈ rs)
    (hid : e'.id = e.id) (hmovie : e'.movie = e.movie) (hne : e.movie ≠ x.id) :
    x.agrees (rs.map (fun y => if y.id = e'.id then e' else y)) := by
  obtain ⟨hc, hb, ha⟩ := hagree
  have hne' : e'.movie ≠ x.id := hmovie ▸ hne
  refine ⟨?_, ?_, ha⟩
  · rw [hc, movieCount, movieCount, countP_replace _ e e' hid rs hn he]
    simp [hne, hne']
  · intro k
    rw [hb k, bucketCount, bucketCount, countP_replace _ e e' hid rs hn he]
    simp [hne, hne']

/-- The movie of a replaced review agrees again after the replace delta. -/
theorem agrees_replace_target (movie : Movie) (e e' : Review) (rs : List Review)
    (hagree : movie.agrees rs) (hn : (rs.map (fun r => r.id)).Nodup) (he : e ∈ rs)
    (hid : e'.id = e.id) (hmovie : e'.movie = e.movie) (hem : e.movie = movie.id)
    (hold : isStar e.rating) (hnew : isStar e'.rating) :
    (movie.updateRating e'.rating (some e.rating)).agrees
      (rs.map (fun y => if y.id = e'.id then e' else y)) := by
  obtain ⟨hc, hb, -⟩ := hagree
  obtain ⟨ko, hko, -⟩ := isStar_key e.rating hold
  obtain ⟨kn, hkn, -⟩ := isStar_key e'.rating hnew
  obtain ⟨hd, hcnt⟩ := updateRating_some movie e'.rating e.rating (truthy_star e.rating hold)
  have hem' : e'.movie = movie.id := hmovie.trans hem
  have hcpos : 1 ≤ movie.ratings.count := by
    rw [hc]
    have : 0 < movieCount rs movie.id :=
      List.countP_pos_iff.mpr ⟨e, he, by simp [hem]⟩
    exact_mod_cast this
  have hbpos : 1 ≤ movie.ratings.distribution.get ko := by
    rw [hb ko]
    have : 0 < bucketCount rs movie.id ko :=
      List.countP_pos_iff.mpr ⟨e, he, by simp [hem, hko]⟩
    exact_mod_cast this
  refine ⟨?_, ?_, updateRating_average_eq _ _ _⟩
  · have hmc : max 0 (movie.ratings.count - 1) + 1 = movie.ratings.count := by
      rw [max_eq_right (by omega)]
      ring
    unfold movieCount at hc ⊢
    rw [hcnt, hmc, hc, updateRating_id, countP_replace _ e e' hid rs hn he]
    simp [hem, hem']
  · intro k
    have hbk := hb k
    unfold bucketCount at hbk ⊢
    rw [hd, hko, hkn, Distribution.get_replace _ ko kn k hbpos, updateRating_id,
      countP_replace _ e e' hid rs hn he, hbk]
    simp only [hem, hem', hko, hkn, true_and, Option.some.injEq, decide_eq_true_eq, Key.ind]

/-- A movie other than the one of a new review still agrees. -/
theorem agrees_append_other (x : Movie) (new : Review) (rs : List Review)
    (hagree : x.agrees rs) (hne : new.movie ≠ x.id) : x.agrees (rs ++ [new]) := by
  obtain ⟨hc, hb, ha⟩ := hagree
  refine ⟨?_, ?_, ha⟩
  · rw [hc, movieCount, movieCount, List.countP_append]
    simp [hne]
  · intro k
    rw [hb k, bucketCount, bucketCount, List.countP_append]
    simp [hne]

/-- The movie of a new review agrees again after the add delta. -/
theorem agrees_append_target (movie : Movie) (new : Review) (rs : List Review)
    (hagree : movie.agrees rs) (hnm : new.movie = movie.id) (hstar : isStar new.rating) :
    (movie.updateRating new.rating none).agrees (rs ++ [new]) := by
  obtain ⟨hc, hb, -⟩ := hagree
  obtain ⟨kn, hkn, -⟩ := isStar_key new.rating hstar
  obtain ⟨hd, hcnt⟩ := updateRating_none movie new.rating
  refine ⟨?_, ?_, updateRating_average_eq _ _ _⟩
  · unfold movieCount at hc ⊢
    rw [hcnt, updateRating_id, List.countP_append, hc]
    simp [hnm]
  · intro k
    have hbk := hb k
    unfold bucketCount at hbk ⊢
    rw [hd, hkn, Distribution.get_increment, updateRating_id, List.countP_append, hbk]
    simp only [List.countP_cons, List.countP_nil, hnm, hkn, true_and, Option.some.injEq,
      decide_eq_true_eq, Key.ind, zero_add]
    push_cast
    rfl

/-- With star ratings only, the five bucket counts of a movie add up to the
number of its reviews. -/
theorem bucketCount_sum (id : Nat) :
    ∀ rs : List Review, (∀ r ∈ rs, isStar r.rating) →
      bucketCount rs id Key.one + bucketCount rs id Key.two + bucketCount rs id Key.three
        + bucketCount rs id Key.four + bucketCount rs id Key.five = movieCount rs id := by
  intro rs
  induction rs with
  | nil =>
    intro _
    rfl
  | cons r rest ih =>
    intro hstar
    have ih' := ih (fun x hx => hstar x (List.mem_cons_of_mem _ hx))
    have hr := hstar r (List.mem_cons_self _ _)
    unfold bucketCount movieCount at ih' ⊢
    by_cases hm : r.movie = id
    · obtain ⟨kr, hkr, -⟩ := isStar_key r.rating hr
      simp only [List.countP_cons, hm, true_and, hkr, Option.some.injEq, decide_eq_true_eq,
        decide_True, if_true]
      generalize List.countP (fun r => decide (r.movie = id ∧ keyAt (r.rating - 1) = some Key.one))
        rest = c1 at ih' ⊢
      generalize List.countP (fun r => decide (r.movie = id ∧ keyAt (r.rating - 1) = some Key.two))
        rest = c2 at ih' ⊢
      generalize List.countP
        (fun r => decide (r.movie = id ∧ keyAt (r.rating - 1) = some Key.three)) rest = c3
        at ih' ⊢
      generalize List.countP (fun r => decide (r.movie = id ∧ keyAt (r.rating - 1) = some Key.four))
        rest = c4 at ih' ⊢
      generalize List.countP (fun r => decide (r.movie = id ∧ keyAt (r.rating - 1) = some Key.five))
        rest = c5 at ih' ⊢
      generalize List.countP (fun r => decide (r.movie = id)) rest = c at ih' ⊢
      cases kr <;> simp <;> omega
    · simp only [List.countP_cons, hm, false_and, decide_False, Bool.false_eq_true, if_false,
        Nat.add_zero]
      exact ih'

/-- A movie that agrees with a list of reviews with star ratings passes the
validators of the movie schema. -/
theorem agrees_valid (m : Movie) (rs : List Review) (hagree : m.agrees rs)
    (hstar : ∀ r ∈ rs, isStar r.rating) : m.valid = true := by
  obtain ⟨hc, hb, ha⟩ := hagree
  refine valid_of_countIsSum m (fun k => by rw [hb k]; exact Int.natCast_nonneg _) ?_ ha
  unfold Ratings.countIsSum
  have h1 := hb Key.one
  have h2 := hb Key.two
  have h3 := hb Key.three
  have h4 := hb Key.four
  have h5 := hb Key.five
  simp only [Distribution.get] at h1 h2 h3 h4 h5
  rw [h1, h2, h3, h4, h5, hc, ← bucketCount_sum m.id rs hstar]
  push_cast
  ring

/-- A submission whose rating, if present, is a whole number keeps the store
consistent. -/
theorem consistent_submit (s : Store) (userId : Nat) (movieId? : Option Nat)
    (rating? : Option ℚ) (review title : Option String) (sp : Option Bool)
    (hs : s.consistent) (hw : ∀ q : ℚ, rating? = some q → q.den = 1) :
    (submitReview s userId movieId? rating? review title sp).1.consistent := by
  rcases submitReview_cases s userId movieId? rating? review title sp with
    h | ⟨movieId, rating, movie, e, hr, h1, h5, hm, he, hem, h⟩ |
    ⟨movieId, rating, movie, hr, h1, h5, hm, h⟩ |
    ⟨movieId, rating, movie, e, hr, h1, h5, hm, he, hem, hval⟩ |
    ⟨movieId, rating, movie, hr, h1, h5, hm, hval⟩
  rotate_left 3
  · exfalso
    obtain ⟨hstar, hnodup, hlt, hagree⟩ := hs
    have hrs : isStar rating := isStar_of_whole rating (hw rating hr) h1 h5
    have hmid : movie.id = movieId := findMovie_id s movieId movie hm
    apply hval
    refine agrees_valid _ _ (agrees_replace_target movie e
      (updatedReview e rating review title sp) s.reviews
      (hagree movie (findMovie_mem s movieId movie hm)) hnodup he rfl rfl
      (hem.trans hmid.symm) (hstar e he) hrs) ?_
    intro r hr
    obtain ⟨x, hx, rfl⟩ := List.mem_map.mp hr
    split_ifs
    · exact hrs
    · exact hstar x hx
  · exfalso
    obtain ⟨hstar, hnodup, hlt, hagree⟩ := hs
    have hrs : isStar rating := isStar_of_whole rating (hw rating hr) h1 h5
    have hmid : movie.id = movieId := findMovie_id s movieId movie hm
    apply hval
    refine agrees_valid _ _ (agrees_append_target movie
      (createdReview s.nextId userId movieId rating none none none) s.reviews
      (hagree movie (findMovie_mem s movieId movie hm)) hmid.symm hrs) ?_
    intro r hr
    rcases List.mem_append.mp hr with hr | hr
    · exact hstar r hr
    · rw [List.mem_singleton.mp hr]
      exact hrs
  · rw [h]
    exact hs
  · rw [h]
    obtain ⟨hstar, hnodup, hlt, hagree⟩ := hs
    have hrs : isStar rating := isStar_of_whole rating (hw rating hr) h1 h5
    have hmid : movie.id = movieId := findMovie_id s movieId movie hm
    have hg : ∀ x ∈ s.reviews,
        (if x.id = (updatedReview e rating review title sp).id
          then updatedReview e rating review title sp else x).id = x.id := by
      intro x _
      by_cases hx : x.id = (updatedReview e rating review title sp).id
      · rw [if_pos hx]
        exact hx.symm
      · rw [if_neg hx]
    have hids : (s.reviews.map (fun x =>
        if x.id = (updatedReview e rating review title sp).id
          then updatedReview e rating review title sp else x)).map (fun r => r.id)
        = s.reviews.map (fun r => r.id) := by
      rw [List.map_map]
      exact List.map_congr_left hg
    refine ⟨?_, ?_, ?_, ?_⟩
    · intro r hr
      obtain ⟨x, hx, rfl⟩ := List.mem_map.mp hr
      split_ifs
      · exact hrs
      · exact hstar x hx
    · show ((s.reviews.map (fun x =>
        if x.id = (updatedReview e rating review title sp).id
          then updatedReview e rating review title sp else x)).map (fun r => r.id)).Nodup
      rw [hids]
      exact hnodup
    · intro r hr
      obtain ⟨x, hx, rfl⟩ := List.mem_map.mp hr
      rw [hg x hx]
      exact hlt x hx
    · intro m hmm
      obtain ⟨x, hx, rfl⟩ := List.mem_map.mp hmm
      by_cases hxid : x.id = (movie.updateRating rating (some e.rating)).id
      · rw [if_pos hxid]
        exact agrees_replace_target movie e (updatedReview e rating review title sp) s.reviews
          (hagree movie (findMovie_mem s movieId movie hm)) hnodup he rfl rfl
          (hem.trans hmid.symm) (hstar e he) hrs
      · rw [if_neg hxid]
        refine agrees_replace_other x e (updatedReview e rating review title sp) s.reviews
          (hagree x hx) hnodup he rfl rfl ?_
        intro hex
        apply hxid
        rw [updateRating_id, hmid, ← hem, hex]
  · rw [h]
    obtain ⟨hstar, hnodup, hlt, hagree⟩ := hs
    have hrs : isStar rating := isStar_of_whole rating (hw rating hr) h1 h5
    have hmid : movie.id = movieId := findMovie_id s movieId movie hm
    refine ⟨?_, ?_, ?_, ?_⟩
    · intro r hr
      rcases List.mem_append.mp hr with hr | hr
      · exact hstar r hr
      · rw [List.mem_singleton.mp hr]
        exact hrs
    · show ((s.reviews ++ [createdReview s.nextId userId movieId rating review title sp]).map
        (fun r => r.id)).Nodup
      rw [List.map_append, List.nodup_append]
      refine ⟨hnodup, List.nodup_singleton _, ?_⟩
      intro a ha hb
      obtain ⟨x, hx, rfl⟩ := List.mem_map.mp ha
      have hb' : x.id = s.nextId := by simpa [createdReview] using hb
      exact absurd (hlt x hx) (by omega)
    · intro r hr
      show r.id < s.nextId + 1
      rcases List.mem_append.mp hr with hr | hr
      · exact Nat.lt_succ_of_lt (hlt r hr)
      · rw [List.mem_singleton.mp hr]
        exact Nat.lt_succ_self _
    · intro m hmm
      obtain ⟨x, hx, rfl⟩ := List.mem_map.mp hmm
      by_cases hxid : x.id = (movie.updateRating rating none).id
      · rw [if_pos hxid]
        exact agrees_append_target movie
          (createdReview s.nextId userId movieId rating review title sp) s.reviews
          (hagree movie (findMovie_mem s movieId movie hm)) hmid.symm hrs
      · rw [if_neg hxid]
        refine agrees_append_other x _ s.reviews (hagree x hx) ?_
        intro hex
        apply hxid
        rw [updateRating_id, hmid]
        exact hex.symm

/-- A store without reviews whose movies have the default ratings is
consistent. -/
theorem consistent_initial (ms : List Movie) (n0 : Nat) (hms : ∀ m ∈ ms, m.ratings = {}) :
    (emptyStore ms n0).consistent := by
  refine ⟨?_, List.nodup_nil, ?_, ?_⟩
  · intro r hr
    exact absurd hr (List.not_mem_nil _)
  · intro r hr
    exact absurd hr (List.not_mem_nil _)
  · intro m hm
    have h := hms m hm
    refine ⟨?_, ?_, ?_⟩
    · rw [h]
      rfl
    · intro k
      rw [h]
      cases k <;> rfl
    · rw [h]
      rfl

/-- Requests other than deletions, with whole ratings, keep the store
consistent. -/
theorem consistent_run (ops : List Op) :
    ∀ s : Store, s.consistent → (∀ op ∈ ops, op.isDelete = false ∧ op.wholeRating) →
      (run s ops).consistent := by
  induction ops with
  | nil =>
    intro s hs _
    exact hs
  | cons op rest ih =>
    intro s hs hops
    have hrest : ∀ o ∈ rest, o.isDelete = false ∧ o.wholeRating :=
      fun o ho => hops o (List.mem_cons_of_mem _ ho)
    obtain ⟨hdel, hwhole⟩ := hops op (List.mem_cons_self _ _)
    have hstep : (step s op).1.consistent := by
      cases op with
      | submit u m r t1 t2 w =>
        refine consistent_submit s u m r t1 t2 w hs ?_
        intro q hq
        subst hq
        exact hwhole
      | delete u i => exact absurd hdel (by simp [Op.isDelete])
      | helpful u i => exact consistent_helpful s u i hs
      | report u i reason => exact consistent_report s u i reason hs
    exact ih (step s op).1 hstep hrest

/-- The weighted sum of the bucket counts is the sum of the ratings. -/
theorem sum_ratings (id : Nat) :
    ∀ rs : List Review, (∀ r ∈ rs, isStar r.rating) →
      ((rs.filter (fun r => decide (r.movie = id))).map (fun r => r.rating)).sum
        = (bucketCount rs id Key.one : ℚ) * 1 + (bucketCount rs id Key.two : ℚ) * 2
          + (bucketCount rs id Key.three : ℚ) * 3 + (bucketCount rs id Key.four : ℚ) * 4
          + (bucketCount rs id Key.five : ℚ) * 5 := by
  intro rs
  induction rs with
  | nil =>
    intro _
    simp [bucketCount]
  | cons r rest ih =>
    intro hstar
    have ih' := ih (fun x hx => hstar x (List.mem_cons_of_mem _ hx))
    have hr := hstar r (List.mem_cons_self _ _)
    unfold bucketCount at ih' ⊢
    by_cases hm : r.movie = id
    · obtain ⟨kr, hkr, -⟩ := isStar_key r.rating hr
      have hrat : r.rating = kr.index + 1 := by
        have := keyAt_index _ _ hkr
        linarith
      rw [List.filter_cons_of_pos (by simpa using hm), List.map_cons, List.sum_cons, ih']
      simp only [List.countP_cons, hm, true_and, hkr, Option.some.injEq, decide_eq_true_eq]
      rw [hrat]
      generalize List.countP (fun r => decide (r.movie = id ∧ keyAt (r.rating - 1) = some Key.one))
        rest = c1
      generalize List.countP (fun r => decide (r.movie = id ∧ keyAt (r.rating - 1) = some Key.two))
        rest = c2
      generalize List.countP
        (fun r => decide (r.movie = id ∧ keyAt (r.rating - 1) = some Key.three)) rest = c3
      generalize List.countP (fun r => decide (r.movie = id ∧ keyAt (r.rating - 1) = some Key.four))
        rest = c4
      generalize List.countP (fun r => decide (r.movie = id ∧ keyAt (r.rating - 1) = some Key.five))
        rest = c5
      cases kr <;> simp [Key.index] <;> ring
    · rw [List.filter_cons_of_neg (by simpa using hm), ih']
      simp [List.countP_cons, hm]

/-- What agreement says about the reviews of the movie: `count` is their
number, bucket `k` the number of those rated `k`, and the average their mean
rating rounded half-up to one decimal (0 when there is none). -/
theorem agrees_readout (m : Movie) (rs : List Review) (hagree : m.agrees rs)
    (hstar : ∀ r ∈ rs, isStar r.rating) :
    m.ratings.count = ((rs.filter (fun r => decide (r.movie = m.id))).length : Int) ∧
    (∀ k : ℚ, isStar k →
      m.ratings.distribution.bucket k
        = (((rs.filter (fun r => decide (r.movie = m.id))).filter
            (fun r => decide (r.rating = k))).length : Int)) ∧
    (rs.filter (fun r => decide (r.movie = m.id)) = [] → m.ratings.average = 0) ∧
    (rs.filter (fun r => decide (r.movie = m.id)) ≠ [] →
      IsRoundHalfUp1
        (((rs.filter (fun r => decide (r.movie = m.id))).map (fun r => r.rating)).sum
          / ((rs.filter (fun r => decide (r.movie = m.id))).length : ℚ))
        m.ratings.average) := by
  obtain ⟨hc, hb, ha⟩ := hagree
  have hcount : m.ratings.count
      = ((rs.filter (fun r => decide (r.movie = m.id))).length : Int) := by
    rw [hc, movieCount, List.countP_eq_length_filter]
  have htotal : (m.ratings.distribution.total : ℚ)
      = ((rs.filter (fun r => decide (r.movie = m.id))).map (fun r => r.rating)).sum := by
    rw [sum_ratings m.id rs hstar]
    have h1 := hb Key.one
    have h2 := hb Key.two
    have h3 := hb Key.three
    have h4 := hb Key.four
    have h5 := hb Key.five
    simp only [Distribution.get] at h1 h2 h3 h4 h5
    simp only [Distribution.total, h1, h2, h3, h4, h5]
    push_cast
    ring
  refine ⟨hcount, ?_, ?_, ?_⟩
  · intro k hk
    obtain ⟨key, hkey, -⟩ := isStar_key k hk
    rw [Distribution.bucket, hkey]
    simp only []
    rw [hb key, bucketCount, List.filter_filter, List.countP_eq_length_filter]
    congr 2
    apply List.filter_congr
    intro r _
    by_cases hm : r.movie = m.id
    · by_cases hrk : r.rating = k
      · simp [hm, hrk, hkey]
      · have hne : ¬ keyAt (r.rating - 1) = some key := by
          intro h
          apply hrk
          have := keyAt_inj _ _ key h hkey
          linarith
        simp [hm, hrk, hne]
    · simp [hm]
  · intro hnil
    have h0 : m.ratings.count = 0 := by
      rw [hcount, hnil]
      rfl
    rw [ha, h0]
    rfl
  · intro hne
    have hpos : m.ratings.count > 0 := by
      rw [hcount]
      exact_mod_cast List.length_pos.mpr hne
    rw [ha, if_pos hpos, htotal, hcount]
    exact mathRound_isRoundHalfUp1 _

/-- C7, as stated, fails: after five reports the only review of movie 1 is
hidden, so the movie has no active review, yet `count` is still 1, bucket four
still 1 and the average still 4. No handler touches the ratings when a review
is hidden. -/
theorem hidden_review_still_counted :
    (run oneMovie hideOps).reviews.map (fun r => (r.movie, r.rating, r.status))
      = [(1, 4, ReviewStatus.hidden)] ∧
    (run oneMovie hideOps).reviews.filter
      (fun r => decide (r.movie = 1 ∧ r.status = ReviewStatus.active)) = [] ∧
    (run oneMovie hideOps).movies.map (fun m => m.ratings)
      = [{ average := 4, count := 1, distribution := { four := 1 } }] := by
  decide!

/-- The scenario of the specification on the code: the ratings 5, 5, 4, 3, 5
give count 5 and average 4.4; when user 4 then deletes the three-star review,
bucket three is emptied but `count` stays 5, and the stored average is
19 / 5 = 3.8. -/
theorem fiveRatings_then_delete :
    (run oneMovie fiveRatings).movies.map (fun m => m.ratings)
      = [{ average := 4.4, count := 5, distribution := { five := 3, four := 1, three := 1 } }] ∧
    (run oneMovie (fiveRatings ++ [Op.delete 4 3])).movies.map (fun m => m.ratings)
      = [{ average := 3.8, count := 5, distribution := { five := 3, four := 1 } }] := by
  decide!

/-- C7 (amended): in every state reached from a store without reviews, whose
movies have the default ratings, by any sequence of submissions with whole
ratings, helpful requests and report requests (no deletion), each movie's
`count` is the number of stored reviews of that movie, whatever their status,
bucket `k` is the number of those rated `k`, and the average is their mean
rating rounded half-up to one decimal, 0 when there is none. The ratings
5, 5, 4, 3, 5 give count 5 and average 4.4. -/
theorem aggregate_consistency (ms : List Movie) (n0 : Nat) (ops : List Op)
    (hms : ∀ m ∈ ms, m.ratings = {})
    (hops : ∀ op ∈ ops, op.isDelete = false ∧ op.wholeRating) :
    (∀ m ∈ (run (emptyStore ms n0) ops).movies,
      m.ratings.count
        = (((run (emptyStore ms n0) ops).reviews.filter
            (fun r => decide (r.movie = m.id))).length : Int) ∧
      (∀ k : ℚ, isStar k →
        m.ratings.distribution.bucket k
          = ((((run (emptyStore ms n0) ops).reviews.filter
              (fun r => decide (r.movie = m.id))).filter
              (fun r => decide (r.rating = k))).length : Int)) ∧
      ((run (emptyStore ms n0) ops).reviews.filter
          (fun r => decide (r.movie = m.id)) = [] → m.ratings.average = 0) ∧
      ((run (emptyStore ms n0) ops).reviews.filter
          (fun r => decide (r.movie = m.id)) ≠ [] →
        IsRoundHalfUp1
          ((((run (emptyStore ms n0) ops).reviews.filter
              (fun r => decide (r.movie = m.id))).map (fun r => r.rating)).sum
            / (((run (emptyStore ms n0) ops).reviews.filter
              (fun r => decide (r.movie = m.id))).length : ℚ))
          m.ratings.average)) ∧
    (run oneMovie fiveRatings).movies.map (fun m => (m.ratings.count, m.ratings.average))
      = [(5, 4.4)] := by
  have hcons := consistent_run ops _ (consistent_initial ms n0 hms) hops
  refine ⟨?_, by decide!⟩
  intro m hm
  exact agrees_readout m _ (hcons.2.2.2 m hm) hcons.1

theorem aggregate_consistency_witness :
    (∀ m ∈ [({ id := 1 } : Movie)], m.ratings = {}) ∧
    (∀ op ∈ fiveRatings, op.isDelete = false ∧ op.wholeRating) ∧
    (∀ m ∈ (run (emptyStore [{ id := 1 }] 0) fiveRatings).movies,
      m.ratings.count
        = (((run (emptyStore [{ id := 1 }] 0) fiveRatings).reviews.filter
            (fun r => decide (r.movie = m.id))).length : Int)) :=
  ⟨by decide!, by decide!,
    fun m hm => ((aggregate_consistency [{ id := 1 }] 0 fiveRatings (by decide!) (by decide!)).1
      m hm).1⟩

/-! ## Facts about helpful votes -/

/-- The fields of a review after `toggleHelpful` by a user who is among the
voters. -/
theorem toggleHelpful_present (rv : Review) (u : Nat) (h : u ∈ rv.helpful.users) :
    (rv.toggleHelpful u).1.helpful.users = rv.helpful.users.erase u ∧
    (rv.toggleHelpful u).1.helpful.count = max 0 (rv.helpful.count - 1) ∧
    (rv.toggleHelpful u).2 = false := by
  simp [Review.toggleHelpful, h]

/-- The fields of a review after `toggleHelpful` by a user who is not among the
voters. -/
theorem toggleHelpful_absent (rv : Review) (u : Nat) (h : u ∉ rv.helpful.users) :
    (rv.toggleHelpful u).1.helpful.users = rv.helpful.users ++ [u] ∧
    (rv.toggleHelpful u).1.helpful.count = rv.helpful.count + 1 ∧
    (rv.toggleHelpful u).2 = true := by
  simp [Review.toggleHelpful, h]

/-- C12 (helpful toggle): when the voter is present, `toggleHelpful` removes
the voter's first entry from `helpful.users` (with no duplicate entries the
voter is then absent), sets `helpful.count` to `max(0, count - 1)` and returns
false; otherwise it appends the voter, sets the count to `count + 1` and
returns true. Every other voter keeps its entries. The handler reports the
returned flag and the new count for every actor other than the author. -/
theorem toggleHelpful_effect (rv : Review) (u : Nat) :
    (u ∈ rv.helpful.users →
      (rv.toggleHelpful u).1.helpful.users = rv.helpful.users.erase u ∧
      List.count u (rv.toggleHelpful u).1.helpful.users + 1 = List.count u rv.helpful.users ∧
      (rv.helpful.users.Nodup → u ∉ (rv.toggleHelpful u).1.helpful.users) ∧
      (rv.toggleHelpful u).1.helpful.count = max 0 (rv.helpful.count - 1) ∧
      (rv.toggleHelpful u).2 = false) ∧
    (u ∉ rv.helpful.users →
      (rv.toggleHelpful u).1.helpful.users = rv.helpful.users ++ [u] ∧
      u ∈ (rv.toggleHelpful u).1.helpful.users ∧
      (rv.toggleHelpful u).1.helpful.count = rv.helpful.count + 1 ∧
      (rv.toggleHelpful u).2 = true) ∧
    (∀ v : Nat, v ≠ u →
      List.count v (rv.toggleHelpful u).1.helpful.users = List.count v rv.helpful.users ∧
      (v ∈ (rv.toggleHelpful u).1.helpful.users ↔ v ∈ rv.helpful.users)) ∧
    (rv.user ≠ u →
      ∃ resp : Response, helpfulChecked rv u = Except.ok ((rv.toggleHelpful u).1, resp) ∧
        resp.status = 200 ∧ resp.isHelpful = some (rv.toggleHelpful u).2 ∧
        resp.helpfulCount = some (rv.toggleHelpful u).1.helpful.count) := by
  refine ⟨?_, ?_, ?_, ?_⟩
  · intro h
    obtain ⟨f1, f2, f3⟩ := toggleHelpful_present rv u h
    refine ⟨f1, ?_, ?_, f2, f3⟩
    · rw [f1, List.count_erase_self]
      have hpos : 0 < List.count u rv.helpful.users := List.count_pos_iff.mpr h
      omega
    · intro hn
      rw [f1]
      exact fun hmem => (List.Nodup.mem_erase_iff hn).mp hmem |>.1 rfl
  · intro h
    obtain ⟨f1, f2, f3⟩ := toggleHelpful_absent rv u h
    exact ⟨f1, by rw [f1]; simp, f2, f3⟩
  · intro v hv
    by_cases h : u ∈ rv.helpful.users
    · rw [(toggleHelpful_present rv u h).1]
      exact ⟨List.count_erase_of_ne hv _, List.mem_erase_of_ne hv⟩
    · rw [(toggleHelpful_absent rv u h).1]
      constructor
      · rw [List.count_append, List.count_singleton]
        simp [hv.symm]
      · simp [hv]
  · intro hne
    refine ⟨{ status := 200
              message :=
                if (rv.toggleHelpful u).2 then "Review marked as helpful"
                else "Review unmarked as helpful"
              helpfulCount := some (rv.toggleHelpful u).1.helpful.count
              isHelpful := some (rv.toggleHelpful u).2 }, ?_, rfl, rfl, rfl⟩
    unfold helpfulChecked
    rw [if_neg hne]

/-- C13, as stated, fails: user 3 has marked the review as helpful; the first
toggle by user 3 returns false, the second returns true, not false. On a review
whose count has fallen behind its voters (one voter, count 0) two toggles leave
count 1, not the original 0. -/
theorem second_toggle_reports_true :
    votedReview.helpfulOk ∧
    (votedReview.toggleHelpful 3).2 = false ∧
    ((votedReview.toggleHelpful 3).1.toggleHelpful 3).2 = true ∧
    miscountedReview.helpful.count = 0 ∧
    ((miscountedReview.toggleHelpful 3).1.toggleHelpful 3).1.helpful.count = 1 := by
  decide!

/-- C14 (helpful-set invariant): if `helpful.users` lists no voter twice and
`helpful.count` is the number of voters, both still hold after `toggleHelpful`
for any voter. -/
theorem toggleHelpful_keeps_helpfulOk (rv : Review) (u : Nat) (h : rv.helpfulOk) :
    (rv.toggleHelpful u).1.helpfulOk := by
  obtain ⟨hn, hc⟩ := h
  unfold Review.helpfulOk
  by_cases hu : u ∈ rv.helpful.users
  · obtain ⟨f1, f2, -⟩ := toggleHelpful_present rv u hu
    rw [f1, f2, hc]
    refine ⟨hn.erase u, ?_⟩
    rw [List.length_erase_of_mem hu]
    have hpos : 0 < rv.helpful.users.length := List.length_pos_of_mem hu
    omega
  · obtain ⟨f1, f2, -⟩ := toggleHelpful_absent rv u hu
    rw [f1, f2, hc]
    refine ⟨?_, by simp⟩
    rw [List.nodup_append]
    refine ⟨hn, List.nodup_singleton u, ?_⟩
    intro a ha hb
    rw [List.mem_singleton] at hb
    exact hu (hb ▸ ha)

theorem toggleHelpful_keeps_helpfulOk_witness :
    votedReview.helpfulOk ∧ (votedReview.toggleHelpful 5).1.helpfulOk :=
  ⟨by decide!, toggleHelpful_keeps_helpfulOk votedReview 5 (by decide!)⟩

/-- C13 (amended): on a review that lists no voter twice and whose count is
the number of voters, two successive `toggleHelpful` calls by the same voter
bring `helpful.count` back to its original value and leave the same voters;
the second call returns the opposite of the first: false exactly when the
voter had not voted before the two calls, true when the voter had. -/
theorem toggleHelpful_twice (rv : Review) (u : Nat) (h : rv.helpfulOk) :
    ((rv.toggleHelpful u).1.toggleHelpful u).1.helpful.count = rv.helpful.count ∧
    (∀ v : Nat, v ∈ ((rv.toggleHelpful u).1.toggleHelpful u).1.helpful.users
      ↔ v ∈ rv.helpful.users) ∧
    ((rv.toggleHelpful u).1.toggleHelpful u).2 = !(rv.toggleHelpful u).2 ∧
    (((rv.toggleHelpful u).1.toggleHelpful u).2 = false ↔ u ∉ rv.helpful.users) := by
  obtain ⟨hn, hc⟩ := h
  by_cases hu : u ∈ rv.helpful.users
  · obtain ⟨f1, f2, f3⟩ := toggleHelpful_present rv u hu
    have hu1 : u ∉ (rv.toggleHelpful u).1.helpful.users := by
      rw [f1]
      exact fun hmem => (List.Nodup.mem_erase_iff hn).mp hmem |>.1 rfl
    obtain ⟨g1, g2, g3⟩ := toggleHelpful_absent (rv.toggleHelpful u).1 u hu1
    have hpos : 0 < rv.helpful.users.length := List.length_pos_of_mem hu
    refine ⟨?_, ?_, ?_, ?_⟩
    · rw [g2, f2, hc]
      omega
    · intro v
      rw [g1, f1, List.mem_append, List.mem_singleton]
      by_cases hv : v = u
      · subst hv
        simp [hu]
      · simp [hv, List.mem_erase_of_ne hv]
    · rw [g3, f3]
      rfl
    · rw [g3]
      simp [hu]
  · obtain ⟨f1, f2, f3⟩ := toggleHelpful_absent rv u hu
    have hu1 : u ∈ (rv.toggleHelpful u).1.helpful.users := by
      rw [f1]
      simp
    obtain ⟨g1, g2, g3⟩ := toggleHelpful_present (rv.toggleHelpful u).1 u hu1
    have herase : (rv.helpful.users ++ [u]).erase u = rv.helpful.users := by
      rw [List.erase_append_right _ hu]
      simp
    refine ⟨?_, ?_, ?_, ?_⟩
    · rw [g2, f2, hc]
      omega
    · intro v
      rw [g1, f1, herase]
    · rw [g3, f3]
      rfl
    · rw [g3]
      simp [hu]

theorem toggleHelpful_twice_witness :
    votedReview.helpfulOk ∧
    ((votedReview.toggleHelpful 3).1.toggleHelpful 3).1.helpful.count
      = votedReview.helpful.count :=
  ⟨by decide!, (toggleHelpful_twice votedReview 3 (by decide!)).1⟩

/-! ## Well-formed stores -/

/-- The outcomes of `submitReview` with the response status: rejected with
nothing written, an update of the stored review `e` (status 200), or a newly
created review (status 201); in the last two the status is 500 when the
handler's save of the movie is rejected by the validators. -/
theorem submitReview_outcome (s : Store) (userId : Nat) (movieId? : Option Nat)
    (rating? : Option ℚ) (review title : Option String) (sp : Option Bool) :
    ((submitReview s userId movieId? rating? review title sp).1 = s ∧
      ((submitReview s userId movieId? rating? review title sp).2.status = 400 ∨
        (submitReview s userId movieId? rating? review title sp).2.status = 404 ∨
        (submitReview s userId movieId? rating? review title sp).2.status = 500)) ∨
    (∃ (movieId : Nat) (rating : ℚ) (movie : Movie) (e : Review),
      movieId? = some movieId ∧ rating? = some rating ∧
      s.reviews.find? (fun r => decide (r.user = userId ∧ r.movie = movieId)) = some e ∧
      s.findMovie movieId = some movie ∧ 1 ≤ rating ∧ rating ≤ 5 ∧
      (updatedReview e rating review title sp).valid = true ∧
      (submitReview s userId movieId? rating? review title sp).2.status =
        (if (movie.updateRating rating (some e.rating)).valid = true then 200 else 500) ∧
      (submitReview s userId movieId? rating? review title sp).1.reviews =
        s.reviews.map (fun x =>
          if x.id = (updatedReview e rating review title sp).id
            then updatedReview e rating review title sp else x) ∧
      (submitReview s userId movieId? rating? review title sp).1.nextId = s.nextId) ∨
    (∃ (movieId : Nat) (rating : ℚ) (movie : Movie),
      movieId? = some movieId ∧ rating? = some rating ∧
      s.reviews.find? (fun r => decide (r.user = userId ∧ r.movie = movieId)) = none ∧
      s.findMovie movieId = some movie ∧ 1 ≤ rating ∧ rating ≤ 5 ∧
      (createdReview s.nextId userId movieId rating review title sp).valid = true ∧
      (submitReview s userId movieId? rating? review title sp).2.status =
        (if (movie.updateRating rating none).valid = true then 201 else 500) ∧
      (submitReview s userId movieId? rating? review title sp).1.reviews =
        s.reviews ++ [createdReview s.nextId userId movieId rating review title sp] ∧
      (submitReview s userId movieId? rating? review title sp).1.nextId = s.nextId + 1) := by
  cases movieId? with
  | none => exact Or.inl (by cases rating? <;> exact ⟨rfl, Or.inl rfl⟩)
  | some movieId =>
    cases rating? with
    | none => exact Or.inl ⟨rfl, Or.inl rfl⟩
    | some rating =>
      by_cases h0 : rating = 0
      · have hres : submitReview s userId (some movieId) (some rating) review title sp
            = (s, { status := 400, message := "Please provide movie ID and rating" }) := by
          simp only [submitReview, if_pos h0]
        rw [hres]
        exact Or.inl ⟨rfl, Or.inl rfl⟩
      by_cases hr : rating < 1 ∨ rating > 5
      · have hres : submitReview s userId (some movieId) (some rating) review title sp
            = (s, { status := 400, message := "Rating must be between 1 and 5" }) := by
          simp only [submitReview, if_neg h0, if_pos hr]
        rw [hres]
        exact Or.inl ⟨rfl, Or.inl rfl⟩
      have h1 : 1 ≤ rating := not_lt.mp (fun h => hr (Or.inl h))
      have h5 : rating ≤ 5 := not_lt.mp (fun h => hr (Or.inr h))
      cases hm : s.findMovie movieId with
      | none =>
        have hres : submitReview s userId (some movieId) (some rating) review title sp
            = (s, { status := 404, message := "Movie not found" }) := by
          simp only [submitReview, if_neg h0, if_neg hr, hm]
        rw [hres]
        exact Or.inl ⟨rfl, Or.inr (Or.inl rfl)⟩
      | some movie =>
        cases he : s.reviews.find? (fun r => decide (r.user = userId ∧ r.movie = movieId)) with
        | some e =>
          by_cases hv : (updatedReview e rating review title sp).valid = true
          · refine Or.inr (Or.inl ⟨movieId, rating, movie, e, rfl, rfl, he, hm, h1, h5, hv, ?_⟩)
            by_cases hval : (movie.updateRating rating (some e.rating)).valid = true
            · rw [submitReview_update s userId movieId rating review title sp movie e hm he h1 h5
                hv hval, if_pos hval]
              refine ⟨rfl, ?_, ?_⟩
              · simp only [Store.saveMovie, Store.saveReview, preSave_reviews]
              · simp only [Store.saveMovie, Store.saveReview, preSave_nextId]
            · rw [submitReview_update_rejected s userId movieId rating review title sp movie e hm
                he h1 h5 hv hval, if_neg hval]
              refine ⟨rfl, ?_, ?_⟩
              · simp only [Store.saveReview, preSave_reviews]
              · simp only [Store.saveReview, preSave_nextId]
          · have hres : submitReview s userId (some movieId) (some rating) review title sp
                = (s, { status := 500, message := "Could not save review" }) := by
              simp only [submitReview, if_neg h0, if_neg hr, hm, he, hv]
              rfl
            rw [hres]
            exact Or.inl ⟨rfl, Or.inr (Or.inr rfl)⟩
        | none =>
          by_cases hv : (createdReview s.nextId userId movieId rating review title sp).valid = true
          · refine Or.inr (Or.inr ⟨movieId, rating, movie, rfl, rfl, he, hm, h1, h5, hv, ?_⟩)
            by_cases hval : (movie.updateRating rating none).valid = true
            · rw [submitReview_create s userId movieId rating review title sp movie hm he h1 h5
                hv hval, if_pos hval]
              refine ⟨rfl, ?_, ?_⟩
              · simp only [Store.saveMovie, preSave_reviews]
              · simp only [Store.saveMovie, preSave_nextId]
            · rw [submitReview_create_rejected s userId movieId rating review title sp movie hm
                he h1 h5 hv hval, if_neg hval]
              exact ⟨rfl, rfl, rfl⟩
          · have hres : submitReview s userId (some movieId) (some rating) review title sp
                = (s, { status := 500, message := "Could not save review" }) := by
              simp only [submitReview, if_neg h0, if_neg hr, hm, he, hv]
              rfl
            rw [hres]
            exact Or.inl ⟨rfl, Or.inr (Or.inr rfl)⟩

/-- Well-formedness only reads the reviews and `nextId`. -/
theorem wellFormed_of_eq (s t : Store) (hs : s.wellFormed) (hr : t.reviews = s.reviews)
    (hn : t.nextId = s.nextId) : t.wellFormed := by
  unfold Store.wellFormed
  rw [hr, hn]
  exact hs

/-- A map over the reviews that keeps identity, user and movie of every stored
review, and lists no author among the reporters, keeps the store well-formed. -/
theorem wellFormed_map (s t : Store) (g : Review → Review) (hs : s.wellFormed)
    (hr : t.reviews = s.reviews.map g) (hn : t.nextId = s.nextId)
    (hg : ∀ x ∈ s.reviews, (g x).id = x.id ∧ (g x).user = x.user ∧ (g x).movie = x.movie ∧
      (g x).user ∉ (g x).reported.users) : t.wellFormed := by
  obtain ⟨hids, hlt, hpairs, hself⟩ := hs
  unfold Store.wellFormed
  rw [hr, hn]
  have e1 : (s.reviews.map g).map (fun r => r.id) = s.reviews.map (fun r => r.id) := by
    rw [List.map_map]
    apply List.map_congr_left
    intro x hx
    exact (hg x hx).1
  have e2 : (s.reviews.map g).map (fun r => (r.user, r.movie))
      = s.reviews.map (fun r => (r.user, r.movie)) := by
    rw [List.map_map]
    apply List.map_congr_left
    intro x hx
    simp only [Function.comp, (hg x hx).2.1, (hg x hx).2.2.1]
  rw [e1, e2]
  refine ⟨hids, ?_, hpairs, ?_⟩
  · intro r hr'
    obtain ⟨x, hx, rfl⟩ := List.mem_map.mp hr'
    rw [(hg x hx).1]
    exact hlt x hx
  · intro r hr'
    obtain ⟨x, hx, rfl⟩ := List.mem_map.mp hr'
    exact (hg x hx).2.2.2

/-- Saving a loaded review whose identity, user and movie are those of the
stored review `e` keeps the store well-formed. -/
theorem wellFormed_saveReview (s : Store) (e r1 : Review) (hs : s.wellFormed)
    (he : e ∈ s.reviews) (hid : r1.id = e.id) (huser : r1.user = e.user)
    (hmovie : r1.movie = e.movie) (hself : r1.user ∉ r1.reported.users) :
    (s.saveReview r1).wellFormed := by
  refine wellFormed_map s _ (fun x => if x.id = r1.id then r1 else x) hs rfl rfl ?_
  intro x hx
  beta_reduce
  by_cases hxid : x.id = r1.id
  · have hxe : x = e := List.inj_on_of_nodup_map hs.1 hx he (hxid.trans hid)
    rw [if_pos hxid, hxe]
    exact ⟨hid, huser, hmovie, hself⟩
  · rw [if_neg hxid]
    exact ⟨rfl, rfl, rfl, hs.2.2.2 x hx⟩

/-- In a well-formed store a stored review is found by its identity. -/
theorem findReview_of_mem (s : Store) (r : Review) (hs : s.wellFormed) (hr : r ∈ s.reviews) :
    s.findReview r.id = some r := by
  unfold Store.findReview
  cases hf : s.reviews.find? (fun x => decide (x.id = r.id)) with
  | none =>
    have := List.find?_eq_none.mp hf r hr
    simp at this
  | some x =>
    have hx : x ∈ s.reviews := List.mem_of_find?_eq_some hf
    have hxid : x.id = r.id := by simpa using List.find?_some hf
    rw [List.inj_on_of_nodup_map hs.1 hx hr hxid]

theorem wellFormed_submit (s : Store) (userId : Nat) (movieId? : Option Nat)
    (rating? : Option ℚ) (review title : Option String) (sp : Option Bool)
    (hs : s.wellFormed) :
    (submitReview s userId movieId? rating? review title sp).1.wellFormed := by
  rcases submitReview_outcome s userId movieId? rating? review title sp with
    ⟨h, -⟩ | ⟨movieId, rating, movie, e, -, -, he, -, -, -, -, -, hrev, hnext⟩ |
    ⟨movieId, rating, movie, -, -, he, -, -, -, -, -, hrev, hnext⟩
  · rw [h]
    exact hs
  · have hmem : e ∈ s.reviews := List.mem_of_find?_eq_some he
    refine wellFormed_map s _ _ hs hrev hnext ?_
    intro x hx
    by_cases hxid : x.id = (updatedReview e rating review title sp).id
    · have hxe : x = e := List.inj_on_of_nodup_map hs.1 hx hmem hxid
      rw [if_pos hxid, hxe]
      exact ⟨rfl, rfl, rfl, hs.2.2.2 e hmem⟩
    · rw [if_neg hxid]
      exact ⟨rfl, rfl, rfl, hs.2.2.2 x hx⟩
  · obtain ⟨hids, hlt, hpairs, hself⟩ := hs
    unfold Store.wellFormed
    rw [hrev, hnext]
    refine ⟨?_, ?_, ?_, ?_⟩
    · rw [List.map_append, List.nodup_append]
      refine ⟨hids, List.nodup_singleton _, ?_⟩
      intro a ha hb
      obtain ⟨x, hx, rfl⟩ := List.mem_map.mp ha
      have hb' : x.id = s.nextId := by simpa [createdReview] using hb
      exact absurd (hlt x hx) (by omega)
    · intro r hr
      rcases List.mem_append.mp hr with hr | hr
      · exact Nat.lt_succ_of_lt (hlt r hr)
      · rw [List.mem_singleton.mp hr]
        exact Nat.lt_succ_self _
    · rw [List.map_append, List.nodup_append]
      refine ⟨hpairs, List.nodup_singleton _, ?_⟩
      intro a ha hb
      obtain ⟨x, hx, rfl⟩ := List.mem_map.mp ha
      have hb' : x.user = userId ∧ x.movie = movieId := by simpa [createdReview] using hb
      have hnone := List.find?_eq_none.mp he x hx
      simp [hb'.1, hb'.2] at hnone
    · intro r hr
      rcases List.mem_append.mp hr with hr | hr
      · exact hself r hr
      · rw [List.mem_singleton.mp hr]
        simp [createdReview]

theorem wellFormed_delete (s : Store) (u i : Nat) (hs : s.wellFormed) :
    (deleteReview s u i).1.wellFormed := by
  unfold deleteReview
  cases hf : s.reviews.find? (fun r => decide (r.id = i ∧ r.user = u)) with
  | none => exact hs
  | some e =>
    obtain ⟨hids, hlt, hpairs, hself⟩ := hs
    have hrev : ∀ t : Store, t.reviews = s.reviews → t.nextId = s.nextId →
        ({ t with reviews := t.reviews.filter (fun r => decide (r.id ≠ i)) } : Store).wellFormed := by
      intro t hr hn
      unfold Store.wellFormed
      simp only [hr, hn]
      refine ⟨?_, ?_, ?_, ?_⟩
      · exact hids.sublist ((List.filter_sublist _).map _)
      · intro r hr'
        exact hlt r (List.mem_of_mem_filter hr')
      · exact hpairs.sublist ((List.filter_sublist _).map _)
      · intro r hr'
        exact hself r (List.mem_of_mem_filter hr')
    simp only []
    cases s.findMovie e.movie with
    | none => exact hrev s rfl rfl
    | some movie =>
      simp only []
      split_ifs
      · exact hrev (s.saveMovie (movie.updateRating 0 (some e.rating))) rfl rfl
      · exact ⟨hids, hlt, hpairs, hself⟩

theorem wellFormed_report (s : Store) (u i : Nat) (reason : Option String)
    (hs : s.wellFormed) : (reportReviewRoute s u i reason).1.wellFormed := by
  unfold reportReviewRoute
  cases hf : s.findReview i with
  | none => exact hs
  | some e =>
    simp only []
    by_cases hu : e.user = u
    · have hc : reportChecked e u reason = Except.error ownReport := by
        simp [reportChecked, hu, ownReport]
      rw [hc]
      exact hs
    by_cases hm : u ∈ e.reported.users
    · have hc : reportChecked e u reason = Except.error alreadyReported := by
        simp [reportChecked, hu, hm, alreadyReported]
      rw [hc]
      exact hs
    · have hc : reportChecked e u reason = Except.ok (e.reportReview u reason) := by
        simp [reportChecked, hu, hm]
      rw [hc]
      simp only [preSave_false]
      obtain ⟨f1, -, -, -, f5, -, -⟩ := reportReview_fields e u reason hm
      obtain ⟨k1, k2, -⟩ := reportReview_keeps e u reason
      have hmem := findReview_mem s i e hf
      refine wellFormed_saveReview s e _ hs hmem k1 f5 k2 ?_
      rw [f1, f5, List.mem_append, List.mem_singleton]
      rintro (h | h)
      · exact hs.2.2.2 e hmem h
      · exact hu h

theorem toggleHelpful_frame (rv : Review) (u : Nat) :
    (rv.toggleHelpful u).1.user = rv.user ∧ (rv.toggleHelpful u).1.reported = rv.reported ∧
      (rv.toggleHelpful u).1.status = rv.status := by
  by_cases hu : u ∈ rv.helpful.users <;> simp [Review.toggleHelpful, hu]

theorem wellFormed_helpful (s : Store) (u i : Nat) (hs : s.wellFormed) :
    (toggleHelpfulRoute s u i).1.wellFormed := by
  unfold toggleHelpfulRoute
  cases hf : s.findReview i with
  | none => exact hs
  | some e =>
    simp only []
    by_cases hu : e.user = u
    · have hc : helpfulChecked e u = Except.error ownHelpful := by
        simp [helpfulChecked, hu, ownHelpful]
      rw [hc]
      exact hs
    · cases hc : helpfulChecked e u with
      | error resp => exact hs
      | ok r1 =>
        obtain ⟨r, resp⟩ := r1
        have hr1 : r = (e.toggleHelpful u).1 := by
          unfold helpfulChecked at hc
          rw [if_neg hu] at hc
          exact (congrArg Prod.fst (Except.ok.inj hc)).symm
        obtain ⟨k1, k2, -⟩ := toggleHelpful_keeps e u
        obtain ⟨g1, g2, -⟩ := toggleHelpful_frame e u
        have hmem := findReview_mem s i e hf
        simp only [preSave_false]
        refine wellFormed_saveReview s e r hs hmem (hr1 ▸ k1) (hr1 ▸ g1) (hr1 ▸ k2) ?_
        rw [hr1, g1, g2]
        exact hs.2.2.2 e hmem

/-- Every request keeps the store well-formed. -/
theorem wellFormed_step (s : Store) (op : Op) (hs : s.wellFormed) :
    (step s op).1.wellFormed := by
  cases op with
  | submit u m r t1 t2 w => exact wellFormed_submit s u m r t1 t2 w hs
  | delete u i => exact wellFormed_delete s u i hs
  | helpful u i => exact wellFormed_helpful s u i hs
  | report u i reason => exact wellFormed_report s u i reason hs

theorem wellFormed_run (ops : List Op) : ∀ s : Store, s.wellFormed → (run s ops).wellFormed := by
  induction ops with
  | nil =>
    intro s hs
    exact hs
  | cons op rest ih =>
    intro s hs
    exact ih (step s op).1 (wellFormed_step s op hs)

theorem wellFormed_empty (ms : List Movie) (n0 : Nat) : (emptyStore ms n0).wellFormed := by
  refine ⟨List.nodup_nil, ?_, List.nodup_nil, ?_⟩ <;>
    exact fun r hr => absurd hr (List.not_mem_nil _)

/-! ## Rejected moderation requests and the upsert -/

/-- C15 (self-action rejection): a helpful or a report request sent by the
author of the review it names is answered with status 400 and the message
"You cannot mark your own review as helpful" / "You cannot report your own
review" (the failures the specification calls `Forbidden`), and the whole
store is returned as it was: helpful voters and count, reporters, reasons,
report count and status are unchanged. -/
theorem self_action_rejected (s : Store) (reviewId : Nat) (rv : Review)
    (reason : Option String) (hf : s.findReview reviewId = some rv) :
    toggleHelpfulRoute s rv.user reviewId = (s, ownHelpful) ∧
    reportReviewRoute s rv.user reviewId reason = (s, ownReport) ∧
    helpfulChecked rv rv.user = Except.error ownHelpful ∧
    reportChecked rv rv.user reason = Except.error ownReport ∧
    afterHelpful rv rv.user = rv ∧
    afterReport rv rv.user reason = rv := by
  have h1 : helpfulChecked rv rv.user = Except.error ownHelpful := by
    simp [helpfulChecked, ownHelpful]
  have h2 : reportChecked rv rv.user reason = Except.error ownReport := by
    simp [reportChecked, ownReport]
  refine ⟨?_, ?_, h1, h2, ?_, ?_⟩
  · simp only [toggleHelpfulRoute, hf, h1]
  · simp only [reportReviewRoute, hf, h2]
  · simp only [afterHelpful, h1]
  · simp only [afterReport, h2]

theorem self_action_rejected_witness :
    oneReview.findReview 0 = some votedReview ∧
    toggleHelpfulRoute oneReview votedReview.user 0 = (oneReview, ownHelpful) :=
  ⟨by decide!, (self_action_rejected oneReview 0 votedReview none (by decide!)).1⟩

/-- On a review document that lists its own author among the reporters, a
report request by that author is answered with the response for a self-report,
not with the one for a repeated report: the handler checks the author first.
No sequence of requests produces such a document (`wellFormed_run`). -/
theorem author_among_reporters_gets_own_report :
    (7 : Nat) ∈ selfListedReview.reported.users ∧
    reportChecked selfListedReview 7 none = Except.error ownReport ∧
    reportChecked selfListedReview 7 none ≠ Except.error alreadyReported := by
  refine ⟨by decide, rfl, ?_⟩
  intro h
  have h2 : ownReport = alreadyReported := Except.error.inj ((show
    reportChecked selfListedReview 7 none = Except.error ownReport from rfl).symm.trans h)
  exact absurd h2 (by decide)

/-- A report request by a user already present in `reported.users`, on any
review document: the store is returned as it was and the answer has status
400; it is the response for a repeated report when the user is not the author
and the response for a self-report when the user is. The method `reportReview`
leaves the document untouched. -/
theorem duplicate_report_on_document (rv : Review) (u : Nat) (reason : Option String)
    (h : u ∈ rv.reported.users) :
    (rv.user ≠ u → reportChecked rv u reason = Except.error alreadyReported) ∧
    (rv.user = u → reportChecked rv u reason = Except.error ownReport) ∧
    afterReport rv u reason = rv ∧
    rv.reportReview u reason = rv ∧
    (∀ (s : Store) (reviewId : Nat), s.findReview reviewId = some rv →
      (reportReviewRoute s u reviewId reason).1 = s ∧
      (reportReviewRoute s u reviewId reason).2.status = 400 ∧
      (rv.user ≠ u → reportReviewRoute s u reviewId reason = (s, alreadyReported))) := by
  have hne : rv.user ≠ u → reportChecked rv u reason = Except.error alreadyReported := by
    intro hu
    simp [reportChecked, hu, h, alreadyReported]
  have heq : rv.user = u → reportChecked rv u reason = Except.error ownReport := by
    intro hu
    simp [reportChecked, hu, ownReport]
  refine ⟨hne, heq, ?_, ?_, ?_⟩
  · by_cases hu : rv.user = u
    · simp only [afterReport, heq hu]
    · simp only [afterReport, hne hu]
  · unfold Review.reportReview
    rw [if_neg (not_not.mpr h)]
  · intro s reviewId hf
    by_cases hu : rv.user = u
    · have hres : reportReviewRoute s u reviewId reason = (s, ownReport) := by
        simp only [reportReviewRoute, hf, heq hu]
      rw [hres]
      exact ⟨rfl, rfl, fun hn => absurd hu hn⟩
    · have hres : reportReviewRoute s u reviewId reason = (s, alreadyReported) := by
        simp only [reportReviewRoute, hf, hne hu]
      rw [hres]
      exact ⟨rfl, rfl, fun _ => rfl⟩

/-- C11 (duplicate report): in every state reached from a store without reviews
by any sequence of requests, for every stored review and every user already
present in its `reported.users`, a report request by that user for that review
is answered with status 400 "You have already reported this review" (the
failure the specification calls `Conflict`) and the whole store is returned as
it was: reporters, report count, reasons and status are unchanged. The user is
never the author of the review. -/
theorem duplicate_report_rejected (ms : List Movie) (n0 : Nat) (ops : List Op) (rv : Review)
    (u : Nat) (reason : Option String) (hr : rv ∈ (run (emptyStore ms n0) ops).reviews)
    (hu : u ∈ rv.reported.users) :
    reportReviewRoute (run (emptyStore ms n0) ops) u rv.id reason
      = (run (emptyStore ms n0) ops, alreadyReported) ∧
    reportChecked rv u reason = Except.error alreadyReported ∧
    afterReport rv u reason = rv ∧
    rv.reportReview u reason = rv ∧
    rv.user ≠ u := by
  have hwf := wellFormed_run ops _ (wellFormed_empty ms n0)
  have hne : rv.user ≠ u := by
    intro h
    exact hwf.2.2.2 rv hr (h ▸ hu)
  have hc : reportChecked rv u reason = Except.error alreadyReported := by
    simp [reportChecked, hne, hu, alreadyReported]
  refine ⟨?_, hc, ?_, ?_, hne⟩
  · simp only [reportReviewRoute, findReview_of_mem _ rv hwf hr, hc]
  · simp only [afterReport, hc]
  · unfold Review.reportReview
    rw [if_neg (not_not.mpr hu)]

theorem duplicate_report_rejected_witness :
    ({ id := 0, user := 7, movie := 1, rating := 4
       reported := { count := 5, users := [1, 2, 3, 4, 5] }
       status := ReviewStatus.hidden } : Review)
      ∈ (run (emptyStore [{ id := 1 }] 0) hideOps).reviews ∧
    reportReviewRoute (run (emptyStore [{ id := 1 }] 0) hideOps) 3 0 none
      = (run (emptyStore [{ id := 1 }] 0) hideOps, alreadyReported) :=
  ⟨by decide!,
    (duplicate_report_rejected [{ id := 1 }] 0 hideOps
      { id := 0, user := 7, movie := 1, rating := 4
        reported := { count := 5, users := [1, 2, 3, 4, 5] }
        status := ReviewStatus.hidden } 3 none (by decide!) (by decide)).1⟩

/-- C16 (upsert uniqueness): when the lookup of the user's review for the movie
finds the stored review `e`, `submitReview` creates no second review: the
stored identities are the same list afterwards. When the request is answered
with success (status 200), the review with the identity of `e` is replaced in
place by a document with the same identity, user and movie and with the
submitted rating and the texts trimmed as `String.prototype.trim` does. The
review is replaced in that way whenever the movie exists, the rating is between
1 and 5 and the `length` of the trimmed texts fits the schema; the answer is
then 200, unless the save of the movie's ratings is rejected afterwards (500).
In every state reached from a store without reviews by any sequence of
requests no two reviews share user and movie. -/
theorem upsert_uniqueness (s : Store) (userId movieId : Nat) (rating? : Option ℚ)
    (review title : Option String) (sp : Option Bool) (e : Review)
    (he : s.reviews.find? (fun r => decide (r.user = userId ∧ r.movie = movieId)) = some e) :
    ((submitReview s userId (some movieId) rating? review title sp).1.reviews.map
        (fun r => r.id) = s.reviews.map (fun r => r.id)) ∧
    ((submitReview s userId (some movieId) rating? review title sp).2.status = 200 →
      ∃ rating : ℚ, rating? = some rating ∧
        (submitReview s userId (some movieId) rating? review title sp).1.reviews
          = s.reviews.map (fun x =>
              if x.id = e.id then updatedReview e rating review title sp else x) ∧
        (updatedReview e rating review title sp).id = e.id ∧
        (updatedReview e rating review title sp).user = userId ∧
        (updatedReview e rating review title sp).movie = movieId ∧
        (updatedReview e rating review title sp).rating = rating ∧
        (updatedReview e rating review title sp).review = (review.map jsTrim).getD "" ∧
        (updatedReview e rating review title sp).title = (title.map jsTrim).getD "") ∧
    (∀ (rating : ℚ) (movie : Movie), rating? = some rating → 1 ≤ rating → rating ≤ 5 →
      s.findMovie movieId = some movie →
      jsLength ((review.map jsTrim).getD "") ≤ 1000 →
      jsLength ((title.map jsTrim).getD "") ≤ 100 →
      (submitReview s userId (some movieId) rating? review title sp).1.reviews
        = s.reviews.map (fun x =>
            if x.id = e.id then updatedReview e rating review title sp else x) ∧
      ((submitReview s userId (some movieId) rating? review title sp).2.status = 200 ∨
        (submitReview s userId (some movieId) rating? review title sp).2.status = 500) ∧
      ((movie.updateRating rating (some e.rating)).valid = true →
        (submitReview s userId (some movieId) rating? review title sp).2.status = 200)) ∧
    (∀ (ms : List Movie) (n0 : Nat) (ops : List Op),
      ((run (emptyStore ms n0) ops).reviews.map (fun r => (r.user, r.movie))).Nodup) := by
  have heu : e.user = userId ∧ e.movie = movieId := by
    simpa using List.find?_some he
  refine ⟨?_, ?_, ?_, ?_⟩
  · rcases submitReview_outcome s userId (some movieId) rating? review title sp with
      ⟨h, -⟩ | ⟨m1, rating, movie, e1, hm1, -, he1, -, -, -, -, -, hrev, -⟩ |
      ⟨m1, rating, movie, hm1, -, he1, -⟩
    · rw [h]
    · rw [hrev, List.map_map]
      apply List.map_congr_left
      intro x _
      simp only [Function.comp]
      by_cases hx : x.id = (updatedReview e1 rating review title sp).id
      · rw [if_pos hx]
        exact hx.symm
      · rw [if_neg hx]
    · cases Option.some.inj hm1
      rw [he] at he1
      exact absurd he1 (by simp)
  · intro h200
    rcases submitReview_outcome s userId (some movieId) rating? review title sp with
      ⟨-, h4 | h4 | h4⟩ | ⟨m1, rating, movie, e1, hm1, hr, he1, -, -, -, -, -, hrev, -⟩ |
      ⟨m1, rating, movie, hm1, -, he1, -⟩
    · rw [h4] at h200
      exact absurd h200 (by decide)
    · rw [h4] at h200
      exact absurd h200 (by decide)
    · rw [h4] at h200
      exact absurd h200 (by decide)
    · cases Option.some.inj hm1
      rw [he] at he1
      cases Option.some.inj he1
      exact ⟨rating, hr, hrev, rfl, heu.1, heu.2, rfl, rfl, rfl⟩
    · cases Option.some.inj hm1
      rw [he] at he1
      exact absurd he1 (by simp)
  · intro rating movie hr h1 h5 hm hl1 hl2
    subst hr
    have hv : (updatedReview e rating review title sp).valid = true := by
      simp [Review.valid, updatedReview, h1, h5, hl1, hl2]
    by_cases hval : (movie.updateRating rating (some e.rating)).valid = true
    · rw [submitReview_update s userId movieId rating review title sp movie e hm he h1 h5 hv
        hval]
      refine ⟨?_, Or.inl rfl, fun _ => rfl⟩
      simp only [Store.saveMovie, Store.saveReview, preSave_reviews]
      rfl
    · rw [submitReview_update_rejected s userId movieId rating review title sp movie e hm he h1
        h5 hv hval]
      refine ⟨?_, Or.inr rfl, fun h => absurd h hval⟩
      simp only [Store.saveReview, preSave_reviews]
      rfl
  · intro ms n0 ops
    exact (wellFormed_run ops _ (wellFormed_empty ms n0)).2.2.1

theorem upsert_uniqueness_witness :
    oneReview.reviews.find? (fun r => decide (r.user = 7 ∧ r.movie = 1)) = some votedReview ∧
    (submitReview oneReview 7 (some 1) (some 2) none none none).1.reviews.map (fun r => r.id)
      = oneReview.reviews.map (fun r => r.id) :=
  ⟨by decide!, (upsert_uniqueness oneReview 7 1 (some 2) none none none votedReview
    (by decide!)).1⟩

/-! ## Validation, deletion and administrator edits -/

/-- C17 (rating validation), evaluated on the code: a submission with rating
2.5 passes both checks of the handler and the schema range, is answered 201
and stored; the movie's `count` goes from 0 to 1 while no bucket changes. The
rest of the claim holds: a missing rating, a zero rating and a rating below 1
or above 5 are answered 400 with the store unchanged. -/
theorem fractional_rating_accepted :
    (submitReview oneMovie 7 (some 1) (some (5 / 2)) none none none).2.status = 201 ∧
    (submitReview oneMovie 7 (some 1) (some (5 / 2)) none none none).1.reviews.map
        (fun r => (r.user, r.movie, r.rating)) = [(7, 1, 5 / 2)] ∧
    oneMovie.movies.map (fun m => m.ratings) = [{}] ∧
    (submitReview oneMovie 7 (some 1) (some (5 / 2)) none none none).1.movies.map
        (fun m => m.ratings) = [{ average := 0, count := 1, distribution := {} }] ∧
    (∀ (s : Store) (userId : Nat) (movieId? : Option Nat) (review title : Option String)
      (sp : Option Bool),
      submitReview s userId movieId? none review title sp
        = (s, { status := 400, message := "Please provide movie ID and rating" })) ∧
    (∀ (s : Store) (userId : Nat) (movieId? : Option Nat) (rating : ℚ)
      (review title : Option String) (sp : Option Bool), rating < 1 ∨ rating > 5 →
      (submitReview s userId movieId? (some rating) review title sp).1 = s ∧
      (submitReview s userId movieId? (some rating) review title sp).2.status = 400) := by
  refine ⟨by decide!, by decide!, by decide!, by decide!, ?_, ?_⟩
  · intro s userId movieId? review title sp
    cases movieId? <;> rfl
  · intro s userId movieId? rating review title sp hr
    cases movieId? with
    | none => exact ⟨rfl, rfl⟩
    | some movieId =>
      by_cases h0 : rating = 0
      · have hres : submitReview s userId (some movieId) (some rating) review title sp
            = (s, { status := 400, message := "Please provide movie ID and rating" }) := by
          simp only [submitReview, if_pos h0]
        rw [hres]
        exact ⟨rfl, rfl⟩
      · have hres : submitReview s userId (some movieId) (some rating) review title sp
            = (s, { status := 400, message := "Rating must be between 1 and 5" }) := by
          simp only [submitReview, if_neg h0, if_pos hr]
        rw [hres]
        exact ⟨rfl, rfl⟩

/-- C18, as stated, fails: on the store `overcounted`, left by four
submissions of which the last overlaps two others (movie 1 with `five = 3`,
`four = 1`, `count = 2`; all four calls answered 201), user 4 asks to delete
the own four-star review 3. The remove call computes the average 7.5 from the
three five-star ratings left and the count 2, the save of the movie is rejected
by the validator `max: 5`, the request is answered 500 and the review is still
stored; the ratings of the movie are unchanged. -/
theorem author_delete_rejected :
    ((Conc.init oneMovie fourCalls).schedule lateOrder).calls.map (fun c => c.2.answer)
      = [201, 201, 201, 201] ∧
    overcounted.reviews.map (fun r => (r.id, r.user, r.movie, r.rating))
      = [(0, 1, 1, 5), (1, 2, 1, 5), (2, 3, 1, 5), (3, 4, 1, 4)] ∧
    overcounted.movies.map (fun m => m.ratings)
      = [{ average := 4.5, count := 2, distribution := { five := 3, four := 1 } }] ∧
    overcounted.movies.map (fun m => (m.updateRating 0 (some 4)).ratings)
      = [{ average := 7.5, count := 2, distribution := { five := 3 } }] ∧
    (deleteReview overcounted 4 3).2 = { status := 500, message := "Could not delete review" } ∧
    (deleteReview overcounted 4 3).1.reviews.map (fun r => (r.id, r.user))
      = [(0, 1), (1, 2), (2, 3), (3, 4)] ∧
    (deleteReview overcounted 4 3).1.movies.map (fun m => m.ratings)
      = overcounted.movies.map (fun m => m.ratings) := by
  decide!

/-- C18 (amended): in a store with distinct review identities, a delete
request for the review `rv` by an actor who is not its author is answered with
status 404 "Review not found or you are not authorized to delete it" and the
whole store, the review and every movie's ratings included, is returned as it
was. A delete request by the author is answered 200 and removes exactly that
review when the movie of the review is gone or its ratings after the remove
call pass the validators of the movie schema; when they fail them the request
is answered 500 and the whole store is returned as it was. Every state reached
from a store without reviews has distinct review identities. -/
theorem delete_authorization (s : Store) (rv : Review) (actor : Nat)
    (hn : (s.reviews.map (fun r => r.id)).Nodup) (hr : rv ∈ s.reviews) :
    (rv.user ≠ actor → deleteReview s actor rv.id = (s, notFoundOrUnauthorized)) ∧
    (rv.user = actor →
      (∀ movie : Movie, s.findMovie rv.movie = some movie →
        (movie.updateRating 0 (some rv.rating)).valid = true) →
      (deleteReview s actor rv.id).2.status = 200 ∧
      rv ∉ (deleteReview s actor rv.id).1.reviews ∧
      (∀ x : Review, x ∈ (deleteReview s actor rv.id).1.reviews ↔ x ∈ s.reviews ∧ x ≠ rv)) ∧
    (rv.user = actor →
      ∀ movie : Movie, s.findMovie rv.movie = some movie →
        (movie.updateRating 0 (some rv.rating)).valid = false →
        deleteReview s actor rv.id
          = (s, { status := 500, message := "Could not delete review" })) ∧
    (∀ (ms : List Movie) (n0 : Nat) (ops : List Op),
      ((run (emptyStore ms n0) ops).reviews.map (fun r => r.id)).Nodup) := by
  have huniq : ∀ x ∈ s.reviews, x.id = rv.id → x = rv :=
    fun x hx hid => List.inj_on_of_nodup_map hn hx hr hid
  have hsome : rv.user = actor →
      s.reviews.find? (fun r => decide (r.id = rv.id ∧ r.user = actor)) = some rv := by
    intro hau
    cases hf : s.reviews.find? (fun r => decide (r.id = rv.id ∧ r.user = actor)) with
    | none =>
      have := List.find?_eq_none.mp hf rv hr
      simp [hau] at this
    | some x =>
      have hx : x ∈ s.reviews := List.mem_of_find?_eq_some hf
      have hxid : x.id = rv.id ∧ x.user = actor := by simpa using List.find?_some hf
      rw [huniq x hx hxid.1]
  refine ⟨?_, ?_, ?_, fun ms n0 ops => (wellFormed_run ops _ (wellFormed_empty ms n0)).1⟩
  · intro hne
    have hnone : s.reviews.find? (fun r => decide (r.id = rv.id ∧ r.user = actor)) = none := by
      rw [List.find?_eq_none]
      intro x hx
      simp only [decide_eq_true_eq, not_and]
      intro hid hu
      rw [huniq x hx hid] at hu
      exact hne hu
    simp only [deleteReview, hnone]
    rfl
  · intro hau hval
    have hres : (deleteReview s actor rv.id).2.status = 200 ∧
        (deleteReview s actor rv.id).1.reviews
          = s.reviews.filter (fun r => decide (r.id ≠ rv.id)) := by
      cases hm : s.findMovie rv.movie with
      | none =>
        have heq : deleteReview s actor rv.id
            = ({ s with reviews := s.reviews.filter (fun r => decide (r.id ≠ rv.id)) },
                { status := 200, message := "Review deleted successfully" }) := by
          simp only [deleteReview, hsome hau, hm]
        rw [heq]
        exact ⟨rfl, rfl⟩
      | some movie =>
        have heq : deleteReview s actor rv.id
            = ({ s.saveMovie (movie.updateRating 0 (some rv.rating)) with
                  reviews := s.reviews.filter (fun r => decide (r.id ≠ rv.id)) },
                { status := 200, message := "Review deleted successfully" }) := by
          simp only [deleteReview, hsome hau, hm, hval movie hm, if_true]
        rw [heq]
        exact ⟨rfl, rfl⟩
    have hmem : ∀ x : Review, x ∈ (deleteReview s actor rv.id).1.reviews
        ↔ x ∈ s.reviews ∧ x ≠ rv := by
      intro x
      rw [hres.2, List.mem_filter]
      simp only [decide_eq_true_eq]
      constructor
      · rintro ⟨hx, hid⟩
        exact ⟨hx, fun h => hid (h ▸ rfl)⟩
      · rintro ⟨hx, hne⟩
        exact ⟨hx, fun hid => hne (huniq x hx hid)⟩
    exact ⟨hres.1, fun h => ((hmem rv).mp h).2 rfl, hmem⟩
  · intro hau movie hm hval
    simp only [deleteReview, hsome hau, hm, hval]
    rfl

theorem delete_authorization_witness :
    (oneReview.reviews.map (fun r => r.id)).Nodup ∧ votedReview ∈ oneReview.reviews ∧
    deleteReview oneReview 8 votedReview.id = (oneReview, notFoundOrUnauthorized) :=
  ⟨by decide, by decide!,
    (delete_authorization oneReview votedReview 8 (by decide) (by decide!)).1 (by decide)⟩

/-- Saving a movie that keeps identity and ratings of the loaded one keeps
identity and ratings of every stored movie. -/
theorem saveMovie_keeps_ratings (s : Store) (id : Nat) (movie m' : Movie)
    (hn : (s.movies.map (fun m => m.id)).Nodup) (hf : s.findMovie id = some movie)
    (hid : m'.id = movie.id) (hrat : m'.ratings = movie.ratings) :
    (s.saveMovie m').movies.map (fun m => (m.id, m.ratings))
      = s.movies.map (fun m => (m.id, m.ratings)) := by
  have hmem := findMovie_mem s id movie hf
  simp only [Store.saveMovie, List.map_map]
  apply List.map_congr_left
  intro x hx
  simp only [Function.comp]
  by_cases hxid : x.id = m'.id
  · rw [if_pos hxid]
    have hxm : x = movie := List.inj_on_of_nodup_map hn hx hmem (hxid.trans hid)
    rw [hid, hrat, hxm]
  · rw [if_neg hxid]

/-- C20 (administrator edits): in a store with distinct movie identities, for
every role, movie identity and request body, also one that carries a `ratings`
key, the movie update and the soft delete leave the identity and the ratings
(five buckets, count and average) of every stored movie, and all reviews,
unchanged. An update that sends new ratings along with a new title and status
changes title and status only. -/
theorem admin_edits_keep_ratings (s : Store) (role : String) (id : Nat) (body : MovieBody)
    (hn : (s.movies.map (fun m => m.id)).Nodup) :
    (updateMovie s role id body).1.movies.map (fun m => (m.id, m.ratings))
      = s.movies.map (fun m => (m.id, m.ratings)) ∧
    (updateMovie s role id body).1.reviews = s.reviews ∧
    (softDeleteMovie s role id).1.movies.map (fun m => (m.id, m.ratings))
      = s.movies.map (fun m => (m.id, m.ratings)) ∧
    (softDeleteMovie s role id).1.reviews = s.reviews ∧
    (updateMovie ratedMovie "admin" 1 ratingsBody).2.status = 200 ∧
    (updateMovie ratedMovie "admin" 1 ratingsBody).1.movies
      = [{ id := 1, title := "Heat 2", status := MovieStatus.inactive
           ratings := { average := 4.3, count := 3, distribution := { five := 1, four := 2 } } }]
    := by
  have hupd : (updateMovie s role id body).1.movies.map (fun m => (m.id, m.ratings))
        = s.movies.map (fun m => (m.id, m.ratings)) ∧
      (updateMovie s role id body).1.reviews = s.reviews := by
    unfold updateMovie
    cases adminOnly role with
    | some resp => exact ⟨rfl, rfl⟩
    | none =>
      simp only []
      cases hf : s.findMovie id with
      | none => exact ⟨rfl, rfl⟩
      | some movie =>
        simp only []
        cases (match body.status with
          | some t => parseMovieStatus t
          | none => some movie.status) with
        | none => exact ⟨rfl, rfl⟩
        | some st =>
          simp only []
          split_ifs
          · exact ⟨saveMovie_keeps_ratings s id movie _ hn hf rfl rfl, rfl⟩
          · exact ⟨rfl, rfl⟩
  have hdel : (softDeleteMovie s role id).1.movies.map (fun m => (m.id, m.ratings))
        = s.movies.map (fun m => (m.id, m.ratings)) ∧
      (softDeleteMovie s role id).1.reviews = s.reviews := by
    unfold softDeleteMovie
    cases adminOnly role with
    | some resp => exact ⟨rfl, rfl⟩
    | none =>
      simp only []
      cases hf : s.findMovie id with
      | none => exact ⟨rfl, rfl⟩
      | some movie => exact ⟨saveMovie_keeps_ratings s id movie _ hn hf rfl rfl, rfl⟩
  exact ⟨hupd.1, hupd.2, hdel.1, hdel.2, by decide!, by decide!⟩

theorem admin_edits_keep_ratings_witness :
    (ratedMovie.movies.map (fun m => m.id)).Nodup ∧
    (updateMovie ratedMovie "admin" 1 ratingsBody).1.movies.map (fun m => (m.id, m.ratings))
      = ratedMovie.movies.map (fun m => (m.id, m.ratings)) :=
  ⟨by decide, (admin_edits_keep_ratings ratedMovie "admin" 1 ratingsBody (by decide)).1⟩

/-! ## Rejected movie saves -/

/-- With its movie save rejected the pre-save middleware writes nothing;
otherwise it is the middleware of the fault-free model. -/
theorem preSaveWith_eq (f : SaveFaults) (s : Store) (doc : Review) (a b : Bool) :
    preSaveWith f s doc a b = if f.hookMovieSave = true then s else preSave s doc a b := by
  unfold preSaveWith preSave
  by_cases hab : (a || b) = true
  · rw [if_pos hab, if_pos hab]
    cases s.findMovie doc.movie with
    | none => simp
    | some movie =>
      simp only []
      cases f.hookMovieSave <;>
        cases (movie.updateRating doc.rating
          (if (!a) = true then Option.map (fun o => o.rating) (s.findReview doc.id)
            else none)).valid <;> rfl
  · rw [if_neg hab, if_neg hab]
    simp

theorem preSaveWith_reviews (f : SaveFaults) (s : Store) (doc : Review) (a b : Bool) :
    (preSaveWith f s doc a b).reviews = s.reviews := by
  rw [preSaveWith_eq]
  split_ifs
  · rfl
  · exact preSave_reviews s doc a b

theorem preSaveWith_nextId (f : SaveFaults) (s : Store) (doc : Review) (a b : Bool) :
    (preSaveWith f s doc a b).nextId = s.nextId := by
  rw [preSaveWith_eq]
  split_ifs
  · rfl
  · exact preSave_nextId s doc a b

theorem preSaveWith_saveMovie_movies (f : SaveFaults) (s : Store) (doc : Review) (a b : Bool)
    (m : Movie) (hid : m.id = doc.movie) :
    (preSaveWith f s doc a b).movies.map (fun x => if x.id = m.id then m else x)
      = s.movies.map (fun x => if x.id = m.id then m else x) := by
  rw [preSaveWith_eq]
  split_ifs
  · rfl
  · exact preSave_saveMovie_movies s doc a b m hid

/-- With distinct identities a stored review is found by its identity. -/
theorem findReview_of_nodup (s : Store) (r : Review)
    (hn : (s.reviews.map (fun x => x.id)).Nodup) (hr : r ∈ s.reviews) :
    s.findReview r.id = some r := by
  unfold Store.findReview
  cases hf : s.reviews.find? (fun x => decide (x.id = r.id)) with
  | none =>
    have := List.find?_eq_none.mp hf r hr
    simp at this
  | some x =>
    have hx : x ∈ s.reviews := List.mem_of_find?_eq_some hf
    have hxid : x.id = r.id := by simpa using List.find?_some hf
    rw [List.inj_on_of_nodup_map hn hx hr hxid]

/-- With distinct review identities the pre-save middleware of an update
computes the document the handler computes; when the validators reject it the
middleware writes nothing. -/
theorem preSave_update_rejected (s : Store) (movieId : Nat) (rating : ℚ)
    (review title : Option String) (sp : Option Bool) (movie : Movie) (e : Review) (b : Bool)
    (hm : s.findMovie movieId = some movie) (he : e ∈ s.reviews) (hem : e.movie = movieId)
    (hn : (s.reviews.map (fun x => x.id)).Nodup)
    (hval : ¬ (movie.updateRating rating (some e.rating)).valid = true) :
    preSave s (updatedReview e rating review title sp) false b = s := by
  have hm1 : s.findMovie (updatedReview e rating review title sp).movie = some movie := by
    show s.findMovie e.movie = some movie
    rw [hem]
    exact hm
  have hf : s.findReview (updatedReview e rating review title sp).id = some e :=
    findReview_of_nodup s e hn he
  have hval1 : ¬ (movie.updateRating (updatedReview e rating review title sp).rating
      (some e.rating)).valid = true := hval
  have hold : (if (!false) = true then
      Option.map (fun o => o.rating) (s.findReview (updatedReview e rating review title sp).id)
      else none) = some e.rating := by
    rw [hf]
    rfl
  unfold preSave
  by_cases hab : (false || b) = true
  · rw [if_pos hab]
    simp only [hm1, hold]
    exact if_neg hval1
  · rw [if_neg hab]

/-- Without faults the handler under faults is the fault-free handler. -/
theorem submitReviewWith_nofault (s : Store) (userId : Nat) (movieId? : Option Nat)
    (rating? : Option ℚ) (review title : Option String) (sp : Option Bool) :
    submitReviewWith {} s userId movieId? rating? review title sp
      = submitReview s userId movieId? rating? review title sp := by
  have hpre : ∀ (doc : Review) (a b : Bool), preSaveWith {} s doc a b = preSave s doc a b := by
    intro doc a b
    rw [preSaveWith_eq]
    rfl
  cases movieId? with
  | none => cases rating? <;> rfl
  | some movieId =>
    cases rating? with
    | none => rfl
    | some rating =>
      by_cases h0 : rating = 0
      · simp only [submitReviewWith, submitReview, if_pos h0]
      by_cases hr : rating < 1 ∨ rating > 5
      · simp only [submitReviewWith, submitReview, if_neg h0, if_pos hr]
      cases hm : s.findMovie movieId with
      | none => simp only [submitReviewWith, submitReview, if_neg h0, if_neg hr, hm]
      | some movie =>
        cases he : s.reviews.find? (fun r => decide (r.user = userId ∧ r.movie = movieId)) with
        | some e =>
          by_cases hv : (updatedReview e rating review title sp).valid = true
          · cases hval : (movie.updateRating rating (some e.rating)).valid with
            | true =>
              simp only [submitReviewWith, submitReview, if_neg h0, if_neg hr, hm, he, hv, hval,
                hpre, if_true, Bool.false_or, Bool.not_true, Bool.false_eq_true, if_false]
            | false =>
              simp only [submitReviewWith, submitReview, if_neg h0, if_neg hr, hm, he, hv, hval,
                hpre, if_true, Bool.false_or, Bool.not_false, Bool.false_eq_true, if_false]
          · simp only [submitReviewWith, submitReview, if_neg h0, if_neg hr, hm, he, hv]
            rfl
        | none =>
          by_cases hv : (createdReview s.nextId userId movieId rating review title sp).valid = true
          · cases hval : (movie.updateRating rating none).valid with
            | true =>
              simp only [submitReviewWith, submitReview, if_neg h0, if_neg hr, hm, he, hv, hval,
                hpre, if_true, Bool.false_or, Bool.not_true, Bool.false_eq_true, if_false]
            | false =>
              simp only [submitReviewWith, submitReview, if_neg h0, if_neg hr, hm, he, hv, hval,
                hpre, if_true, Bool.false_or, Bool.not_false, Bool.false_eq_true, if_false]
          · simp only [submitReviewWith, submitReview, if_neg h0, if_neg hr, hm, he, hv]
            rfl

/-- A submission under storage faults: where the fault-free handler rejects
the request the faults play no part; where it updates or creates a review with
both saves of the movie passing the validators, the review is written in either
case and the fault of the handler's movie save decides between the answer 500
and the success answer; where the validators reject the handler's save of the
movie, the answer is 500 and the review is written with and without faults. -/
theorem submitReviewWith_cases (s : Store) (userId : Nat) (movieId? : Option Nat)
    (rating? : Option ℚ) (review title : Option String) (sp : Option Bool) :
    ((submitReview s userId movieId? rating? review title sp).1 = s ∧
      ((submitReview s userId movieId? rating? review title sp).2.status = 400 ∨
        (submitReview s userId movieId? rating? review title sp).2.status = 404 ∨
        (submitReview s userId movieId? rating? review title sp).2.status = 500) ∧
      ∀ f : SaveFaults, submitReviewWith f s userId movieId? rating? review title sp
        = submitReview s userId movieId? rating? review title sp) ∨
    ((((submitReview s userId movieId? rating? review title sp).2.status = 200 ∧
        (submitReview s userId movieId? rating? review title sp).1.reviews.length
          = s.reviews.length) ∨
      ((submitReview s userId movieId? rating? review title sp).2.status = 201 ∧
        (submitReview s userId movieId? rating? review title sp).1.reviews.length
          = s.reviews.length + 1)) ∧
      ∀ f : SaveFaults,
        (submitReviewWith f s userId movieId? rating? review title sp).1.reviews
          = (submitReview s userId movieId? rating? review title sp).1.reviews ∧
        (f.routeMovieSave = true →
          (submitReviewWith f s userId movieId? rating? review title sp).2
            = { status := 500, message := "Could not save review" }) ∧
        (f.routeMovieSave = false →
          submitReviewWith f s userId movieId? rating? review title sp
            = submitReview s userId movieId? rating? review title sp)) ∨
    ((submitReview s userId movieId? rating? review title sp).2
        = { status := 500, message := "Could not save review" } ∧
      ∀ f : SaveFaults,
        (submitReviewWith f s userId movieId? rating? review title sp).1.reviews
          = (submitReview s userId movieId? rating? review title sp).1.reviews ∧
        (submitReviewWith f s userId movieId? rating? review title sp).2
          = { status := 500, message := "Could not save review" } ∧
        ((s.reviews.map (fun r => r.id)).Nodup →
          submitReviewWith f s userId movieId? rating? review title sp
            = submitReview s userId movieId? rating? review title sp)) := by
  cases movieId? with
  | none => exact Or.inl (by cases rating? <;> exact ⟨rfl, Or.inl rfl, fun f => rfl⟩)
  | some movieId =>
    cases rating? with
    | none => exact Or.inl ⟨rfl, Or.inl rfl, fun f => rfl⟩
    | some rating =>
      by_cases h0 : rating = 0
      · have hres : submitReview s userId (some movieId) (some rating) review title sp
            = (s, { status := 400, message := "Please provide movie ID and rating" }) := by
          simp only [submitReview, if_pos h0]
        refine Or.inl ⟨by rw [hres], Or.inl (by rw [hres]), fun f => ?_⟩
        rw [hres]
        simp only [submitReviewWith, if_pos h0]
      by_cases hr : rating < 1 ∨ rating > 5
      · have hres : submitReview s userId (some movieId) (some rating) review title sp
            = (s, { status := 400, message := "Rating must be between 1 and 5" }) := by
          simp only [submitReview, if_neg h0, if_pos hr]
        refine Or.inl ⟨by rw [hres], Or.inl (by rw [hres]), fun f => ?_⟩
        rw [hres]
        simp only [submitReviewWith, if_neg h0, if_pos hr]
      have h1 : 1 ≤ rating := not_lt.mp (fun h => hr (Or.inl h))
      have h5 : rating ≤ 5 := not_lt.mp (fun h => hr (Or.inr h))
      cases hm : s.findMovie movieId with
      | none =>
        have hres : submitReview s userId (some movieId) (some rating) review title sp
            = (s, { status := 404, message := "Movie not found" }) := by
          simp only [submitReview, if_neg h0, if_neg hr, hm]
        refine Or.inl ⟨by rw [hres], Or.inr (Or.inl (by rw [hres])), fun f => ?_⟩
        rw [hres]
        simp only [submitReviewWith, if_neg h0, if_neg hr, hm]
      | some movie =>
        have hmid : movie.id = movieId := findMovie_id s movieId movie hm
        cases he : s.reviews.find? (fun r => decide (r.user = userId ∧ r.movie = movieId)) with
        | some e =>
          have hem : e.movie = movieId := by
            have := List.find?_some he
            simp only [decide_eq_true_eq] at this
            exact this.2
          by_cases hv : (updatedReview e rating review title sp).valid = true
          · have hwith : ∀ f : SaveFaults,
                submitReviewWith f s userId (some movieId) (some rating) review title sp
                  = if (f.routeMovieSave
                        || !(movie.updateRating rating (some e.rating)).valid) = true then
                      ((preSaveWith f s (updatedReview e rating review title sp) false
                          (decide (rating ≠ e.rating))).saveReview
                          (updatedReview e rating review title sp),
                        { status := 500, message := "Could not save review" })
                    else
                      (((preSaveWith f s (updatedReview e rating review title sp) false
                          (decide (rating ≠ e.rating))).saveReview
                          (updatedReview e rating review title sp)).saveMovie
                          (movie.updateRating rating (some e.rating)),
                        { status := 200, message := "Review updated successfully" }) := by
              intro f
              simp only [submitReviewWith, if_neg h0, if_neg hr, hm, he, hv, if_true]
            by_cases hval : (movie.updateRating rating (some e.rating)).valid = true
            · have hbase := submitReview_update s userId movieId rating review title sp movie e
                hm he h1 h5 hv hval
              refine Or.inr (Or.inl ⟨Or.inl ⟨?_, ?_⟩, fun f => ?_⟩)
              · rw [hbase]
              · rw [hbase]
                simp only [Store.saveMovie, Store.saveReview, preSave_reviews, List.length_map]
              · rw [hwith f, hbase]
                by_cases hf : f.routeMovieSave = true
                · rw [if_pos (by simp [hf])]
                  refine ⟨?_, fun _ => rfl, fun h => absurd hf (by simp [h])⟩
                  simp only [Store.saveMovie, Store.saveReview, preSave_reviews,
                    preSaveWith_reviews]
                · rw [if_neg (by simp [hf, hval])]
                  refine ⟨?_, fun h => absurd h hf, fun _ => ?_⟩
                  · simp only [Store.saveMovie, Store.saveReview, preSave_reviews,
                      preSaveWith_reviews]
                  · simp only [Store.saveMovie, Store.saveReview, preSave_reviews,
                      preSaveWith_reviews, preSave_nextId, preSaveWith_nextId]
                    rw [preSave_saveMovie_movies, preSaveWith_saveMovie_movies]
                    · exact hmid.trans hem.symm
                    · exact hmid.trans hem.symm
            · have hbase := submitReview_update_rejected s userId movieId rating review title sp
                movie e hm he h1 h5 hv hval
              refine Or.inr (Or.inr ⟨by rw [hbase], fun f => ?_⟩)
              rw [hwith f, hbase, if_pos (by simp [hval])]
              refine ⟨?_, rfl, fun hn => ?_⟩
              · simp only [Store.saveReview, preSave_reviews, preSaveWith_reviews]
              · rw [preSaveWith_eq, preSave_update_rejected s movieId rating review title sp movie
                  e _ hm (List.mem_of_find?_eq_some he) hem hn hval]
                simp
          · have hres : submitReview s userId (some movieId) (some rating) review title sp
                = (s, { status := 500, message := "Could not save review" }) := by
              simp only [submitReview, if_neg h0, if_neg hr, hm, he, hv]
              rfl
            refine Or.inl ⟨by rw [hres], Or.inr (Or.inr (by rw [hres])), fun f => ?_⟩
            rw [hres]
            simp only [submitReviewWith, if_neg h0, if_neg hr, hm, he, hv]
            rfl
        | none =>
          by_cases hv : (createdReview s.nextId userId movieId rating review title sp).valid = true
          · have hwith : ∀ f : SaveFaults,
                submitReviewWith f s userId (some movieId) (some rating) review title sp
                  = if (f.routeMovieSave || !(movie.updateRating rating none).valid) = true then
                      ({ preSaveWith f s
                            (createdReview s.nextId userId movieId rating review title sp)
                            true true with
                          reviews :=
                            (preSaveWith f s
                              (createdReview s.nextId userId movieId rating review title sp)
                              true true).reviews
                              ++ [createdReview s.nextId userId movieId rating review title sp]
                          nextId :=
                            (preSaveWith f s
                              (createdReview s.nextId userId movieId rating review title sp)
                              true true).nextId + 1 },
                        { status := 500, message := "Could not save review" })
                    else
                      (({ preSaveWith f s
                            (createdReview s.nextId userId movieId rating review title sp)
                            true true with
                          reviews :=
                            (preSaveWith f s
                              (createdReview s.nextId userId movieId rating review title sp)
                              true true).reviews
                              ++ [createdReview s.nextId userId movieId rating review title sp]
                          nextId :=
                            (preSaveWith f s
                              (createdReview s.nextId userId movieId rating review title sp)
                              true true).nextId + 1 } : Store).saveMovie
                          (movie.updateRating rating none),
                        { status := 201, message := "Review created successfully" }) := by
              intro f
              simp only [submitReviewWith, if_neg h0, if_neg hr, hm, he, hv, if_true]
            by_cases hval : (movie.updateRating rating none).valid = true
            · have hbase := submitReview_create s userId movieId rating review title sp movie
                hm he h1 h5 hv hval
              refine Or.inr (Or.inl ⟨Or.inr ⟨?_, ?_⟩, fun f => ?_⟩)
              · rw [hbase]
              · rw [hbase]
                simp only [Store.saveMovie, preSave_reviews, List.length_append,
                  List.length_singleton]
              · rw [hwith f, hbase]
                by_cases hf : f.routeMovieSave = true
                · rw [if_pos (by simp [hf])]
                  refine ⟨?_, fun _ => rfl, fun h => absurd hf (by simp [h])⟩
                  simp only [Store.saveMovie, preSave_reviews, preSaveWith_reviews]
                · rw [if_neg (by simp [hf, hval])]
                  refine ⟨?_, fun h => absurd h hf, fun _ => ?_⟩
                  · simp only [Store.saveMovie, preSave_reviews, preSaveWith_reviews]
                  · simp only [Store.saveMovie, preSave_reviews, preSaveWith_reviews,
                      preSave_nextId, preSaveWith_nextId]
                    rw [preSave_saveMovie_movies, preSaveWith_saveMovie_movies]
                    · exact hmid
                    · exact hmid
            · have hbase := submitReview_create_rejected s userId movieId rating review title sp
                movie hm he h1 h5 hv hval
              have hpre : ∀ f : SaveFaults, preSaveWith f s
                  (createdReview s.nextId userId movieId rating review title sp) true true
                    = s := by
                intro f
                have hm1 : s.findMovie
                    (createdReview s.nextId userId movieId rating review title sp).movie
                      = some movie := hm
                have hval1 : (movie.updateRating
                    (createdReview s.nextId userId movieId rating review title sp).rating
                      none).valid = false := by
                  simpa using hval
                simp only [preSaveWith, hm1, Bool.or_self, if_true, Bool.not_true,
                  Bool.false_eq_true, if_false, hval1, Bool.not_false, Bool.or_true]
              refine Or.inr (Or.inr ⟨by rw [hbase], fun f => ?_⟩)
              rw [hwith f, hbase, if_pos (by simp [hval]), hpre f]
              exact ⟨rfl, rfl, fun _ => rfl⟩
          · have hres : submitReview s userId (some movieId) (some rating) review title sp
                = (s, { status := 500, message := "Could not save review" }) := by
              simp only [submitReview, if_neg h0, if_neg hr, hm, he, hv]
              rfl
            refine Or.inl ⟨by rw [hres], Or.inr (Or.inr (by rw [hres])), fun f => ?_⟩
            rw [hres]
            simp only [submitReviewWith, if_neg h0, if_neg hr, hm, he, hv]
            rfl

/-- C19, as stated, fails: user 7 submits a five-star review of movie 1 and
both movie saves are rejected. The caller gets status 500, the ratings of the
movie are still the default ones, but the review has been created. With only
the save inside the pre-save middleware rejected the request is answered 201:
that failure is swallowed. -/
theorem review_kept_when_movie_save_fails :
    oneMovie.reviews = [] ∧
    (submitReviewWith { hookMovieSave := true, routeMovieSave := true } oneMovie 7 (some 1)
      (some 5) none none none).2.status = 500 ∧
    (submitReviewWith { hookMovieSave := true, routeMovieSave := true } oneMovie 7 (some 1)
      (some 5) none none none).1.reviews.map (fun r => (r.user, r.movie, r.rating))
      = [(7, 1, 5)] ∧
    (submitReviewWith { hookMovieSave := true, routeMovieSave := true } oneMovie 7 (some 1)
      (some 5) none none none).1.movies.map (fun m => m.ratings) = [{}] ∧
    (submitReviewWith { hookMovieSave := true } oneMovie 7 (some 1) (some 5) none none
      none).2.status = 201 := by
  decide!

/-- C19 (amended): without faults the handler is the fault-free one. When the
handler's save of the movie is rejected the caller is answered with an error
status, but the review store ends exactly as in a successful run: a review
that a successful run creates or modifies is created or modified all the same
(one more review stored where the successful run answers 201). A rejected
movie save inside the pre-save middleware is swallowed: with distinct review
identities the answer and the final store are those of the fault-free run. -/
theorem movie_save_failure (s : Store) (userId : Nat) (movieId? : Option Nat)
    (rating? : Option ℚ) (review title : Option String) (sp : Option Bool) (f : SaveFaults) :
    submitReviewWith {} s userId movieId? rating? review title sp
      = submitReview s userId movieId? rating? review title sp ∧
    (f.routeMovieSave = false → (s.reviews.map (fun r => r.id)).Nodup →
      submitReviewWith f s userId movieId? rating? review title sp
        = submitReview s userId movieId? rating? review title sp) ∧
    (f.routeMovieSave = false →
      (submitReviewWith f s userId movieId? rating? review title sp).2
        = (submitReview s userId movieId? rating? review title sp).2) ∧
    (f.routeMovieSave = true →
      (submitReviewWith f s userId movieId? rating? review title sp).2.status = 400 ∨
      (submitReviewWith f s userId movieId? rating? review title sp).2.status = 404 ∨
      (submitReviewWith f s userId movieId? rating? review title sp).2.status = 500) ∧
    (submitReviewWith f s userId movieId? rating? review title sp).1.reviews
      = (submitReview s userId movieId? rating? review title sp).1.reviews ∧
    (f.routeMovieSave = true →
      (submitReview s userId movieId? rating? review title sp).2.status = 201 →
      (submitReviewWith f s userId movieId? rating? review title sp).2.status = 500 ∧
      (submitReviewWith f s userId movieId? rating? review title sp).1.reviews.length
        = s.reviews.length + 1) := by
  refine ⟨submitReviewWith_nofault s userId movieId? rating? review title sp, ?_⟩
  rcases submitReviewWith_cases s userId movieId? rating? review title sp with
    ⟨hsame, hstat, hall⟩ | ⟨hok, hall⟩ | ⟨h500, hall⟩
  · refine ⟨fun _ _ => hall f, fun _ => by rw [hall f], fun _ => ?_, by rw [hall f],
      fun _ h201 => ?_⟩
    · rw [hall f]
      exact hstat
    · rcases hstat with h | h | h <;> rw [h] at h201 <;> exact absurd h201 (by decide)
  · obtain ⟨hrev, h500, heq⟩ := hall f
    refine ⟨fun hf _ => heq hf, fun hf => by rw [heq hf], fun hf => ?_, hrev,
      fun hf h201 => ?_⟩
    · rw [h500 hf]
      exact Or.inr (Or.inr rfl)
    · rw [h500 hf, hrev]
      refine ⟨rfl, ?_⟩
      rcases hok with ⟨h200, -⟩ | ⟨-, hlen⟩
      · rw [h200] at h201
        exact absurd h201 (by decide)
      · exact hlen
  · obtain ⟨hrev, hst, heq⟩ := hall f
    refine ⟨fun _ hn => heq hn, fun _ => by rw [hst, h500], fun _ => ?_, hrev,
      fun _ h201 => ?_⟩
    · rw [hst]
      exact Or.inr (Or.inr rfl)
    · rw [h500] at h201
      exact absurd h201 (by decide)

/-! ## Range of the stored count and average -/

/-- The count `updateRating` stores, for every pair of arguments: the add step
runs after the optional decrement. -/
theorem updateRating_count (m : Movie) (new : ℚ) (old : Option ℚ) :
    (m.updateRating new old).ratings.count
      = (if truthy old = true then max 0 (m.ratings.count - 1) else m.ratings.count) + 1 := by
  cases old with
  | none => rfl
  | some o =>
    by_cases ht : truthy (some o) = true
    · rw [if_pos ht]
      exact (updateRating_some m new o ht).2
    · rw [if_neg ht]
      simp [Movie.updateRating, ht]

/-- C23 (count never returns to zero): for every movie whose count is not
negative and every pair of arguments, the count stored by `updateRating` is
at least 1, so the average is always the rounded quotient and never the 0 of
the other branch; removing the only rating, `updateRating(0, r)` with count 1,
leaves count 1. -/
theorem updateRating_count_at_least_one (m : Movie) (new : ℚ) (old : Option ℚ)
    (h : 0 ≤ m.ratings.count) :
    1 ≤ (m.updateRating new old).ratings.count ∧
    (m.updateRating new old).ratings.average
      = (mathRound (((m.updateRating new old).ratings.distribution.total : ℚ)
          / ((m.updateRating new old).ratings.count : ℚ) * 10) : ℚ) / 10 ∧
    (∀ r : ℚ, isStar r → m.ratings.count = 1 →
      (m.updateRating 0 (some r)).ratings.count = 1) := by
  have hc : 1 ≤ (m.updateRating new old).ratings.count := by
    rw [updateRating_count]
    split_ifs
    · have := le_max_left 0 (m.ratings.count - 1)
      omega
    · omega
  refine ⟨hc, ?_, ?_⟩
  · rw [updateRating_average_eq, if_pos (by omega)]
  · intro r hr h1
    rw [updateRating_count, if_pos (truthy_star r hr), h1]
    rfl

theorem updateRating_count_at_least_one_witness :
    0 ≤ oneFiveStar.ratings.count ∧ 1 ≤ (oneFiveStar.updateRating 0 (some 5)).ratings.count :=
  ⟨by decide, (updateRating_count_at_least_one oneFiveStar 0 (some 5) (by decide)).1⟩

/-- C24 (average stays in range): for every movie with non-negative buckets
whose count is the sum of the buckets, and every star rating `r`, the average
stored by the add call `updateRating(r)` lies between 1 and 5, hence within the
schema bounds 0 and 5. -/
theorem updateRating_average_in_range (m : Movie) (r : ℚ) (hr : isStar r)
    (hnn : 0 ≤ m.ratings.distribution.one ∧ 0 ≤ m.ratings.distribution.two ∧
      0 ≤ m.ratings.distribution.three ∧ 0 ≤ m.ratings.distribution.four ∧
      0 ≤ m.ratings.distribution.five)
    (hsum : m.ratings.countIsSum) :
    1 ≤ (m.updateRating r none).ratings.average ∧
    (m.updateRating r none).ratings.average ≤ 5 ∧
    0 ≤ (m.updateRating r none).ratings.average := by
  obtain ⟨k, hk, -⟩ := isStar_key r hr
  obtain ⟨hd, hcnt⟩ := updateRating_none m r
  unfold Ratings.countIsSum at hsum
  have e1 := Distribution.get_increment m.ratings.distribution k Key.one
  have e2 := Distribution.get_increment m.ratings.distribution k Key.two
  have e3 := Distribution.get_increment m.ratings.distribution k Key.three
  have e4 := Distribution.get_increment m.ratings.distribution k Key.four
  have e5 := Distribution.get_increment m.ratings.distribution k Key.five
  have hs := Key.ind_sum k
  have i1 : 0 ≤ Key.ind k Key.one := by unfold Key.ind; split_ifs <;> decide
  have i2 : 0 ≤ Key.ind k Key.two := by unfold Key.ind; split_ifs <;> decide
  have i3 : 0 ≤ Key.ind k Key.three := by unfold Key.ind; split_ifs <;> decide
  have i4 : 0 ≤ Key.ind k Key.four := by unfold Key.ind; split_ifs <;> decide
  have i5 : 0 ≤ Key.ind k Key.five := by unfold Key.ind; split_ifs <;> decide
  rw [← hk, ← hd] at e1 e2 e3 e4 e5
  simp only [Distribution.get] at e1 e2 e3 e4 e5
  obtain ⟨n1, n2, n3, n4, n5⟩ := hnn
  have hcpos : 0 < (m.updateRating r none).ratings.count := by
    rw [hcnt]
    omega
  have hlo : (m.updateRating r none).ratings.count
      ≤ (m.updateRating r none).ratings.distribution.total := by
    unfold Distribution.total
    rw [hcnt, e1, e2, e3, e4, e5]
    omega
  have hhi : (m.updateRating r none).ratings.distribution.total
      ≤ 5 * (m.updateRating r none).ratings.count := by
    unfold Distribution.total
    rw [hcnt, e1, e2, e3, e4, e5]
    omega
  have hcq : (0 : ℚ) < ((m.updateRating r none).ratings.count : ℚ) := by exact_mod_cast hcpos
  have hloq : ((m.updateRating r none).ratings.count : ℚ)
      ≤ ((m.updateRating r none).ratings.distribution.total : ℚ) := by exact_mod_cast hlo
  have hhiq : ((m.updateRating r none).ratings.distribution.total : ℚ)
      ≤ 5 * ((m.updateRating r none).ratings.count : ℚ) := by exact_mod_cast hhi
  have hb := mathRound_tenth_bounds
    (((m.updateRating r none).ratings.distribution.total : ℚ)
      / ((m.updateRating r none).ratings.count : ℚ))
    (by rw [le_div_iff₀ hcq]; linarith) (by rw [div_le_iff₀ hcq]; linarith)
  rw [updateRating_average_eq, if_pos hcpos]
  exact ⟨hb.1, hb.2, le_trans (by norm_num) hb.1⟩

theorem updateRating_average_in_range_witness :
    isStar 3 ∧ oneFiveStar.ratings.countIsSum ∧
    1 ≤ (oneFiveStar.updateRating 3 none).ratings.average :=
  ⟨by decide!, by decide!,
    (updateRating_average_in_range oneFiveStar 3 (by decide!) (by decide!) (by decide!)).1⟩

/-! ## Interleaved submissions -/

/-- A bucket that `updateRating` does not mark modified holds its loaded
value. -/
theorem updateRating_get_unmodified (l : Movie) (new : ℚ) (old : Option ℚ) (k : Key)
    (h : l.bucketModified new old k = false) :
    (l.updateRating new old).ratings.distribution.get k = l.ratings.distribution.get k := by
  unfold Movie.bucketModified at h
  rw [Bool.or_eq_false_iff] at h
  obtain ⟨hold, hnew⟩ := h
  have hnew1 : keyAt (new - 1) ≠ some k := by simpa using hnew
  have hinc : ∀ d : Distribution, (d.increment (keyAt (new - 1))).get k = d.get k := by
    intro d
    cases hk : keyAt (new - 1) with
    | none => rfl
    | some k0 =>
      rw [Distribution.increment, Distribution.get_set, if_neg]
      intro e
      exact hnew1 (by rw [hk, e])
  cases old with
  | none => exact hinc _
  | some o =>
    by_cases ht : truthy (some o) = true
    · rw [(updateRating_some l new o ht).1, hinc]
      cases hk1 : keyAt (o - 1) with
      | none => rfl
      | some k1 =>
        rw [Distribution.decrement, Distribution.get_set]
        by_cases e : k1 = k
        · rw [if_pos e]
          subst e
          simpa [ht, hk1] using hold
        · rw [if_neg e]
    · have hd : (l.updateRating new (some o)).ratings.distribution
          = l.ratings.distribution.increment (keyAt (new - 1)) := by
        simp [Movie.updateRating, ht]
      rw [hd, hinc]

/-- Saving onto the stored document the call was loaded from stores the
updated document. -/
theorem mergeModified_loaded (l : Movie) (new : ℚ) (old : Option ℚ) :
    mergeModified l l new old = l.updateRating new old := by
  have hb : ∀ k : Key,
      (if l.bucketModified new old k = true then
          (l.updateRating new old).ratings.distribution.get k
        else l.ratings.distribution.get k)
        = (l.updateRating new old).ratings.distribution.get k := by
    intro k
    cases h : l.bucketModified new old k with
    | true => rfl
    | false => exact (updateRating_get_unmodified l new old k h).symm
  have ha : (if (l.updateRating new old).ratings.average ≠ l.ratings.average then
        (l.updateRating new old).ratings.average else l.ratings.average)
      = (l.updateRating new old).ratings.average := by
    split_ifs with h
    · rfl
    · exact (not_not.mp h).symm
  simp only [mergeModified, hb, ha]
  rfl

/-- Saving onto a stored document that already equals the updated one changes
nothing. -/
theorem mergeModified_updated (l : Movie) (new : ℚ) (old : Option ℚ) :
    mergeModified (l.updateRating new old) l new old = l.updateRating new old := by
  simp only [mergeModified, ite_self]
  rfl

/-- With distinct movie identities, the path-wise save of a movie that is stored
as it was loaded is the replacement of the stored document. -/
theorem map_merge_loaded (ms : List Movie) (l : Movie) (new : ℚ) (old : Option ℚ)
    (hn : (ms.map (fun m => m.id)).Nodup) (hl : l ∈ ms) :
    ms.map (fun x => if x.id = l.id then mergeModified x l new old else x)
      = ms.map (fun x =>
          if x.id = (l.updateRating new old).id then l.updateRating new old else x) := by
  apply List.map_congr_left
  intro x hx
  by_cases hxl : x.id = l.id
  · have hxe : x = l := List.inj_on_of_nodup_map hn hx hl hxl
    rw [if_pos hxl, if_pos (show x.id = (l.updateRating new old).id from hxl), hxe,
      mergeModified_loaded]
  · rw [if_neg hxl, if_neg (show ¬ x.id = (l.updateRating new old).id from hxl)]

/-- The path-wise save of a movie after the same document has been stored
changes nothing. -/
theorem map_merge_saved (ms : List Movie) (l : Movie) (new : ℚ) (old : Option ℚ) :
    (ms.map (fun x =>
        if x.id = (l.updateRating new old).id then l.updateRating new old else x)).map
        (fun x => if x.id = l.id then mergeModified x l new old else x)
      = ms.map (fun x =>
          if x.id = (l.updateRating new old).id then l.updateRating new old else x) := by
  rw [List.map_map]
  apply List.map_congr_left
  intro x _
  simp only [Function.comp]
  by_cases hxl : x.id = (l.updateRating new old).id
  · rw [if_pos hxl, if_pos (show (l.updateRating new old).id = l.id from rfl),
      mergeModified_updated]
  · rw [if_neg hxl, if_neg (show ¬ x.id = l.id from hxl)]

/-- The store after a creating submission that is served alone and whose save
of the movie is accepted. -/
theorem submitReview_create_store (s : Store) (userId movieId : Nat) (rating : ℚ)
    (review title : Option String) (sp : Option Bool) (movie : Movie)
    (hm : s.findMovie movieId = some movie)
    (he : s.reviews.find? (fun r => decide (r.user = userId ∧ r.movie = movieId)) = none)
    (h1 : 1 ≤ rating) (h5 : rating ≤ 5)
    (hv : (createdReview s.nextId userId movieId rating review title sp).valid = true)
    (hval : (movie.updateRating rating none).valid = true) :
    submitReview s userId (some movieId) (some rating) review title sp =
      ({ movies := s.movies.map (fun x =>
            if x.id = (movie.updateRating rating none).id
              then movie.updateRating rating none else x)
         reviews := s.reviews ++ [createdReview s.nextId userId movieId rating review title sp]
         nextId := s.nextId + 1 },
        { status := 201, message := "Review created successfully" }) := by
  rw [submitReview_create s userId movieId rating review title sp movie hm he h1 h5 hv hval]
  simp only [Store.saveMovie, preSave_reviews, preSave_nextId]
  rw [preSave_saveMovie_movies]
  exact findMovie_id s movieId movie hm

/-- A creating call that runs all its steps without another call in between
ends in the store of the handler served alone. -/
theorem run_create (q : Submission) (s : Store) (movieId : Nat) (rating : ℚ) (movie : Movie)
    (hq1 : q.movieId = some movieId) (hq2 : q.rating = some rating)
    (hm : s.findMovie movieId = some movie)
    (he : s.reviews.find? (fun r => decide (r.user = q.userId ∧ r.movie = movieId)) = none)
    (h1 : 1 ≤ rating) (h5 : rating ≤ 5)
    (hv : (createdReview s.nextId q.userId movieId rating q.review q.title
      q.spoilerWarning).valid = true)
    (hval : (movie.updateRating rating none).valid = true)
    (hn : (s.movies.map (fun m => m.id)).Nodup) :
    q.run callSteps s Phase.start =
      ({ movies := s.movies.map (fun x =>
            if x.id = (movie.updateRating rating none).id
              then movie.updateRating rating none else x)
         reviews := s.reviews
           ++ [createdReview s.nextId q.userId movieId rating q.review q.title q.spoilerWarning]
         nextId := s.nextId + 1 },
        Phase.done { status := 201, message := "Review created successfully" }) := by
  have h0 : rating ≠ 0 := by
    intro h
    rw [h] at h1
    norm_num at h1
  have hr : ¬ (rating < 1 ∨ rating > 5) := by
    rintro (h | h)
    · exact absurd h1 (not_le.mpr h)
    · exact absurd h5 (not_le.mpr h)
  have e1 : q.step s Phase.start = (s, Phase.loaded movieId rating movie) := by
    simp only [Submission.step, hq1, hq2, if_neg h0, if_neg hr, hm]
  have e2 : q.step s (Phase.loaded movieId rating movie) =
      ({ s with nextId := s.nextId + 1 },
        Phase.saving movie (createdReview s.nextId q.userId movieId rating q.review q.title
          q.spoilerWarning) none) := by
    simp only [Submission.step, he, hv, if_true]
  have hm1 : ({ s with nextId := s.nextId + 1 } : Store).findMovie
      (createdReview s.nextId q.userId movieId rating q.review q.title q.spoilerWarning).movie
        = some movie := hm
  have e3 : q.step { s with nextId := s.nextId + 1 }
      (Phase.saving movie (createdReview s.nextId q.userId movieId rating q.review q.title
          q.spoilerWarning) none) =
      ({ s with nextId := s.nextId + 1 },
        Phase.hookLoaded movie (createdReview s.nextId q.userId movieId rating q.review q.title
          q.spoilerWarning) none movie) := by
    simp only [Submission.step, hm1, Option.isNone_none, Bool.true_or, if_true]
  have hc : (createdReview s.nextId q.userId movieId rating q.review q.title
      q.spoilerWarning).rating = rating := rfl
  have e4 : q.step { s with nextId := s.nextId + 1 }
      (Phase.hookLoaded movie (createdReview s.nextId q.userId movieId rating q.review q.title
          q.spoilerWarning) none movie) =
      ({ movies := s.movies.map (fun x =>
            if x.id = (movie.updateRating rating none).id
              then movie.updateRating rating none else x)
         reviews := s.reviews
         nextId := s.nextId + 1 },
        Phase.hookDone movie (createdReview s.nextId q.userId movieId rating q.review q.title
          q.spoilerWarning) none) := by
    simp only [Submission.step, hookSave, hc, hval, if_true, Store.writeMovie]
    rw [map_merge_loaded s.movies movie rating none hn (findMovie_mem s movieId movie hm)]
  have hany : s.reviews.any (fun r => decide (r.user
      = (createdReview s.nextId q.userId movieId rating q.review q.title q.spoilerWarning).user
        ∧ r.movie = (createdReview s.nextId q.userId movieId rating q.review q.title
          q.spoilerWarning).movie)) = false := by
    rw [List.any_eq_false]
    exact List.find?_eq_none.mp he
  have e5 : q.step
      { movies := s.movies.map (fun x =>
          if x.id = (movie.updateRating rating none).id
            then movie.updateRating rating none else x)
        reviews := s.reviews
        nextId := s.nextId + 1 }
      (Phase.hookDone movie (createdReview s.nextId q.userId movieId rating q.review q.title
          q.spoilerWarning) none) =
      ({ movies := s.movies.map (fun x =>
            if x.id = (movie.updateRating rating none).id
              then movie.updateRating rating none else x)
         reviews := s.reviews
           ++ [createdReview s.nextId q.userId movieId rating q.review q.title q.spoilerWarning]
         nextId := s.nextId + 1 },
        Phase.written movie (createdReview s.nextId q.userId movieId rating q.review q.title
          q.spoilerWarning) none) := by
    simp only [Submission.step, hany, Bool.false_eq_true, if_false]
  have e6 : q.step
      { movies := s.movies.map (fun x =>
          if x.id = (movie.updateRating rating none).id
            then movie.updateRating rating none else x)
        reviews := s.reviews
          ++ [createdReview s.nextId q.userId movieId rating q.review q.title q.spoilerWarning]
        nextId := s.nextId + 1 }
      (Phase.written movie (createdReview s.nextId q.userId movieId rating q.review q.title
          q.spoilerWarning) none) =
      ({ movies := s.movies.map (fun x =>
            if x.id = (movie.updateRating rating none).id
              then movie.updateRating rating none else x)
         reviews := s.reviews
           ++ [createdReview s.nextId q.userId movieId rating q.review q.title q.spoilerWarning]
         nextId := s.nextId + 1 },
        Phase.done { status := 201, message := "Review created successfully" }) := by
    simp only [Submission.step, Option.map_none', hc, hval, if_true, Store.writeMovie]
    rw [map_merge_saved s.movies movie rating none]
  simp only [callSteps, Submission.run, e1, e2, e3, e4, e5, e6]
  rfl

/-- Letting one call take `k` steps in a row is running that call `k` steps. -/
theorem advance_replicate (k : Nat) :
    ∀ (s : Store) (pre post : List (Submission × Phase)) (q : Submission) (p : Phase),
      (List.replicate k pre.length).foldl Conc.advance
          { store := s, calls := pre ++ (q, p) :: post }
        = { store := (q.run k s p).1, calls := pre ++ (q, (q.run k s p).2) :: post } := by
  induction k with
  | zero =>
    intro s pre post q p
    rfl
  | succ k ih =>
    intro s pre post q p
    have hstep : Conc.advance { store := s, calls := pre ++ (q, p) :: post } pre.length
        = { store := (q.step s p).1, calls := pre ++ (q, (q.step s p).2) :: post } := by
      have hget : (pre ++ (q, p) :: post).get? pre.length = some (q, p) := by
        rw [List.get?_eq_getElem?, List.getElem?_append_right (le_refl _), Nat.sub_self,
          List.getElem?_cons_zero]
      have hset : (pre ++ (q, p) :: post).set pre.length (q, (q.step s p).2)
          = pre ++ (q, (q.step s p).2) :: post := by simp
      simp only [Conc.advance, hget, hset]
    rw [List.replicate_succ, List.foldl_cons, hstep, ih]
    rfl

/-- The store after the interleaving without overlap: the calls are run one
after the other, each to its end. -/
theorem schedule_serial (qs : List Submission) :
    ∀ (s : Store) (pre : List (Submission × Phase)),
      (Conc.schedule { store := s, calls := pre ++ qs.map (fun q => (q, Phase.start)) }
          (serialOrder pre.length qs.length)).store
        = qs.foldl (fun st q => (q.run callSteps st Phase.start).1) s := by
  induction qs with
  | nil =>
    intro s pre
    rfl
  | cons q rest ih =>
    intro s pre
    have h := ih (q.run callSteps s Phase.start).1
      (pre ++ [(q, (q.run callSteps s Phase.start).2)])
    simp only [Conc.schedule, List.length_append, List.length_singleton, List.append_assoc,
      List.singleton_append] at h
    simp only [Conc.schedule, List.map_cons, List.length_cons, serialOrder, List.foldl_append,
      List.foldl_cons, advance_replicate]
    exact h

/-- After a movie has been replaced by a document with its identity, the lookup
finds that document. -/
theorem find_replaced (ms : List Movie) (id : Nat) (movie u : Movie)
    (h : ms.find? (fun m => decide (m.id = id)) = some movie) (hu : u.id = movie.id) :
    (ms.map (fun x => if x.id = u.id then u else x)).find? (fun m => decide (m.id = id))
      = some u := by
  have hid : movie.id = id := by
    have := List.find?_some h
    simpa using this
  induction ms with
  | nil => simp at h
  | cons a rest ih =>
    rw [List.map_cons]
    by_cases ha : a.id = id
    · have hau : a.id = u.id := ha.trans (hid.symm.trans hu.symm)
      rw [if_pos hau, List.find?_cons_of_pos]
      simpa using hu.trans hid
    · have hau : ¬ a.id = u.id := fun e => ha (e.trans (hu.trans hid))
      rw [if_neg hau, List.find?_cons_of_neg]
      · apply ih
        rw [List.find?_cons_of_neg] at h
        · exact h
        · simpa using ha
      · simpa using ha

/-- Replacing a movie by a document with its identity keeps the identities. -/
theorem ids_replaced (ms : List Movie) (u : Movie) :
    (ms.map (fun x => if x.id = u.id then u else x)).map (fun m => m.id)
      = ms.map (fun m => m.id) := by
  rw [List.map_map]
  apply List.map_congr_left
  intro x _
  simp only [Function.comp]
  by_cases hx : x.id = u.id
  · rw [if_pos hx, hx]
  · rw [if_neg hx]

/-- Adding a star rating keeps `count == sum(buckets)`. -/
theorem countIsSum_add (m : Movie) (r : ℚ) (hr : isStar r) (h : m.ratings.countIsSum) :
    (m.updateRating r none).ratings.countIsSum := by
  obtain ⟨k, hk, -⟩ := isStar_key r hr
  obtain ⟨hd, hcnt⟩ := updateRating_none m r
  unfold Ratings.countIsSum at h ⊢
  rw [hd, hcnt, hk]
  have e1 := Distribution.get_increment m.ratings.distribution k Key.one
  have e2 := Distribution.get_increment m.ratings.distribution k Key.two
  have e3 := Distribution.get_increment m.ratings.distribution k Key.three
  have e4 := Distribution.get_increment m.ratings.distribution k Key.four
  have e5 := Distribution.get_increment m.ratings.distribution k Key.five
  have hsum := Key.ind_sum k
  simp only [Distribution.get] at e1 e2 e3 e4 e5
  rw [e1, e2, e3, e4, e5]
  omega

/-- Adding a star rating keeps the buckets non-negative. -/
theorem nonneg_add (m : Movie) (r : ℚ) (hr : isStar r)
    (h : ∀ k : Key, 0 ≤ m.ratings.distribution.get k) :
    ∀ k : Key, 0 ≤ (m.updateRating r none).ratings.distribution.get k := by
  intro k
  obtain ⟨k0, hk, -⟩ := isStar_key r hr
  rw [(updateRating_none m r).1, hk, Distribution.get_increment]
  have := h k
  have hi : 0 ≤ Key.ind k0 k := by
    unfold Key.ind
    split_ifs <;> decide
  omega

/-- A star value lies between 1 and 5. -/
theorem isStar_bounds (r : ℚ) (hr : isStar r) : 1 ≤ r ∧ r ≤ 5 := by
  rcases hr with h | h | h | h | h <;> rw [h] <;> norm_num

/-- Creating submissions of distinct users for one movie, run one after the
other: every call adds one review and one add delta. -/
theorem serial_fold (movieId : Nat) (qs : List Submission) :
    ∀ (s : Store) (movie : Movie),
      (s.movies.map (fun m => m.id)).Nodup →
      s.findMovie movieId = some movie →
      (∀ k : Key, 0 ≤ movie.ratings.distribution.get k) →
      movie.ratings.countIsSum →
      (∀ q ∈ qs, q.movieId = some movieId ∧ ∃ r : ℚ, q.rating = some r ∧ isStar r ∧
        jsLength ((q.review.map jsTrim).getD "") ≤ 1000 ∧
        jsLength ((q.title.map jsTrim).getD "") ≤ 100) →
      (qs.map (fun q => q.userId)).Nodup →
      (∀ q ∈ qs, ∀ r ∈ s.reviews, ¬ (r.user = q.userId ∧ r.movie = movieId)) →
      ∃ m : Movie,
        (qs.foldl (fun st q => (q.run callSteps st Phase.start).1) s).findMovie movieId
          = some m ∧
        m.ratings.count = movie.ratings.count + qs.length ∧
        m.ratings.countIsSum ∧
        (qs.foldl (fun st q => (q.run callSteps st Phase.start).1) s).reviews.length
          = s.reviews.length + qs.length := by
  induction qs with
  | nil =>
    intro s movie _ hm _ hsum _ _ _
    exact ⟨movie, hm, by simp, hsum, rfl⟩
  | cons q rest ih =>
    intro s movie hn hm hnn hsum hq hu hfresh
    obtain ⟨hq1, r, hq2, hr, hlen1, hlen2⟩ := hq q (List.mem_cons_self _ _)
    obtain ⟨h1, h5⟩ := isStar_bounds r hr
    have he : s.reviews.find? (fun x => decide (x.user = q.userId ∧ x.movie = movieId))
        = none := by
      rw [List.find?_eq_none]
      intro x hx
      simpa using hfresh q (List.mem_cons_self _ _) x hx
    have hv : (createdReview s.nextId q.userId movieId r q.review q.title
        q.spoilerWarning).valid = true := by
      simp only [Review.valid, createdReview, Bool.and_eq_true, decide_eq_true_eq]
      exact ⟨⟨⟨h1, h5⟩, hlen1⟩, hlen2⟩
    have hval : (movie.updateRating r none).valid = true :=
      valid_of_countIsSum _ (nonneg_add movie r hr hnn) (countIsSum_add movie r hr hsum)
        (updateRating_average_eq movie r none)
    rw [List.foldl_cons, run_create q s movieId r movie hq1 hq2 hm he h1 h5 hv hval hn]
    have hu2 := List.nodup_cons.mp hu
    obtain ⟨m, hfm, hcount, hs2, hlen⟩ := ih
      { movies := s.movies.map (fun x =>
          if x.id = (movie.updateRating r none).id then movie.updateRating r none else x)
        reviews := s.reviews
          ++ [createdReview s.nextId q.userId movieId r q.review q.title q.spoilerWarning]
        nextId := s.nextId + 1 }
      (movie.updateRating r none)
      (by rw [ids_replaced]; exact hn)
      (find_replaced s.movies movieId movie _ hm rfl)
      (nonneg_add movie r hr hnn)
      (countIsSum_add movie r hr hsum)
      (fun q2 hq2m => hq q2 (List.mem_cons_of_mem _ hq2m))
      hu2.2
      (by
        intro q2 hq2m x hx
        rcases List.mem_append.mp hx with hx | hx
        · exact hfresh q2 (List.mem_cons_of_mem _ hq2m) x hx
        · rw [List.mem_singleton] at hx
          rw [hx]
          intro hcontra
          apply hu2.1
          rw [List.mem_map]
          exact ⟨q2, hq2m, hcontra.1.symm⟩)
    refine ⟨m, hfm, ?_, hs2, ?_⟩
    · rw [hcount, (updateRating_none movie r).2, List.length_cons]
      push_cast
      ring
    · rw [hlen]
      simp only [List.length_append, List.length_cons, List.length_nil]
      omega

/-- C22 (single delta per creation): a `submitReview` that creates a review
with star rating `r` and is answered 201 leaves the stored movie at its
pre-state plus one add delta: `count + 1`, bucket `r` plus 1, the other
buckets unchanged. The answer 201 means that the new review and the updated
movie both pass the schema validators. The pre-save middleware stores the movie
with the delta; the handler computes the same delta on the document it loaded
before, and its save writes those same values, so the stored document does not
change again. With distinct movie identities the call run step by step ends in
the same store. -/
theorem creation_applies_one_delta (s : Store) (userId movieId : Nat) (rating : ℚ)
    (review title : Option String) (sp : Option Bool) (movie : Movie)
    (hm : s.findMovie movieId = some movie)
    (he : s.reviews.find? (fun r => decide (r.user = userId ∧ r.movie = movieId)) = none)
    (hr : isStar rating)
    (hok : (submitReview s userId (some movieId) (some rating) review title sp).2.status
      = 201) :
    (createdReview s.nextId userId movieId rating review title sp).valid = true ∧
    (movie.updateRating rating none).valid = true ∧
    (preSave s (createdReview s.nextId userId movieId rating review title sp) true
      true).findMovie movieId = some (movie.updateRating rating none) ∧
    mergeModified (movie.updateRating rating none) movie rating none
      = movie.updateRating rating none ∧
    (∃ m : Movie,
      (submitReview s userId (some movieId) (some rating) review title sp).1.findMovie movieId
        = some m ∧
      m.ratings.count = movie.ratings.count + 1 ∧
      m.ratings.distribution.bucket rating = movie.ratings.distribution.bucket rating + 1 ∧
      m.ratings.distribution.one = movie.ratings.distribution.one + (if rating = 1 then 1 else 0) ∧
      m.ratings.distribution.two = movie.ratings.distribution.two + (if rating = 2 then 1 else 0) ∧
      m.ratings.distribution.three
        = movie.ratings.distribution.three + (if rating = 3 then 1 else 0) ∧
      m.ratings.distribution.four
        = movie.ratings.distribution.four + (if rating = 4 then 1 else 0) ∧
      m.ratings.distribution.five
        = movie.ratings.distribution.five + (if rating = 5 then 1 else 0)) ∧
    ((s.movies.map (fun m => m.id)).Nodup →
      (({ userId := userId, movieId := some movieId, rating := some rating, review := review,
          title := title, spoilerWarning := sp } : Submission).run callSteps s Phase.start).1
        = (submitReview s userId (some movieId) (some rating) review title sp).1) := by
  obtain ⟨h1, h5⟩ := isStar_bounds rating hr
  have hboth : (createdReview s.nextId userId movieId rating review title sp).valid = true ∧
      (movie.updateRating rating none).valid = true := by
    rcases submitReview_outcome s userId (some movieId) (some rating) review title sp with
      ⟨-, h4 | h4 | h4⟩ | ⟨m1, r1, movie1, e1, hm1, -, he1, -⟩ |
      ⟨m1, r1, movie1, hm1, hr1, -, hmv, -, -, hv1, hst, -⟩
    · rw [h4] at hok
      exact absurd hok (by decide)
    · rw [h4] at hok
      exact absurd hok (by decide)
    · rw [h4] at hok
      exact absurd hok (by decide)
    · cases Option.some.inj hm1
      rw [he] at he1
      exact absurd he1 (by simp)
    · cases Option.some.inj hm1
      cases Option.some.inj hr1
      rw [hm] at hmv
      cases Option.some.inj hmv
      refine ⟨hv1, ?_⟩
      by_contra hval
      rw [hst, if_neg hval] at hok
      exact absurd hok (by decide)
  obtain ⟨hv, hval⟩ := hboth
  have hsub := submitReview_create_store s userId movieId rating review title sp movie hm he h1 h5
    hv hval
  have hpre : preSave s (createdReview s.nextId userId movieId rating review title sp) true true
      = s.saveMovie (movie.updateRating rating none) := by
    have hm1 : s.findMovie
        (createdReview s.nextId userId movieId rating review title sp).movie = some movie := hm
    have hval1 : (movie.updateRating
        (createdReview s.nextId userId movieId rating review title sp).rating none).valid
          = true := hval
    simp only [preSave, hm1, Bool.or_self, if_true, Bool.not_true, Bool.false_eq_true, if_false,
      hval1]
    rfl
  refine ⟨hv, hval, ?_, mergeModified_updated _ _ _, ?_, ?_⟩
  · rw [hpre]
    exact find_replaced s.movies movieId movie _ hm rfl
  · refine ⟨movie.updateRating rating none, ?_, ?_⟩
    · rw [hsub]
      exact find_replaced s.movies movieId movie _ hm rfl
    · obtain ⟨k, hk, e1, e2, e3, e4, e5⟩ := isStar_key rating hr
      obtain ⟨hd, hcnt⟩ := updateRating_none movie rating
      refine ⟨hcnt, ?_, ?_⟩
      · unfold Distribution.bucket
        rw [hd, hk]
        simp only [Distribution.get_increment, Key.ind, if_true]
      · rw [hd, hk]
        simp only [e1, e2, e3, e4, e5]
        exact ⟨Distribution.get_increment _ k Key.one, Distribution.get_increment _ k Key.two,
          Distribution.get_increment _ k Key.three, Distribution.get_increment _ k Key.four,
          Distribution.get_increment _ k Key.five⟩
  · intro hn
    rw [hsub, run_create _ s movieId rating movie rfl rfl hm he h1 h5 hv hval hn]

theorem creation_applies_one_delta_witness :
    oneMovie.findMovie 1 = some { id := 1 } ∧ isStar 5 ∧
    (submitReview oneMovie 7 (some 1) (some 5) none none none).2.status = 201 ∧
    (∃ m : Movie,
      (submitReview oneMovie 7 (some 1) (some 5) none none none).1.findMovie 1 = some m ∧
      m.ratings.count = 0 + 1) :=
  ⟨by decide!, by decide!, by decide!,
    (creation_applies_one_delta oneMovie 7 1 5 none none none { id := 1 } (by decide!) (by decide!)
      (by decide!) (by decide!)).2.2.2.2.1.imp (fun _ h => ⟨h.1, h.2.1⟩)⟩

/-- C21, as stated, fails: users 1 and 2 submit ratings 5 and 4 for movie 1,
which has count 0 and no review. Both calls load the movie before either
saves; the first call then runs to its end and the second follows. Both calls
are answered 201 and both reviews are stored, but the movie ends with count 1
(not 2), the second call having written the count it computed from the
document it loaded at its start. When both rate 5 the five-star bucket ends at
1 as well, so the buckets sum to 1. Without overlap the same two calls leave
count 2. -/
theorem overlapping_submissions_lose_update :
    oneMovie.movies.map (fun m => (m.id, m.ratings.count)) = [(1, 0)] ∧
    oneMovie.reviews = [] ∧
    ((Conc.init oneMovie twoCalls).schedule overlappingOrder).calls.map
        (fun c => c.2.answer) = [201, 201] ∧
    ((Conc.init oneMovie twoCalls).schedule overlappingOrder).store.reviews.map
        (fun r => (r.id, r.user, r.movie, r.rating)) = [(0, 1, 1, 5), (1, 2, 1, 4)] ∧
    ((Conc.init oneMovie twoCalls).schedule overlappingOrder).store.movies.map
        (fun m => m.ratings)
      = [{ average := 4, count := 1, distribution := { five := 1, four := 1 } }] ∧
    ((Conc.init oneMovie twoFiveStarCalls).schedule overlappingOrder).store.movies.map
        (fun m => m.ratings)
      = [{ average := 5, count := 1, distribution := { five := 1 } }] ∧
    ((Conc.init oneMovie twoCalls).schedule (serialOrder 0 2)).store.movies.map
        (fun m => m.ratings)
      = [{ average := 9 / 2, count := 2, distribution := { five := 1, four := 1 } }] := by
  decide!

/-- C21, amended: `N` calls of `submitReview` by `N` distinct users for the same
movie, each with a star rating and with texts whose `length` after trimming is
at most 1000 (review) and 100 (title), none of the users having a review of
the movie, served without overlap (each call takes all its steps before the
next one starts), on a movie with non-negative buckets whose count is their
sum: the movie's count grows by `N`, `count == sum(buckets)` is kept and `N`
reviews are added; starting from count 0 the count and the sum of the five
buckets are `N`. -/
theorem serial_submissions_counted (s : Store) (qs : List Submission) (movieId : Nat)
    (movie : Movie)
    (hn : (s.movies.map (fun m => m.id)).Nodup)
    (hm : s.findMovie movieId = some movie)
    (hnn : ∀ k : Key, 0 ≤ movie.ratings.distribution.get k)
    (hsum : movie.ratings.countIsSum)
    (hq : ∀ q ∈ qs, q.movieId = some movieId ∧ ∃ r : ℚ, q.rating = some r ∧ isStar r ∧
      jsLength ((q.review.map jsTrim).getD "") ≤ 1000 ∧
      jsLength ((q.title.map jsTrim).getD "") ≤ 100)
    (hu : (qs.map (fun q => q.userId)).Nodup)
    (hfresh : ∀ q ∈ qs, ∀ r ∈ s.reviews, ¬ (r.user = q.userId ∧ r.movie = movieId)) :
    ∃ m : Movie,
      ((Conc.init s qs).schedule (serialOrder 0 qs.length)).store.findMovie movieId = some m ∧
      m.ratings.count = movie.ratings.count + qs.length ∧
      m.ratings.countIsSum ∧
      ((Conc.init s qs).schedule (serialOrder 0 qs.length)).store.reviews.length
        = s.reviews.length + qs.length ∧
      (movie.ratings.count = 0 →
        m.ratings.count = qs.length ∧
        m.ratings.distribution.one + m.ratings.distribution.two + m.ratings.distribution.three
          + m.ratings.distribution.four + m.ratings.distribution.five = qs.length) := by
  have hser := schedule_serial qs s []
  simp only [List.nil_append, List.length_nil] at hser
  obtain ⟨m, hfm, hcount, hs2, hlen⟩ :=
    serial_fold movieId qs s movie hn hm hnn hsum hq hu hfresh
  refine ⟨m, ?_, hcount, hs2, ?_, ?_⟩
  · unfold Conc.init
    rw [hser]
    exact hfm
  · unfold Conc.init
    rw [hser]
    exact hlen
  · intro h0
    have hc : m.ratings.count = qs.length := by rw [hcount, h0, zero_add]
    refine ⟨hc, ?_⟩
    unfold Ratings.countIsSum at hs2
    rw [← hs2, hc]

theorem serial_submissions_counted_witness :
    (oneMovie.movies.map (fun m => m.id)).Nodup ∧
    oneMovie.findMovie 1 = some { id := 1 } ∧
    (twoCalls.map (fun q => q.userId)).Nodup ∧
    (∃ m : Movie,
      ((Conc.init oneMovie twoCalls).schedule (serialOrder 0 twoCalls.length)).store.findMovie 1
        = some m ∧
      m.ratings.count = (0 : Int) + twoCalls.length) :=
  ⟨by decide, by decide!, by decide,
    (serial_submissions_counted oneMovie twoCalls 1 { id := 1 } (by decide) (by decide!)
      (fun k => by cases k <;> decide) (by decide!) (by decide!) (by decide) (by decide!)).imp
      (fun _ h => ⟨h.1, h.2.1⟩)⟩

end MovieReview
